import Mathlib

/-!
Group membership, marker mask and loot-roll engine.

Shallow embedding of `src/server/game/Groups/Group.h` and of
`WorldSession::HandleMessagechatOpcode` in `src/server/game/Handlers/ChatHandler.cpp`.

* Everything that has a body in `Group.h` (the capacity constants, the marker-mask
  accessors, `GetMembersCount`, `GroupDisenchantInfo::Initialize`, the enumerations and
  the field layout of `MemberSlot`, `Roll` and `Group`) is translated from the header.
* The member functions that `Group.h` only declares (`AddMember`, `RemoveMember`,
  `ChangeMembersGroup`, `LoadMemberFromDB`, `CountRollVote`, `CountTheRoll`, `EndRoll`, ...)
  have their bodies in `Group.cpp`, which is not part of the sources at hand.  They are
  modelled from the specification; each such definition says so in its doc comment.

* The chat handler is translated from `ChatHandler.cpp` as a function from what the handler
  reads (the packet, the session, the world configuration, the member functions of `Group`
  and the script hooks, all of them parameters) to the list of what it does, in order.

Machine integers are natural numbers with an explicit reduction modulo `2 ^ w`.
In the group model, notifier calls (packets sent to members) carry no group state and are
not modelled.
-/

namespace Eluna

/-! ## Constants of `Group.h` -/

/-- Source: `#define MAX_GROUP_SIZE 5`. -/
def MAX_GROUP_SIZE : Nat := 5

/-- Source: `#define MAXRAIDSIZE 40`. -/
def MAXRAIDSIZE : Nat := 40

/-- A token of an integer constant expression made of literals, `*` and `/`. -/
inductive CTok where
  | lit (n : Nat)
  | mul
  | div
  deriving DecidableEq, Repr

/-- Replacement list of `#define MAX_RAID_SUBGROUPS MAXRAIDSIZE/MAX_GROUP_SIZE`: the three
tokens, without parentheses, exactly as the preprocessor pastes them. -/
def MAX_RAID_SUBGROUPS_tokens : List CTok :=
  [CTok.lit MAXRAIDSIZE, CTok.div, CTok.lit MAX_GROUP_SIZE]

/-- Left-to-right evaluation of `acc (op lit)*`; `*` and `/` have the same precedence and
associate to the left in C++. -/
def evalCTokFrom : Nat → List CTok → Option Nat
  | acc, [] => some acc
  | acc, CTok.mul :: CTok.lit n :: rest => evalCTokFrom (acc * n) rest
  | acc, CTok.div :: CTok.lit n :: rest => if n = 0 then none else evalCTokFrom (acc / n) rest
  | _, _ => none

/-- Value of a token sequence `lit (op lit)*`, `none` when it is malformed or divides by 0. -/
def evalCTok : List CTok → Option Nat
  | CTok.lit n :: rest => evalCTokFrom n rest
  | _ => none

/-- Source: `#define MAX_RAID_SUBGROUPS MAXRAIDSIZE/MAX_GROUP_SIZE`, used on its own. -/
def MAX_RAID_SUBGROUPS : Nat := MAXRAIDSIZE / MAX_GROUP_SIZE

/-- Source: `#define TARGET_ICONS_COUNT 8`. -/
def TARGET_ICONS_COUNT : Nat := 8

/-- Reduction of a value to `uint8`. -/
def toUInt8 (x : Nat) : Nat := x % 256

/-- Reduction of a value to `uint32`. -/
def toUInt32 (x : Nat) : Nat := x % 4294967296

/-- Bitwise complement `~x` on `uint32`. -/
def not32 (x : Nat) : Nat := 4294967295 - toUInt32 x

/-- Source: `enum RollVote`. -/
inductive RollVote where
  | PASS
  | NEED
  | GREED
  | DISENCHANT
  | NOT_EMITED_YET
  | NOT_VALID
  deriving DecidableEq, Repr

/-- Enumerator values of `enum RollVote`. -/
def RollVote.toNat : RollVote → Nat
  | RollVote.PASS => 0
  | RollVote.NEED => 1
  | RollVote.GREED => 2
  | RollVote.DISENCHANT => 3
  | RollVote.NOT_EMITED_YET => 4
  | RollVote.NOT_VALID => 5

/-- Conversion of the raw `uint8 Choise` argument to an enumerator of `RollVote`. -/
def RollVote.ofNat? : Nat → Option RollVote
  | 0 => some RollVote.PASS
  | 1 => some RollVote.NEED
  | 2 => some RollVote.GREED
  | 3 => some RollVote.DISENCHANT
  | 4 => some RollVote.NOT_EMITED_YET
  | 5 => some RollVote.NOT_VALID
  | _ => none

/-- Source: `MEMBER_FLAG_ASSISTANT = 0x01`. -/
def MEMBER_FLAG_ASSISTANT : Nat := 0x01

/-- Source: `MEMBER_FLAG_MAINTANK = 0x02`. -/
def MEMBER_FLAG_MAINTANK : Nat := 0x02

/-- Source: `MEMBER_FLAG_MAINASSIST = 0x04`. -/
def MEMBER_FLAG_MAINASSIST : Nat := 0x04

/-- Source: `GROUP_FLAG_RAID = 0x002`. -/
def GROUP_FLAG_RAID : Nat := 0x002

/-- Source: `GROUP_FLAG_DESTROYED = 0x010`. -/
def GROUP_FLAG_DESTROYED : Nat := 0x010

/-! ## Data model of `Group.h` -/

/-- Identity of a game object; `ObjectGuid::Empty` is `0`. -/
abbrev ObjectGuid := Nat

/-- Source: `ObjectGuid::Empty`. -/
def ObjectGuid.Empty : ObjectGuid := 0

/-- Source: `struct Group::MemberSlot`. -/
structure MemberSlot where
  guid : ObjectGuid
  name : String
  group : Nat
  flags : Nat
  roles : Nat
  guildId : Nat
  deriving DecidableEq, Repr

/-- Source: `class Roll`; `playerVote` is the `std::map<ObjectGuid, RollVote>` as its list of
entries in key order, `loot` stands for the `Loot*` held by the `LootValidatorRef` base. -/
structure Roll where
  itemGUID : ObjectGuid
  itemid : Nat
  itemRandomPropId : Nat
  itemRandomSuffix : Nat
  itemCount : Nat
  playerVote : List (ObjectGuid × RollVote)
  totalPlayersRolling : Nat
  totalNeed : Nat
  totalGreed : Nat
  totalPass : Nat
  itemSlot : Nat
  rollVoteMask : Nat
  loot : Nat
  deriving DecidableEq, Repr

/-- Source: `struct InstanceGroupBind` together with its key in `m_boundInstances`
(the difficulty index of the array and the map id). -/
structure InstanceGroupBind where
  difficulty : Nat
  mapId : Nat
  save : Nat
  perm : Bool
  deriving DecidableEq, Repr

/-- Source: `struct RaidMarkerInfo`. -/
structure RaidMarkerInfo where
  summonerGuid : ObjectGuid
  markerGuid : ObjectGuid
  deriving DecidableEq, Repr

/-- Source: `struct Group::GroupDisenchantInfo`. -/
structure GroupDisenchantInfo where
  DisenchanterGUID : ObjectGuid
  MaxDisenchantSkillLevel : Nat
  deriving DecidableEq, Repr

/-- Source: `GroupDisenchantInfo::Initialize`. -/
def GroupDisenchantInfo.Initialize (_d : GroupDisenchantInfo) : GroupDisenchantInfo :=
  { DisenchanterGUID := ObjectGuid.Empty, MaxDisenchantSkillLevel := 0 }

/-- Source: the data members of `class Group`.  `m_invitees` holds the guids of the invited
players, `m_bgGroup` and `m_bfGroup` the identity of the battleground or battlefield (if any),
`m_subGroupsCounts` the counter array behind the `uint8*`; `m_memberMgr` (the intrusive list
of online `Player` objects) has no counterpart. -/
structure Group where
  m_memberSlots : List MemberSlot
  m_invitees : List ObjectGuid
  m_leaderGuid : ObjectGuid
  m_leaderName : String
  m_groupFlags : Nat
  m_markerMask : Nat
  m_dungeonDifficulty : Nat
  m_raidDifficulty : Nat
  m_bgGroup : Option Nat
  m_bfGroup : Option Nat
  m_targetIcons : List ObjectGuid
  m_lootMethod : Nat
  m_lootThreshold : Nat
  m_looterGuid : ObjectGuid
  m_masterLooterGuid : ObjectGuid
  RollId : List Roll
  m_boundInstances : List InstanceGroupBind
  m_subGroupsCounts : List Nat
  m_guid : ObjectGuid
  m_counter : Nat
  m_disenchantInfo : GroupDisenchantInfo
  m_dbStoreId : Nat
  m_raidMarkers : List RaidMarkerInfo
  deriving DecidableEq, Repr

namespace Group

/-! ## Member functions defined in `Group.h` -/

/-- Source: `void SetGroupMarkerMask(uint32 mask) { m_markerMask = mask; }`. -/
def SetGroupMarkerMask (g : Group) (mask : Nat) : Group :=
  { g with m_markerMask := toUInt32 mask }

/-- Source: `void AddGroupMarkerMask(uint32 mask) { m_markerMask |= mask; }`. -/
def AddGroupMarkerMask (g : Group) (mask : Nat) : Group :=
  { g with m_markerMask := g.m_markerMask ||| toUInt32 mask }

/-- Source: `void RemoveGroupMarkerMask(uint32 mask)
{ if (mask == 0x20) m_markerMask = 0x20; m_markerMask &= ~mask; }`:
the assignment of the first statement is followed, unconditionally, by the masking. -/
def RemoveGroupMarkerMask (g : Group) (mask : Nat) : Group :=
  let mask := toUInt32 mask
  let g1 : Group := if mask = 0x20 then { g with m_markerMask := 0x20 } else g
  { g1 with m_markerMask := g1.m_markerMask &&& not32 mask }

/-- Source: `bool HasMarker(uint32 mask) { return (m_markerMask & mask) != 0; }`. -/
def HasMarker (g : Group) (mask : Nat) : Bool :=
  (g.m_markerMask &&& toUInt32 mask) != 0

/-- Source: `uint32 GetMarkerMask() { return m_markerMask; }`. -/
def GetMarkerMask (g : Group) : Nat := g.m_markerMask

/-- Source: `uint32 GetMembersCount() const { return m_memberSlots.size(); }`. -/
def GetMembersCount (g : Group) : Nat := toUInt32 g.m_memberSlots.length

/-- Source: `uint32 GetInviteeCount() const { return m_invitees.size(); }`. -/
def GetInviteeCount (g : Group) : Nat := toUInt32 g.m_invitees.length

/-- Source: `GroupFlags GetGroupFlags() const { return m_groupFlags; }`. -/
def GetGroupFlags (g : Group) : Nat := g.m_groupFlags

end Group

/-! ## Member functions declared in `Group.h` whose bodies are in `Group.cpp` -/

/-- Named failures of section 7 of the specification.  `DuplicateMember` is the failure of
`AddMember` for a guid that is already a member, for which the specification has no name. -/
inductive GroupError where
  | MemberNotFound
  | DuplicateVote
  | InvalidVoteKind
  | RollNotFound
  | GroupFull
  | SubgroupFull
  | InstanceStillOccupied
  | DuplicateMember
  deriving DecidableEq, Repr

/-- Result of a command: success or a named failure. -/
inductive Outcome where
  | ok
  | failed (e : GroupError)
  deriving DecidableEq, Repr

/-- The part of a `Player` that `AddMember` stores in the new member slot. -/
structure Player where
  guid : ObjectGuid
  name : String
  guildId : Nat
  deriving DecidableEq, Repr

/-- External collaborators and constants that neither `Group.h` nor the specification
fixes: the minimum membership of a group as a function of its flags, the bit of a vote kind
in `Roll::rollVoteMask`, the enchanting skill of a participant, and the character cache
consulted when a member is loaded from the database. -/
structure World where
  minMembers : Nat → Nat
  rollVoteFlag : RollVote → Nat
  enchantingSkill : ObjectGuid → Nat
  characterName : ObjectGuid → String
  characterGuild : ObjectGuid → Nat

/-- How a roll ended: `Resolved winner draw tier`, or `Discarded` when every vote was a pass. -/
inductive Resolution where
  | Resolved (winner : ObjectGuid) (draw : Nat) (tier : RollVote)
  | Discarded
  deriving DecidableEq, Repr

namespace Group

/-- Modelled from the spec: the constructor `Group()` (body in `Group.cpp`).  A new group has
no member, no invitee, no roll, no binding, no leader, and one zeroed occupancy counter for
each of the `MAX_RAID_SUBGROUPS` subgroups. -/
def ctor : Group :=
  { m_memberSlots := [], m_invitees := [], m_leaderGuid := ObjectGuid.Empty,
    m_leaderName := "", m_groupFlags := 0, m_markerMask := 0, m_dungeonDifficulty := 0,
    m_raidDifficulty := 0, m_bgGroup := none, m_bfGroup := none,
    m_targetIcons := List.replicate TARGET_ICONS_COUNT ObjectGuid.Empty,
    m_lootMethod := 0, m_lootThreshold := 0, m_looterGuid := ObjectGuid.Empty,
    m_masterLooterGuid := ObjectGuid.Empty, RollId := [], m_boundInstances := [],
    m_subGroupsCounts := List.replicate MAX_RAID_SUBGROUPS 0, m_guid := ObjectGuid.Empty,
    m_counter := 0,
    m_disenchantInfo := { DisenchanterGUID := ObjectGuid.Empty, MaxDisenchantSkillLevel := 0 },
    m_dbStoreId := 0, m_raidMarkers := [] }

/-- Modelled from the spec: `isRaidGroup` (body in `Group.cpp`); "raid-flagged" is read as
the bit `GROUP_FLAG_RAID` of `m_groupFlags`. -/
def isRaidGroup (g : Group) : Bool := (g.m_groupFlags &&& GROUP_FLAG_RAID) != 0

/-- Modelled from the spec: `IsFull` (body in `Group.cpp`): "capacity (5, or 40 when
raid-flagged) is reached". -/
def IsFull (g : Group) : Bool :=
  if g.isRaidGroup then decide (MAXRAIDSIZE ≤ g.m_memberSlots.length)
  else decide (MAX_GROUP_SIZE ≤ g.m_memberSlots.length)

/-- Modelled from the spec: `_getMemberCSlot` (body in `Group.cpp`), the lookup of a guid in
the ordered membership collection; the first slot with that guid. -/
def _getMemberCSlot (g : Group) (Guid : ObjectGuid) : Option MemberSlot :=
  g.m_memberSlots.find? (fun s => s.guid == Guid)

/-- Modelled from the spec: `IsMember` (body in `Group.cpp`), a lookup over the membership
collection. -/
def IsMember (g : Group) (guid : ObjectGuid) : Bool := (g._getMemberCSlot guid).isSome

/-- Modelled from the spec: `IsLeader` (body in `Group.cpp`): the guid is the leader
identity. -/
def IsLeader (g : Group) (guid : ObjectGuid) : Bool := g.m_leaderGuid == guid

/-- Modelled from the spec: `HasFreeSlotSubGroup` (body in `Group.cpp`): the subgroup has
"free capacity (<5)"; the counter is read through a bounds-checked accessor, a subgroup
without a counter has no free slot. -/
def HasFreeSlotSubGroup (g : Group) (subgroup : Nat) : Bool :=
  match g.m_subGroupsCounts[subgroup]? with
  | some c => decide (c < MAX_GROUP_SIZE)
  | none => false

/-- Modelled from the spec: `SubGroupCounterIncrease` (body in `Group.cpp`): "increments its
counter"; the counters are `uint8`, the write is bounds-checked. -/
def SubGroupCounterIncrease (g : Group) (subgroup : Nat) : Group :=
  { g with m_subGroupsCounts :=
      g.m_subGroupsCounts.set subgroup (toUInt8 (g.m_subGroupsCounts.getD subgroup 0 + 1)) }

/-- Modelled from the spec: `SubGroupCounterDecrease` (body in `Group.cpp`): "decrements its
subgroup counter"; the counters are `uint8` (`0 - 1` wraps to `255`), the write is
bounds-checked. -/
def SubGroupCounterDecrease (g : Group) (subgroup : Nat) : Group :=
  { g with m_subGroupsCounts :=
      g.m_subGroupsCounts.set subgroup (toUInt8 (g.m_subGroupsCounts.getD subgroup 0 + 255)) }

/-- The first subgroup, in ascending order, with free capacity. -/
def firstFreeSubGroup (g : Group) : Option Nat :=
  (List.range MAX_RAID_SUBGROUPS).find? (fun sg => g.HasFreeSlotSubGroup sg)

/-- Modelled from the spec: `AddMember` (body in `Group.cpp`).  "Fails with `GroupFull` if
capacity (5, or 40 when raid-flagged) is reached.  Assigns the first subgroup with free
capacity (<5), in ascending subgroup order; increments its counter; appends to the ordered
membership collection.  Never partially mutates state on failure."  "No duplicate guid may
ever coexist -- enforced at `AddMember`."  A group below capacity in which no subgroup has a
free slot is full as well. -/
def AddMember (g : Group) (player : Player) : Group × Outcome :=
  if g.IsFull then (g, Outcome.failed GroupError.GroupFull)
  else if g.IsMember player.guid then (g, Outcome.failed GroupError.DuplicateMember)
  else
    match g.firstFreeSubGroup with
    | none => (g, Outcome.failed GroupError.GroupFull)
    | some subGroup =>
      let member : MemberSlot :=
        { guid := player.guid, name := player.name, group := subGroup, flags := 0, roles := 0,
          guildId := player.guildId }
      let g1 : Group := { g with m_memberSlots := g.m_memberSlots ++ [member] }
      (g1.SubGroupCounterIncrease subGroup, Outcome.ok)

/-- Modelled from the spec: `LoadMemberFromDB` (body in `Group.cpp`): "given a stored member
record, insert it without re-validating capacity"; hydration reconstructs "membership and
subgroup counters from stored rows".  Name and guild come from the character cache. -/
def LoadMemberFromDB (w : World) (g : Group) (guidLow memberFlags subgroup roles : Nat) :
    Group :=
  let member : MemberSlot :=
    { guid := guidLow, name := w.characterName guidLow, group := subgroup,
      flags := memberFlags, roles := roles, guildId := w.characterGuild guidLow }
  let g1 : Group := { g with m_memberSlots := g.m_memberSlots ++ [member] }
  g1.SubGroupCounterIncrease subgroup

/-- Modelled from the spec: `ChangeLeader` (body in `Group.cpp`): "fails with
`MemberNotFound` if target is not a current member; otherwise updates leader
identity/name". -/
def ChangeLeader (g : Group) (guid : ObjectGuid) : Group × Outcome :=
  match g._getMemberCSlot guid with
  | none => (g, Outcome.failed GroupError.MemberNotFound)
  | some slot => ({ g with m_leaderGuid := slot.guid, m_leaderName := slot.name }, Outcome.ok)

/-- Stores the subgroup index `group` in the first slot of `guid`. -/
def setSlotGroup (guid : ObjectGuid) (group : Nat) : List MemberSlot → List MemberSlot
  | [] => []
  | s :: rest =>
    if s.guid == guid then { s with group := group } :: rest
    else s :: setSlotGroup guid group rest

/-- Modelled from the spec: `_setMembersGroup` (body in `Group.cpp`): stores the new
subgroup index in the slot of the guid. -/
def _setMembersGroup (g : Group) (guid : ObjectGuid) (group : Nat) : Group :=
  { g with m_memberSlots := setSlotGroup guid group g.m_memberSlots }

/-- Modelled from the spec: `ChangeMembersGroup` (body in `Group.cpp`): "fails with
`SubgroupFull` unless the destination subgroup has free capacity; atomically decrements the
old counter and increments the new one".  A guid that is not a member is a harmless no-op
(section 5 of the specification). -/
def ChangeMembersGroup (g : Group) (guid : ObjectGuid) (group : Nat) : Group × Outcome :=
  if !g.HasFreeSlotSubGroup group then (g, Outcome.failed GroupError.SubgroupFull)
  else
    match g._getMemberCSlot guid with
    | none => (g, Outcome.ok)
    | some slot =>
      let g1 := g._setMembersGroup guid group
      ((g1.SubGroupCounterDecrease slot.group).SubGroupCounterIncrease group, Outcome.ok)

/-! ### Loot roll engine -/

/-- Source of random words: the successive results of the random number generator. -/
abbrev RandomStream := Nat → Nat

/-- The stream after `k` words have been consumed. -/
def RandomStream.drop (rng : RandomStream) (k : Nat) : RandomStream := fun i => rng (i + k)

/-- Modelled from the spec: a draw is a "uniformly-random integer in a fixed range (e.g.,
1-100)"; `urand lo hi raw` maps a raw random word into `[lo, hi]`. -/
def urand (lo hi raw : Nat) : Nat := lo + raw % (hi - lo + 1)

/-- One fresh draw in `[1, 100]` per voter, in the order of the voters. -/
def drawAll : RandomStream → List ObjectGuid → List (ObjectGuid × Nat)
  | _, [] => []
  | rng, v :: vs => (v, urand 1 100 (rng 0)) :: drawAll (rng.drop 1) vs

/-- The maximum of the draws. -/
def maxDraw (ds : List (ObjectGuid × Nat)) : Nat := ds.foldl (fun m d => max m d.2) 0

/-- The voters whose draw is the maximum. -/
def tiedAtMax (ds : List (ObjectGuid × Nat)) : List ObjectGuid :=
  (ds.filter (fun d => d.2 == maxDraw ds)).map Prod.fst

/-- Modelled from the spec: the draw and roll-off of `CountTheRoll`: "draw one fresh
uniformly-random integer per voter in the tier; the winner is the voter with the maximum
draw.  If two or more voters tie for the maximum, re-draw only the tied subset repeatedly
until a unique maximum emerges".  `fuel` bounds the number of rounds; the result is the
winner, the winning draw and the rest of the random stream, `none` when the fuel is used up
(or when there is no voter). -/
def rollOff : Nat → RandomStream → List ObjectGuid → Option (ObjectGuid × Nat × RandomStream)
  | 0, _, _ => none
  | fuel + 1, rng, voters =>
    match tiedAtMax (drawAll rng voters) with
    | [] => none
    | [winner] => some (winner, maxDraw (drawAll rng voters), rng.drop voters.length)
    | tied => rollOff fuel (rng.drop voters.length) tied

/-- No two successive draws of the stream are equal: the draws of two or more voters are
then never all the same, so that every round of a roll-off drops at least one voter. -/
def distinctSuccessiveDraws (rng : RandomStream) : Prop :=
  ∀ i, urand 1 100 (rng i) ≠ urand 1 100 (rng (i + 1))

/-- Each of the first `n` rounds of draws ends with two or more voters tied for the maximum,
the first round being the draw of `voters` and every later round the re-draw of the voters
tied in the round before it. -/
def tiedRounds : Nat → RandomStream → List ObjectGuid → Bool
  | 0, _, _ => true
  | n + 1, rng, voters =>
    decide (2 ≤ (tiedAtMax (drawAll rng voters)).length) &&
      tiedRounds n (rng.drop voters.length) (tiedAtMax (drawAll rng voters))

/-- The participants whose recorded vote in the roll is `v`, in the order of `playerVote`. -/
def votersOf (roll : Roll) (v : RollVote) : List ObjectGuid :=
  (roll.playerVote.filter (fun e => e.2 == v)).map Prod.fst

/-- Modelled from the spec: `GetRoll` (body in `Group.cpp`): the active roll of the item. -/
def GetRoll (g : Group) (Guid : ObjectGuid) : Option Roll :=
  g.RollId.find? (fun r => r.itemGUID == Guid)

/-- Removal of a roll from the active-roll collection. -/
def removeRoll (g : Group) (roll : Roll) : Group :=
  { g with RollId := g.RollId.filter (fun r => r.itemGUID != roll.itemGUID) }

/-- Modelled from the spec: `CountTheRoll` (body in `Group.cpp`): "evaluate vote tiers in
strict priority order Need > Disenchant > Greed > Pass.  Take the highest-priority tier with
at least one vote."  The winner of the tier comes from `rollOff`.  Section 4.4: "if, after
the primary tier resolves to disenchant, exactly one distinct skill-holder exists in
DisenchantInfo, that holder wins without a numeric draw; otherwise disenchant voters
participate in the same draw/roll-off procedure as any other tier"; section 3: DisenchantInfo
holds "the highest disenchanting skill observed among disenchant-voters and its holder, used
to award disenchant rights without a secondary roll when exactly one eligible skilled voter
exists".  The holder wins without a draw when DisenchantInfo names a holder (4.4) who is an
eligible skilled voter of the roll (3), that is one of its disenchant voters.  "If the
resolved tier is empty, the roll moves to Discarded."  In both cases the roll leaves the
active-roll collection.  A voter whose vote is still `NOT_EMITED_YET` belongs to no tier
(implicit pass). -/
def CountTheRoll (fuel : Nat) (rng : RandomStream) (g : Group) (roll : Roll) :
    Option (Group × Resolution × RandomStream) :=
  let g1 := g.removeRoll roll
  let holder := g.m_disenchantInfo.DisenchanterGUID
  if votersOf roll RollVote.NEED ≠ [] then
    (rollOff fuel rng (votersOf roll RollVote.NEED)).map
      (fun r => (g1, Resolution.Resolved r.1 r.2.1 RollVote.NEED, r.2.2))
  else if votersOf roll RollVote.DISENCHANT ≠ [] then
    if holder ≠ ObjectGuid.Empty ∧ holder ∈ votersOf roll RollVote.DISENCHANT then
      some (g1, Resolution.Resolved holder 0 RollVote.DISENCHANT, rng)
    else
      (rollOff fuel rng (votersOf roll RollVote.DISENCHANT)).map
        (fun r => (g1, Resolution.Resolved r.1 r.2.1 RollVote.DISENCHANT, r.2.2))
  else if votersOf roll RollVote.GREED ≠ [] then
    (rollOff fuel rng (votersOf roll RollVote.GREED)).map
      (fun r => (g1, Resolution.Resolved r.1 r.2.1 RollVote.GREED, r.2.2))
  else some (g1, Resolution.Discarded, rng)

/-- The tier `tier` is the one whose voters draw in `CountTheRoll`: it is the
highest-priority tier with at least one vote in the order Need > Disenchant > Greed and, in
the case of the disenchant tier, the disenchant right does not go to the holder of
DisenchantInfo without a draw. -/
def drawingTier (g : Group) (roll : Roll) (tier : RollVote) : Prop :=
  (tier = RollVote.NEED ∧ votersOf roll RollVote.NEED ≠ []) ∨
  (tier = RollVote.DISENCHANT ∧ votersOf roll RollVote.NEED = [] ∧
    votersOf roll RollVote.DISENCHANT ≠ [] ∧
    ¬ (g.m_disenchantInfo.DisenchanterGUID ≠ ObjectGuid.Empty ∧
      g.m_disenchantInfo.DisenchanterGUID ∈ votersOf roll RollVote.DISENCHANT)) ∨
  (tier = RollVote.GREED ∧ votersOf roll RollVote.NEED = [] ∧
    votersOf roll RollVote.DISENCHANT = [] ∧ votersOf roll RollVote.GREED ≠ [])

/-- Modelled from the spec: the "allowed-vote bitmask (which vote kinds are legal for this
item)"; only pass, need, greed and disenchant can be cast. -/
def voteAllowed (w : World) (roll : Roll) (v : RollVote) : Bool :=
  match v with
  | RollVote.NOT_EMITED_YET => false
  | RollVote.NOT_VALID => false
  | _ => (roll.rollVoteMask &&& w.rollVoteFlag v) != 0

/-- Modelled from the spec: the success path of `CountRollVote` on the roll: "records the
vote, updates running totals, decrements outstanding-count".  The running totals are
need, greed and pass (`uint8`), the outstanding count is `totalPlayersRolling`. -/
def recordVote (roll : Roll) (playerGUID : ObjectGuid) (v : RollVote) : Roll :=
  let r1 : Roll :=
    { roll with
      playerVote := roll.playerVote.map (fun e => if e.1 == playerGUID then (e.1, v) else e),
      totalPlayersRolling := toUInt8 (roll.totalPlayersRolling + 255) }
  match v with
  | RollVote.NEED => { r1 with totalNeed := toUInt8 (r1.totalNeed + 1) }
  | RollVote.GREED => { r1 with totalGreed := toUInt8 (r1.totalGreed + 1) }
  | RollVote.PASS => { r1 with totalPass := toUInt8 (r1.totalPass + 1) }
  | _ => r1

/-- Modelled from the spec: "Disenchant votes update DisenchantInfo (max skill + holder)":
the highest disenchanting skill observed among disenchant-voters and its holder. -/
def updateDisenchantInfo (w : World) (g : Group) (playerGUID : ObjectGuid) : Group :=
  if g.m_disenchantInfo.MaxDisenchantSkillLevel < w.enchantingSkill playerGUID then
    { g with m_disenchantInfo :=
        { DisenchanterGUID := playerGUID,
          MaxDisenchantSkillLevel := w.enchantingSkill playerGUID } }
  else g

/-- Modelled from the spec: `CountRollVote` (body in `Group.cpp`): "fails with `RollNotFound`
if no Open roll matches `itemId`; fails with `DuplicateVote` if the participant already
voted; fails with `InvalidVoteKind` if `voteKind` is not in the roll's allowed-vote bitmask.
On success: records the vote, updates running totals, decrements outstanding-count.
Disenchant votes update DisenchantInfo.  When outstanding-count reaches zero, resolution
runs immediately."  A participant outside the voter set of the roll is a harmless no-op
(section 5 of the specification). -/
def CountRollVote (w : World) (fuel : Nat) (rng : RandomStream) (g : Group)
    (playerGUID Guid : ObjectGuid) (Choise : Nat) : Option (Group × Outcome × RandomStream) :=
  match g.GetRoll Guid with
  | none => some (g, Outcome.failed GroupError.RollNotFound, rng)
  | some roll =>
    match roll.playerVote.lookup playerGUID with
    | none => some (g, Outcome.ok, rng)
    | some vote =>
      if vote ≠ RollVote.NOT_EMITED_YET then
        some (g, Outcome.failed GroupError.DuplicateVote, rng)
      else
        match RollVote.ofNat? Choise with
        | none => some (g, Outcome.failed GroupError.InvalidVoteKind, rng)
        | some v =>
          if !voteAllowed w roll v then
            some (g, Outcome.failed GroupError.InvalidVoteKind, rng)
          else
            let roll1 := recordVote roll playerGUID v
            let g1 : Group :=
              { g with RollId := g.RollId.map (fun r => if r.itemGUID == Guid then roll1 else r) }
            let g2 := if v = RollVote.DISENCHANT then updateDisenchantInfo w g1 playerGUID else g1
            if roll1.totalPlayersRolling = 0 then
              (CountTheRoll fuel rng g2 roll1).map (fun r => (r.1, Outcome.ok, r.2.2))
            else some (g2, Outcome.ok, rng)

/-- Resolution of the listed rolls, one after the other, on the same random stream. -/
def endRolls (fuel : Nat) : RandomStream → Group → List Roll → Option (Group × RandomStream)
  | rng, g, [] => some (g, rng)
  | rng, g, roll :: rest =>
    match CountTheRoll fuel rng g roll with
    | none => none
    | some r => endRolls fuel r.2.2 r.1 rest

/-- Modelled from the spec: `EndRoll` (body in `Group.cpp`): "force-resolves every still-Open
roll immediately, treating any voter who has not yet responded as an implicit pass.  Must be
safe to call on an empty roll collection (no-op)." -/
def EndRoll (fuel : Nat) (rng : RandomStream) (g : Group) : Option (Group × RandomStream) :=
  endRolls fuel rng g g.RollId

/-- Modelled from the spec: `RemoveAllInvites` (body in `Group.cpp`): clears the pending
invite set; idempotent. -/
def RemoveAllInvites (g : Group) : Group := { g with m_invitees := [] }

/-- Modelled from the spec: `Disband` (body in `Group.cpp`), the fixed order of section 7:
"clear pending invites, force-resolve all active rolls via `EndRoll`, release all
non-permanent instance bindings, notify every member of destruction, mark the group
destroyed". -/
def Disband (fuel : Nat) (rng : RandomStream) (g : Group) : Option (Group × RandomStream) :=
  match EndRoll fuel rng g.RemoveAllInvites with
  | none => none
  | some r =>
    some ({ r.1 with m_boundInstances := r.1.m_boundInstances.filter (fun b => b.perm),
                     m_groupFlags := r.1.m_groupFlags ||| GROUP_FLAG_DESTROYED }, r.2)

/-- The membership part of `RemoveMember` for a guid whose slot is `slot`: the slot is
removed, the counter of its subgroup is decremented and, if the guid was the leader, the
first of the remaining slots (if any) becomes the leader through `ChangeLeader`. -/
def removeMemberSlot (g : Group) (guid : ObjectGuid) (slot : MemberSlot) : Group :=
  let g1 : Group :=
    ({ g with m_memberSlots := g.m_memberSlots.eraseP (fun s => s.guid == guid) }
      ).SubGroupCounterDecrease slot.group
  if g.IsLeader guid then
    match g1.m_memberSlots with
    | [] => g1
    | next :: _ => (g1.ChangeLeader next.guid).1
  else g1

/-- Modelled from the spec: `RemoveMember` (body in `Group.cpp`): "removes the member's slot,
decrements its subgroup counter.  If the removed member was leader, leadership transfers to
the next member in insertion order among remaining members.  If resulting membership drops
below the minimum for the group's current flag set, triggers disband.  Idempotent against an
already-absent guid (no-op, not an error)."  The next member in insertion order among the
remaining members is the first slot of the remaining collection.  The minimum for a flag
set is the parameter `minMembers` and never less than one: "removing the sole remaining
member triggers disband" (section 8), whatever the flags.  The arguments `method`, `kicker`
and `reason` only feed the notification and are left out. -/
def RemoveMember (w : World) (fuel : Nat) (rng : RandomStream) (g : Group) (guid : ObjectGuid) :
    Option (Group × Outcome × RandomStream) :=
  match g._getMemberCSlot guid with
  | none => some (g, Outcome.ok, rng)
  | some slot =>
    let g2 := g.removeMemberSlot guid slot
    if g2.m_memberSlots.length < max 1 (w.minMembers g2.m_groupFlags) then
      (Disband fuel rng g2).map (fun r => (r.1, Outcome.ok, r.2))
    else some (g2, Outcome.ok, rng)

/-- Whether the group is marked destroyed (`GROUP_FLAG_DESTROYED`). -/
def isDestroyed (g : Group) : Bool := (g.m_groupFlags &&& GROUP_FLAG_DESTROYED) != 0

/-- The sum of the subgroup occupancy counters. -/
def subGroupsCountSum (g : Group) : Nat := g.m_subGroupsCounts.sum

/-- A world in which a group needs one member, the bit of a vote kind in the allowed-vote
mask is `1 <<< kind`, and nobody has any enchanting skill. -/
def sampleWorld : World :=
  { minMembers := fun _ => 1, rollVoteFlag := fun v => 1 <<< v.toNat,
    enchantingSkill := fun _ => 0, characterName := fun _ => "", characterGuild := fun _ => 0 }

/-- A member slot without flags, roles or guild. -/
def sampleSlot (guid : ObjectGuid) (group : Nat) : MemberSlot :=
  { guid := guid, name := "", group := group, flags := 0, roles := 0, guildId := 0 }

/-- A party (not raid-flagged) of five members, all in subgroup 0, led by member 1. -/
def fullParty : Group :=
  { ctor with
    m_memberSlots := [sampleSlot 1 0, sampleSlot 2 0, sampleSlot 3 0, sampleSlot 4 0,
      sampleSlot 5 0],
    m_subGroupsCounts := [5, 0, 0, 0, 0, 0, 0, 0], m_leaderGuid := 1 }

/-- A raid of six members: five in subgroup 0 and member 6 in subgroup 1. -/
def sampleRaid : Group :=
  { ctor with
    m_groupFlags := GROUP_FLAG_RAID,
    m_memberSlots := [sampleSlot 1 0, sampleSlot 2 0, sampleSlot 3 0, sampleSlot 4 0,
      sampleSlot 5 0, sampleSlot 6 1],
    m_subGroupsCounts := [5, 1, 0, 0, 0, 0, 0, 0], m_leaderGuid := 1 }

/-- An open roll for item 77 with voters 1, 2 and 3, all kinds of vote allowed, in which
voter 1 has voted greed. -/
def sampleRoll : Roll :=
  { itemGUID := 77, itemid := 1, itemRandomPropId := 0, itemRandomSuffix := 0, itemCount := 1,
    playerVote := [(1, RollVote.GREED), (2, RollVote.NOT_EMITED_YET),
      (3, RollVote.NOT_EMITED_YET)],
    totalPlayersRolling := 2, totalNeed := 0, totalGreed := 1, totalPass := 0, itemSlot := 0,
    rollVoteMask := 15, loot := 0 }

/-- The five-member party with the roll `sampleRoll` active. -/
def partyWithRoll : Group := { fullParty with RollId := [sampleRoll] }

/-- A group with the single member 7, who leads it. -/
def soleGroup : Group :=
  { ctor with m_memberSlots := [sampleSlot 7 0], m_subGroupsCounts := [1, 0, 0, 0, 0, 0, 0, 0],
              m_leaderGuid := 7 }

/-- A random stream whose first two words are equal: the first two voters draw 8, every
later draw is one more than its position in the stream (up to 100). -/
def tieStream : RandomStream := fun i => if i < 2 then 7 else i

/-- A random stream whose draws are 1, 2, 3, ...: no two successive draws are equal. -/
def ascendingStream : RandomStream := fun i => i

/-- A roll for item 79 in which voters 1 and 2 voted need and voter 3 voted greed. -/
def contestedRoll : Roll :=
  { sampleRoll with
    itemGUID := 79,
    playerVote := [(1, RollVote.NEED), (2, RollVote.NEED), (3, RollVote.GREED)],
    totalPlayersRolling := 0, totalNeed := 2, totalGreed := 1, totalPass := 0 }

/-- A roll for item 80 in which voters 10, 20 and 30 all voted need. -/
def tieRoll : Roll :=
  { sampleRoll with
    itemGUID := 80,
    playerVote := [(10, RollVote.NEED), (20, RollVote.NEED), (30, RollVote.NEED)],
    totalPlayersRolling := 0, totalNeed := 3, totalGreed := 0, totalPass := 0 }

/-- The group with the single member 7 while the roll `contestedRoll` is active and one
invitation is pending. -/
def soleGroupWithRoll : Group :=
  { soleGroup with RollId := [contestedRoll], m_invitees := [9] }

/-- The five-member party while the roll `contestedRoll` is active. -/
def partyWithContestedRoll : Group := { fullParty with RollId := [contestedRoll] }

/-- The raid-flagged group obtained from a new group by loading `n` stored member records,
with guids `1..n`, all of subgroup 0. -/
def hydrated : Nat → Group
  | 0 => { ctor with m_groupFlags := GROUP_FLAG_RAID }
  | n + 1 => LoadMemberFromDB sampleWorld (hydrated n) (n + 1) 0 0 0

end Group

/-! ## Member functions of `Group` used through their declaration only -/

/-- The member functions of `Group` that `Group.h` declares without a body and that
`IsAssistant` and the chat handler call: they are parameters of the embedding, so that what is
proved holds for whatever `Group.cpp` makes them return. -/
structure GroupOps where
  isBGGroup : Group → Bool
  isRaidGroup : Group → Bool
  IsLeader : Group → ObjectGuid → Bool
  GetMemberFlags : Group → ObjectGuid → Nat
  GetMemberGroup : Group → ObjectGuid → Nat

/-- Source: `bool IsAssistant(ObjectGuid guid) const
{ return (GetMemberFlags(guid) & MEMBER_FLAG_ASSISTANT) == MEMBER_FLAG_ASSISTANT; }`. -/
def GroupOps.IsAssistant (ops : GroupOps) (g : Group) (guid : ObjectGuid) : Bool :=
  (ops.GetMemberFlags g guid &&& MEMBER_FLAG_ASSISTANT) == MEMBER_FLAG_ASSISTANT

/-! ## `WorldSession::HandleMessagechatOpcode` (`ChatHandler.cpp`) -/

/-- The opcodes that `HandleMessagechatOpcode` tells apart; `other` is any other opcode. -/
inductive ChatOpcode where
  | CMSG_MESSAGECHAT_SAY
  | CMSG_MESSAGECHAT_YELL
  | CMSG_MESSAGECHAT_CHANNEL
  | CMSG_MESSAGECHAT_WHISPER
  | CMSG_MESSAGECHAT_GUILD
  | CMSG_MESSAGECHAT_OFFICER
  | CMSG_MESSAGECHAT_AFK
  | CMSG_MESSAGECHAT_DND
  | CMSG_MESSAGECHAT_EMOTE
  | CMSG_MESSAGECHAT_PARTY
  | CMSG_MESSAGECHAT_RAID
  | CMSG_MESSAGECHAT_BATTLEGROUND
  | CMSG_MESSAGECHAT_RAID_WARNING
  | other (value : Nat)
  deriving DecidableEq, Repr

/-- The enumerators of `ChatMsg` that `ChatHandler.cpp` names (the enumeration itself is in
`SharedDefines.h`). -/
inductive ChatMsg where
  | CHAT_MSG_SAY
  | CHAT_MSG_PARTY
  | CHAT_MSG_RAID
  | CHAT_MSG_GUILD
  | CHAT_MSG_OFFICER
  | CHAT_MSG_YELL
  | CHAT_MSG_WHISPER
  | CHAT_MSG_EMOTE
  | CHAT_MSG_CHANNEL
  | CHAT_MSG_AFK
  | CHAT_MSG_DND
  | CHAT_MSG_RAID_LEADER
  | CHAT_MSG_RAID_WARNING
  | CHAT_MSG_BATTLEGROUND
  | CHAT_MSG_BATTLEGROUND_LEADER
  | CHAT_MSG_PARTY_LEADER
  deriving DecidableEq, Repr

/-- The texts that the handler sends back to the sender with `SendNotification`. -/
inductive ChatNotice where
  | LANG_UNKNOWN_LANGUAGE
  | LANG_NOT_LEARNED_LANGUAGE
  | LANG_WAIT_BEFORE_SPEAKING
  | LANG_GM_SILENCE
  | LANG_SAY_REQ
  | LANG_WHISPER_REQ
  | LANG_CHANNEL_REQ
  deriving DecidableEq, Repr

/-- The last argument of the chat hooks: nothing, a group, a guild, a channel or a player. -/
inductive ChatTarget where
  | nobody
  | group (g : Group)
  | guild (id : Nat)
  | channel (id : Nat)
  | player (guid : ObjectGuid)
  deriving DecidableEq, Repr

/-- What the handler does to the rest of the server, in the order of the calls.
`BroadcastPacket group type lang msg ignorePlayersInBGRaid subgroup` stands for
`BuildChatPacket(data, type, lang, sender, nullptr, msg)` followed by
`group->BroadcastPacket(&data, ignorePlayersInBGRaid, subgroup)`; the subgroup argument is
`-1` (the default of the declaration in `Group.h`) when the call does not give it. -/
inductive ChatEvent where
  | Log
  | SendNotification (notice : ChatNotice)
  | KickPlayer
  | ParseCommands (addon : Bool) (msg : String)
  | OnPlayerChat (type : ChatMsg) (lang : Nat) (msg : String) (target : ChatTarget)
  | ElunaOnChat (type : ChatMsg) (lang : Nat) (msg : String) (target : ChatTarget)
  | Say (msg : String) (lang : Nat)
  | Yell (msg : String) (lang : Nat)
  | TextEmote (msg : String)
  | Whisper (msg : String) (lang : Nat) (receiver : ObjectGuid)
  | BroadcastPacket (group : Group) (type : ChatMsg) (lang : Nat) (msg : String)
      (ignorePlayersInBGRaid : Bool) (subgroup : Int)
  | BroadcastToGuild (guild : Nat) (officerOnly : Bool) (msg : String) (lang : Nat)
  | ChannelSay (channel : Nat) (msg : String) (lang : Nat)
  | SendPlayerNotFoundNotice (name : String)
  | SendWrongFactionNotice
  | AddWhisperWhiteList (receiver : ObjectGuid)
  | ToggleAFK
  | ToggleDND
  | SetAutoReplyMsg (msg : String)
  deriving DecidableEq, Repr

/-- What the handler reads of the player found by `FindConnectedPlayerByName`. -/
structure WhisperReceiver where
  guid : ObjectGuid
  isAcceptWhispers : Bool
  canFilterWhispers : Bool
  whiteListsSender : Bool
  level : Nat
  team : Nat
  isGameMaster : Bool
  deriving DecidableEq, Repr

/-- What the handler reads and calls outside `ChatHandler.cpp`: enumerators and
configuration values, the state of the session and of its player, the member functions of
`Group` without a body, the chat helpers and the script hooks.  The hooks take the type and
the language by value and the text by reference: they return the text they leave behind, and
the Eluna hook also returns whether the message goes on.  `ELUNA` tells whether the code
between `#ifdef ELUNA` and `#endif` is compiled. -/
structure ChatEnv where
  LANG_UNIVERSAL : Nat
  LANG_ADDON : Nat
  MAX_CHAT_MSG_TYPE : Nat
  chatMsgValue : ChatMsg → Nat
  ELUNA : Bool
  CONFIG_ADDON_CHANNEL : Bool
  CONFIG_ALLOW_TWO_SIDE_INTERACTION_GROUP : Bool
  CONFIG_ALLOW_TWO_SIDE_INTERACTION_GUILD : Bool
  CONFIG_CHAT_FAKE_MESSAGE_PREVENTING : Bool
  CONFIG_CHAT_STRICT_LINK_CHECKING_SEVERITY : Nat
  CONFIG_CHAT_STRICT_LINK_CHECKING_KICK : Nat
  CONFIG_CHAT_SAY_LEVEL_REQ : Nat
  CONFIG_CHAT_EMOTE_LEVEL_REQ : Nat
  CONFIG_CHAT_YELL_LEVEL_REQ : Nat
  CONFIG_CHAT_WHISPER_LEVEL_REQ : Nat
  CONFIG_CHAT_CHANNEL_LEVEL_REQ : Nat
  CONFIG_CHAT_PARTY_RAID_WARNINGS : Bool
  playerGuid : ObjectGuid
  GetLanguageDescSkill : Nat → Option Nat
  HasSkill : Nat → Bool
  comprehendLanguageAuras : List Int
  modLanguageAuras : List Int
  IsGameMaster : Bool
  permTwoSideInteractionChat : Bool
  permSkipCheckChatChannelReq : Bool
  permCanFilterWhispers : Bool
  CanSpeak : Bool
  HasAura1852 : Bool
  IsAlive : Bool
  GetLevel : Nat
  GetTeam : Nat
  IsInCombat : Bool
  isAFK : Bool
  isDND : Bool
  isAcceptWhispers : Bool
  IsInWhisperWhiteList : ObjectGuid → Bool
  GetGuildId : Nat
  GetGuildById : Nat → Option Nat
  GetOriginalGroup : Option Group
  GetGroup : Option Group
  group : GroupOps
  addonParseCommands : String → Bool
  parseCommands : String → Bool
  stripLineInvisibleChars : String → String
  isValidChatMessage : String → Bool
  normalizePlayerName : String → Bool × String
  FindConnectedPlayerByName : String → Option WhisperReceiver
  GetChannelForPlayerByNamePart : String → Option Nat
  defaultAfkMsg : String
  defaultDndMsg : String
  OnPlayerChat : ChatMsg → Nat → String → ChatTarget → String
  ElunaOnChat : ChatMsg → Nat → String → ChatTarget → Bool × String

/-- The packet as the handler reads it: the opcode, the language (read only for the types
that carry one), the text, and the name of the receiver or of the channel. -/
structure ChatPacket where
  opcode : ChatOpcode
  lang : Nat
  msg : String
  receiver : String
  deriving DecidableEq, Repr

/-- Conversion `int32(x)` of a `uint32`. -/
def toInt32 (x : Nat) : Int :=
  if toUInt32 x < 2147483648 then (toUInt32 x : Int) else (toUInt32 x : Int) - 4294967296

/-- Conversion of an `int32` to `uint32`. -/
def ofInt32 (v : Int) : Nat := (v % 4294967296).toNat

/-- Source: the first `switch` of `HandleMessagechatOpcode` (lines 53-98): the message type
of the opcode, `none` for an unknown opcode. -/
def chatTypeOfOpcode : ChatOpcode → Option ChatMsg
  | ChatOpcode.CMSG_MESSAGECHAT_SAY => some ChatMsg.CHAT_MSG_SAY
  | ChatOpcode.CMSG_MESSAGECHAT_YELL => some ChatMsg.CHAT_MSG_YELL
  | ChatOpcode.CMSG_MESSAGECHAT_CHANNEL => some ChatMsg.CHAT_MSG_CHANNEL
  | ChatOpcode.CMSG_MESSAGECHAT_WHISPER => some ChatMsg.CHAT_MSG_WHISPER
  | ChatOpcode.CMSG_MESSAGECHAT_GUILD => some ChatMsg.CHAT_MSG_GUILD
  | ChatOpcode.CMSG_MESSAGECHAT_OFFICER => some ChatMsg.CHAT_MSG_OFFICER
  | ChatOpcode.CMSG_MESSAGECHAT_AFK => some ChatMsg.CHAT_MSG_AFK
  | ChatOpcode.CMSG_MESSAGECHAT_DND => some ChatMsg.CHAT_MSG_DND
  | ChatOpcode.CMSG_MESSAGECHAT_EMOTE => some ChatMsg.CHAT_MSG_EMOTE
  | ChatOpcode.CMSG_MESSAGECHAT_PARTY => some ChatMsg.CHAT_MSG_PARTY
  | ChatOpcode.CMSG_MESSAGECHAT_RAID => some ChatMsg.CHAT_MSG_RAID
  | ChatOpcode.CMSG_MESSAGECHAT_BATTLEGROUND => some ChatMsg.CHAT_MSG_BATTLEGROUND
  | ChatOpcode.CMSG_MESSAGECHAT_RAID_WARNING => some ChatMsg.CHAT_MSG_RAID_WARNING
  | ChatOpcode.other _ => none

/-- Source: line 112, `type != CHAT_MSG_EMOTE && type != CHAT_MSG_AFK && type != CHAT_MSG_DND`:
the types whose packet carries a language. -/
def hasLanguageField (type : ChatMsg) : Bool :=
  type != ChatMsg.CHAT_MSG_EMOTE && type != ChatMsg.CHAT_MSG_AFK && type != ChatMsg.CHAT_MSG_DND

/-- Source: lines 157-177, the message types for which `LANG_ADDON` is valid. -/
def addonLanguageValidFor : ChatMsg → Bool
  | ChatMsg.CHAT_MSG_PARTY => true
  | ChatMsg.CHAT_MSG_RAID => true
  | ChatMsg.CHAT_MSG_GUILD => true
  | ChatMsg.CHAT_MSG_BATTLEGROUND => true
  | ChatMsg.CHAT_MSG_WHISPER => true
  | _ => false

/-- Source: lines 183-216, the language of a message that is not an addon message: universal
for a game master, else universal with the two-side permission or, by message type, with the
two-side group or guild setting, and in the end the first `SPELL_AURA_MOD_LANGUAGE` aura. -/
def rewriteLanguage (env : ChatEnv) (type : ChatMsg) (lang : Nat) : Nat :=
  if env.IsGameMaster then env.LANG_UNIVERSAL
  else
    let lang1 :=
      if env.permTwoSideInteractionChat then env.LANG_UNIVERSAL
      else
        match type with
        | ChatMsg.CHAT_MSG_PARTY | ChatMsg.CHAT_MSG_PARTY_LEADER | ChatMsg.CHAT_MSG_RAID
        | ChatMsg.CHAT_MSG_RAID_LEADER | ChatMsg.CHAT_MSG_RAID_WARNING =>
          if env.CONFIG_ALLOW_TWO_SIDE_INTERACTION_GROUP then env.LANG_UNIVERSAL else lang
        | ChatMsg.CHAT_MSG_GUILD | ChatMsg.CHAT_MSG_OFFICER =>
          if env.CONFIG_ALLOW_TWO_SIDE_INTERACTION_GUILD then env.LANG_UNIVERSAL else lang
        | _ => lang
    match env.modLanguageAuras with
    | [] => lang1
    | aura :: _ => ofInt32 aura

/-- Source: lines 112-228, the language of the message.  The result is either the events of
an early return (`Except.error`) or the language the handler goes on with. -/
def readLanguage (env : ChatEnv) (type : ChatMsg) (lang : Nat) :
    Except (List ChatEvent) Nat :=
  if hasLanguageField type then
    if lang = env.LANG_UNIVERSAL then
      Except.error [ChatEvent.Log, ChatEvent.SendNotification ChatNotice.LANG_UNKNOWN_LANGUAGE]
    else
      match env.GetLanguageDescSkill lang with
      | none => Except.error [ChatEvent.SendNotification ChatNotice.LANG_UNKNOWN_LANGUAGE]
      | some skill_id =>
        if skill_id ≠ 0 ∧ env.HasSkill skill_id = false ∧
            env.comprehendLanguageAuras.any (fun misc => misc == toInt32 lang) = false then
          Except.error [ChatEvent.SendNotification ChatNotice.LANG_NOT_LEARNED_LANGUAGE]
        else if lang = env.LANG_ADDON then
          if addonLanguageValidFor type then
            if env.CONFIG_ADDON_CHANNEL then Except.ok lang else Except.error []
          else Except.error [ChatEvent.Log]
        else if env.CanSpeak then Except.ok (rewriteLanguage env type lang)
        else Except.error [ChatEvent.SendNotification ChatNotice.LANG_WAIT_BEFORE_SPEAKING]
  else Except.ok env.LANG_UNIVERSAL

/-- Source: lines 241-273: the text read from the packet; the `switch` has no case for the
leader types, for which the text stays empty. -/
def readMsg (type : ChatMsg) (recvData : ChatPacket) : String :=
  match type with
  | ChatMsg.CHAT_MSG_PARTY_LEADER => ""
  | ChatMsg.CHAT_MSG_RAID_LEADER => ""
  | ChatMsg.CHAT_MSG_BATTLEGROUND_LEADER => ""
  | _ => recvData.msg

/-- Source: lines 267-272, `ignoreChecks = true` for the AFK and DND messages. -/
def ignoreChecks (type : ChatMsg) : Bool :=
  type == ChatMsg.CHAT_MSG_AFK || type == ChatMsg.CHAT_MSG_DND

/-- Source: lines 277-303, the checks of the text: the events so far and, unless the handler
returns, the text it goes on with. -/
def checkMessage (env : ChatEnv) (lang : Nat) (msg : String) :
    List ChatEvent × Option String :=
  if msg = "" then ([], none)
  else if lang = env.LANG_ADDON then
    if env.addonParseCommands msg then ([ChatEvent.ParseCommands true msg], none)
    else ([ChatEvent.ParseCommands true msg], some msg)
  else if env.parseCommands msg then ([ChatEvent.ParseCommands false msg], none)
  else
    let msg1 := if env.CONFIG_CHAT_FAKE_MESSAGE_PREVENTING then env.stripLineInvisibleChars msg
      else msg
    if env.CONFIG_CHAT_STRICT_LINK_CHECKING_SEVERITY ≠ 0 ∧ env.isValidChatMessage msg1 = false
    then
      ([ChatEvent.ParseCommands false msg, ChatEvent.Log]
        ++ (if env.CONFIG_CHAT_STRICT_LINK_CHECKING_KICK ≠ 0 then [ChatEvent.KickPlayer] else []),
        none)
    else ([ChatEvent.ParseCommands false msg], some msg1)

/-- The hook calls of a branch and what follows them: `sScriptMgr->OnPlayerChat` (when the
branch calls it), then, under `ELUNA`, `sEluna->OnChat`, whose `false` ends the handler, then
the delivery of the text that the hooks left. -/
def withHooks (env : ChatEnv) (script : Bool) (type : ChatMsg) (lang : Nat) (msg : String)
    (target : ChatTarget) (deliver : String → List ChatEvent) : List ChatEvent :=
  let events1 := if script then [ChatEvent.OnPlayerChat type lang msg target] else []
  let msg1 := if script then env.OnPlayerChat type lang msg target else msg
  if env.ELUNA then
    if (env.ElunaOnChat type lang msg1 target).1 then
      events1 ++ [ChatEvent.ElunaOnChat type lang msg1 target]
        ++ deliver (env.ElunaOnChat type lang msg1 target).2
    else events1 ++ [ChatEvent.ElunaOnChat type lang msg1 target]
  else events1 ++ deliver msg1

/-- Source: lines 417-423, the group a party message goes to. -/
def partyChatGroup (env : ChatEnv) : Option Group :=
  match env.GetOriginalGroup with
  | some group => some group
  | none =>
    match env.GetGroup with
    | none => none
    | some group => if env.group.isBGGroup group then none else some group

/-- Source: lines 477-483, the group a raid message goes to. -/
def raidChatGroup (env : ChatEnv) : Option Group :=
  match env.GetOriginalGroup with
  | some group => some group
  | none =>
    match env.GetGroup with
    | none => none
    | some group =>
      if env.group.isBGGroup group || !env.group.isRaidGroup group then none else some group

/-- Source: lines 501-503, the group a raid warning goes to. -/
def raidWarningGroup (env : ChatEnv) : Option Group :=
  match env.GetGroup with
  | none => none
  | some group =>
    if !(env.group.isRaidGroup group || env.CONFIG_CHAT_PARTY_RAID_WARNINGS)
        || !(env.group.IsLeader group env.playerGuid
          || env.group.IsAssistant group env.playerGuid)
        || env.group.isBGGroup group then none
    else some group

/-- Source: lines 521-523, the group a battleground message goes to. -/
def battlegroundChatGroup (env : ChatEnv) : Option Group :=
  match env.GetGroup with
  | none => none
  | some group => if !env.group.isBGGroup group then none else some group

/-- Source: `case CHAT_MSG_SAY` (lines 308-327). -/
def handleSay (env : ChatEnv) (type : ChatMsg) (lang : Nat) (msg : String) : List ChatEvent :=
  if !env.IsAlive then []
  else if env.GetLevel < env.CONFIG_CHAT_SAY_LEVEL_REQ then
    [ChatEvent.SendNotification ChatNotice.LANG_SAY_REQ]
  else withHooks env false type lang msg ChatTarget.nobody (fun m => [ChatEvent.Say m lang])

/-- Source: `case CHAT_MSG_EMOTE` (lines 328-347). -/
def handleEmote (env : ChatEnv) (type : ChatMsg) (msg : String) : List ChatEvent :=
  if !env.IsAlive then []
  else if env.GetLevel < env.CONFIG_CHAT_EMOTE_LEVEL_REQ then
    [ChatEvent.SendNotification ChatNotice.LANG_SAY_REQ]
  else withHooks env false type env.LANG_UNIVERSAL msg ChatTarget.nobody
    (fun m => [ChatEvent.TextEmote m])

/-- Source: `case CHAT_MSG_YELL` (lines 348-367). -/
def handleYell (env : ChatEnv) (type : ChatMsg) (lang : Nat) (msg : String) : List ChatEvent :=
  if !env.IsAlive then []
  else if env.GetLevel < env.CONFIG_CHAT_YELL_LEVEL_REQ then
    [ChatEvent.SendNotification ChatNotice.LANG_SAY_REQ]
  else withHooks env false type lang msg ChatTarget.nobody (fun m => [ChatEvent.Yell m lang])

/-- Source: `case CHAT_MSG_WHISPER` (lines 368-412); `toName` is the variable `to`. -/
def handleWhisper (env : ChatEnv) (type : ChatMsg) (lang : Nat) (msg toName : String) :
    List ChatEvent :=
  if (env.normalizePlayerName toName).1 = false then
    [ChatEvent.SendPlayerNotFoundNotice (env.normalizePlayerName toName).2]
  else
    let name := (env.normalizePlayerName toName).2
    match env.FindConnectedPlayerByName name with
    | none => [ChatEvent.SendPlayerNotFoundNotice name]
    | some receiver =>
      if lang ≠ env.LANG_ADDON ∧ receiver.isAcceptWhispers = false
          ∧ receiver.canFilterWhispers = true ∧ receiver.whiteListsSender = false then
        [ChatEvent.SendPlayerNotFoundNotice name]
      else if env.IsGameMaster = false ∧ env.GetLevel < env.CONFIG_CHAT_WHISPER_LEVEL_REQ
          ∧ receiver.whiteListsSender = false then
        [ChatEvent.SendNotification ChatNotice.LANG_WHISPER_REQ]
      else if env.GetTeam ≠ receiver.team ∧ env.permTwoSideInteractionChat = false
          ∧ receiver.whiteListsSender = false then
        [ChatEvent.SendWrongFactionNotice]
      else if env.HasAura1852 = true ∧ receiver.isGameMaster = false then
        [ChatEvent.SendNotification ChatNotice.LANG_GM_SILENCE]
      else
        (if receiver.level < env.CONFIG_CHAT_WHISPER_LEVEL_REQ
            ∨ (env.permCanFilterWhispers = true ∧ env.isAcceptWhispers = false
              ∧ env.IsInWhisperWhiteList receiver.guid = false)
          then [ChatEvent.AddWhisperWhiteList receiver.guid] else [])
        ++ withHooks env false type lang msg (ChatTarget.player receiver.guid)
            (fun m => [ChatEvent.Whisper m lang receiver.guid])

/-- Source: `case CHAT_MSG_PARTY: case CHAT_MSG_PARTY_LEADER:` (lines 413-438). -/
def handleParty (env : ChatEnv) (type : ChatMsg) (lang : Nat) (msg : String) : List ChatEvent :=
  match partyChatGroup env with
  | none => []
  | some group =>
    let type1 :=
      if env.group.IsLeader group env.playerGuid then ChatMsg.CHAT_MSG_PARTY_LEADER else type
    withHooks env true type1 lang msg (ChatTarget.group group)
      (fun m => [ChatEvent.BroadcastPacket group type1 lang m false
        (env.group.GetMemberGroup group env.playerGuid : Nat)])

/-- Source: `case CHAT_MSG_GUILD` and `case CHAT_MSG_OFFICER` (lines 439-472);
`officer` is the second argument of `BroadcastToGuild`. -/
def handleGuild (env : ChatEnv) (officer : Bool) (type : ChatMsg) (lang : Nat) (msg : String) :
    List ChatEvent :=
  if env.GetGuildId ≠ 0 then
    match env.GetGuildById env.GetGuildId with
    | none => []
    | some guild =>
      withHooks env true type lang msg (ChatTarget.guild guild)
        (fun m => [ChatEvent.BroadcastToGuild guild officer m
          (if lang = env.LANG_ADDON then env.LANG_ADDON else env.LANG_UNIVERSAL)])
  else []

/-- Source: `case CHAT_MSG_RAID: case CHAT_MSG_RAID_LEADER:` (lines 473-498). -/
def handleRaid (env : ChatEnv) (type : ChatMsg) (lang : Nat) (msg : String) : List ChatEvent :=
  match raidChatGroup env with
  | none => []
  | some group =>
    let type1 :=
      if env.group.IsLeader group env.playerGuid then ChatMsg.CHAT_MSG_RAID_LEADER else type
    withHooks env true type1 lang msg (ChatTarget.group group)
      (fun m => [ChatEvent.BroadcastPacket group type1 lang m false (-1)])

/-- Source: `case CHAT_MSG_RAID_WARNING` (lines 499-516). -/
def handleRaidWarning (env : ChatEnv) (type : ChatMsg) (lang : Nat) (msg : String) :
    List ChatEvent :=
  match raidWarningGroup env with
  | none => []
  | some group =>
    withHooks env true type lang msg (ChatTarget.group group)
      (fun m => [ChatEvent.BroadcastPacket group ChatMsg.CHAT_MSG_RAID_WARNING lang m false
        (-1)])

/-- Source: `case CHAT_MSG_BATTLEGROUND: case CHAT_MSG_BATTLEGROUND_LEADER:`
(lines 517-538). -/
def handleBattleground (env : ChatEnv) (type : ChatMsg) (lang : Nat) (msg : String) :
    List ChatEvent :=
  match battlegroundChatGroup env with
  | none => []
  | some group =>
    let type1 :=
      if env.group.IsLeader group env.playerGuid then ChatMsg.CHAT_MSG_BATTLEGROUND_LEADER
      else type
    withHooks env true type1 lang msg (ChatTarget.group group)
      (fun m => [ChatEvent.BroadcastPacket group type1 lang m false (-1)])

/-- Source: `case CHAT_MSG_CHANNEL` (lines 539-560). -/
def handleChannel (env : ChatEnv) (type : ChatMsg) (lang : Nat) (msg channel : String) :
    List ChatEvent :=
  if env.permSkipCheckChatChannelReq = false ∧ env.GetLevel < env.CONFIG_CHAT_CHANNEL_LEVEL_REQ
  then [ChatEvent.SendNotification ChatNotice.LANG_CHANNEL_REQ]
  else
    match env.GetChannelForPlayerByNamePart channel with
    | none => []
    | some chn =>
      withHooks env true type lang msg (ChatTarget.channel chn)
        (fun m => [ChatEvent.ChannelSay chn m lang])

/-- Source: `case CHAT_MSG_AFK` (lines 561-589). -/
def handleAfk (env : ChatEnv) (type : ChatMsg) (lang : Nat) (msg : String) : List ChatEvent :=
  if !env.IsInCombat then
    (if env.isAFK then
      (if msg = "" then [ChatEvent.ToggleAFK] else [ChatEvent.SetAutoReplyMsg msg])
    else
      [ChatEvent.SetAutoReplyMsg (if msg = "" then env.defaultAfkMsg else msg)]
        ++ (if env.isDND then [ChatEvent.ToggleDND] else []) ++ [ChatEvent.ToggleAFK])
    ++ withHooks env true type lang msg ChatTarget.nobody (fun _ => [])
  else []

/-- Source: `case CHAT_MSG_DND` (lines 590-615). -/
def handleDnd (env : ChatEnv) (type : ChatMsg) (lang : Nat) (msg : String) : List ChatEvent :=
  (if env.isDND then
    (if msg = "" then [ChatEvent.ToggleDND] else [ChatEvent.SetAutoReplyMsg msg])
  else
    [ChatEvent.SetAutoReplyMsg (if msg = "" then env.defaultDndMsg else msg)]
      ++ (if env.isAFK then [ChatEvent.ToggleAFK] else []) ++ [ChatEvent.ToggleDND])
  ++ withHooks env true type lang msg ChatTarget.nobody (fun _ => [])

/-- Source: the `switch (type)` of lines 306-619. -/
def dispatchChat (env : ChatEnv) (type : ChatMsg) (lang : Nat) (msg receiver : String) :
    List ChatEvent :=
  match type with
  | ChatMsg.CHAT_MSG_SAY => handleSay env type lang msg
  | ChatMsg.CHAT_MSG_EMOTE => handleEmote env type msg
  | ChatMsg.CHAT_MSG_YELL => handleYell env type lang msg
  | ChatMsg.CHAT_MSG_WHISPER => handleWhisper env type lang msg receiver
  | ChatMsg.CHAT_MSG_PARTY => handleParty env type lang msg
  | ChatMsg.CHAT_MSG_PARTY_LEADER => handleParty env type lang msg
  | ChatMsg.CHAT_MSG_GUILD => handleGuild env false type lang msg
  | ChatMsg.CHAT_MSG_OFFICER => handleGuild env true type lang msg
  | ChatMsg.CHAT_MSG_RAID => handleRaid env type lang msg
  | ChatMsg.CHAT_MSG_RAID_LEADER => handleRaid env type lang msg
  | ChatMsg.CHAT_MSG_RAID_WARNING => handleRaidWarning env type lang msg
  | ChatMsg.CHAT_MSG_BATTLEGROUND => handleBattleground env type lang msg
  | ChatMsg.CHAT_MSG_BATTLEGROUND_LEADER => handleBattleground env type lang msg
  | ChatMsg.CHAT_MSG_CHANNEL => handleChannel env type lang msg receiver
  | ChatMsg.CHAT_MSG_AFK => handleAfk env type lang msg
  | ChatMsg.CHAT_MSG_DND => handleDnd env type lang msg

/-- Source: lines 230-619, the handler once the language is known. -/
def handleWithLanguage (env : ChatEnv) (type : ChatMsg) (lang : Nat) (recvData : ChatPacket) :
    List ChatEvent :=
  if env.HasAura1852 && type != ChatMsg.CHAT_MSG_WHISPER then
    [ChatEvent.SendNotification ChatNotice.LANG_GM_SILENCE]
  else if ignoreChecks type then
    dispatchChat env type lang (readMsg type recvData) recvData.receiver
  else
    match checkMessage env lang (readMsg type recvData) with
    | (events, none) => events
    | (events, some msg) => events ++ dispatchChat env type lang msg recvData.receiver

/-- Source: `void WorldSession::HandleMessagechatOpcode(WorldPacket& recvData)`: the events
of one call, in order. -/
def HandleMessagechatOpcode (env : ChatEnv) (recvData : ChatPacket) : List ChatEvent :=
  match chatTypeOfOpcode recvData.opcode with
  | none => [ChatEvent.Log]
  | some type =>
    if env.MAX_CHAT_MSG_TYPE ≤ env.chatMsgValue type then [ChatEvent.Log]
    else
      match readLanguage env type recvData.lang with
      | Except.error events => events
      | Except.ok lang => handleWithLanguage env type lang recvData

/-- Whether the event is a call of a chat hook (`OnPlayerChat` or the Eluna `OnChat`). -/
def ChatEvent.isHook : ChatEvent → Bool
  | ChatEvent.OnPlayerChat _ _ _ _ => true
  | ChatEvent.ElunaOnChat _ _ _ _ => true
  | _ => false

/-- Whether the event delivers the text to somebody. -/
def ChatEvent.isDelivery : ChatEvent → Bool
  | ChatEvent.Say _ _ => true
  | ChatEvent.Yell _ _ => true
  | ChatEvent.TextEmote _ => true
  | ChatEvent.Whisper _ _ _ => true
  | ChatEvent.BroadcastPacket _ _ _ _ _ _ => true
  | ChatEvent.BroadcastToGuild _ _ _ _ => true
  | ChatEvent.ChannelSay _ _ _ => true
  | _ => false

/-- Whether the event is a broadcast to a group. -/
def ChatEvent.isBroadcast : ChatEvent → Bool
  | ChatEvent.BroadcastPacket _ _ _ _ _ _ => true
  | _ => false

/-- Whether the event only reports to the log or to the sender. -/
def ChatEvent.isDiagnostic : ChatEvent → Bool
  | ChatEvent.Log => true
  | ChatEvent.SendNotification _ => true
  | _ => false

/-- The language carried by a hook call or a delivery. -/
def ChatEvent.lang? : ChatEvent → Option Nat
  | ChatEvent.OnPlayerChat _ lang _ _ => some lang
  | ChatEvent.ElunaOnChat _ lang _ _ => some lang
  | ChatEvent.Say _ lang => some lang
  | ChatEvent.Yell _ lang => some lang
  | ChatEvent.Whisper _ lang _ => some lang
  | ChatEvent.BroadcastPacket _ _ lang _ _ _ => some lang
  | ChatEvent.BroadcastToGuild _ _ _ lang => some lang
  | ChatEvent.ChannelSay _ _ lang => some lang
  | _ => none

/-- The message type carried by a hook call or a group broadcast. -/
def ChatEvent.type? : ChatEvent → Option ChatMsg
  | ChatEvent.OnPlayerChat type _ _ _ => some type
  | ChatEvent.ElunaOnChat type _ _ _ => some type
  | ChatEvent.BroadcastPacket _ type _ _ _ _ => some type
  | _ => none

/-- The group of a hook call whose target is a group, or of a group broadcast. -/
def ChatEvent.group? : ChatEvent → Option Group
  | ChatEvent.OnPlayerChat _ _ _ (ChatTarget.group g) => some g
  | ChatEvent.ElunaOnChat _ _ _ (ChatTarget.group g) => some g
  | ChatEvent.BroadcastPacket g _ _ _ _ _ => some g
  | _ => none

/-- Whether the event belongs to the part of the handler before the `switch` on the message
type: a log entry, a notification, a kick or the parsing of a command. -/
def ChatEvent.isPreliminary : ChatEvent → Bool
  | ChatEvent.Log => true
  | ChatEvent.SendNotification _ => true
  | ChatEvent.KickPlayer => true
  | ChatEvent.ParseCommands _ _ => true
  | _ => false

/-- Every event of the list satisfies `P`. -/
def AllEvents (P : ChatEvent → Prop) (events : List ChatEvent) : Prop := ∀ e ∈ events, P e

/-- The event carries no other language than `lang`. -/
def carriesOnly (lang : Nat) (e : ChatEvent) : Prop := ∀ l, e.lang? = some l → l = lang

/-! ### Concrete sessions used in the examples -/

/-- One choice of the member functions without a body: a battleground group is one with a
battleground, a raid group one with the raid flag, the leader is the leader guid, flags and
subgroup are those of the member slot (0 and `MAX_RAID_SUBGROUPS + 1` without a slot). -/
def sampleGroupOps : GroupOps :=
  { isBGGroup := fun g => g.m_bgGroup.isSome,
    isRaidGroup := fun g => g.isRaidGroup,
    IsLeader := fun g guid => g.IsLeader guid,
    GetMemberFlags := fun g guid =>
      match g._getMemberCSlot guid with
      | some slot => slot.flags
      | none => 0,
    GetMemberGroup := fun g guid =>
      match g._getMemberCSlot guid with
      | some slot => slot.group
      | none => MAX_RAID_SUBGROUPS + 1 }

/-- A session of member 6 of the sample raid (subgroup 1, not the leader), who may speak, in
a world with the addon channel enabled, without Eluna veto, where every language is known
and needs no skill; `LANG_UNIVERSAL` is 0 and `LANG_ADDON` is `0xFFFFFFFF`. -/
def sampleChatEnv : ChatEnv :=
  { LANG_UNIVERSAL := 0, LANG_ADDON := 4294967295, MAX_CHAT_MSG_TYPE := 100,
    chatMsgValue := fun _ => 1, ELUNA := true, CONFIG_ADDON_CHANNEL := true,
    CONFIG_ALLOW_TWO_SIDE_INTERACTION_GROUP := false,
    CONFIG_ALLOW_TWO_SIDE_INTERACTION_GUILD := false,
    CONFIG_CHAT_FAKE_MESSAGE_PREVENTING := false,
    CONFIG_CHAT_STRICT_LINK_CHECKING_SEVERITY := 0, CONFIG_CHAT_STRICT_LINK_CHECKING_KICK := 0,
    CONFIG_CHAT_SAY_LEVEL_REQ := 1, CONFIG_CHAT_EMOTE_LEVEL_REQ := 1,
    CONFIG_CHAT_YELL_LEVEL_REQ := 1, CONFIG_CHAT_WHISPER_LEVEL_REQ := 1,
    CONFIG_CHAT_CHANNEL_LEVEL_REQ := 1, CONFIG_CHAT_PARTY_RAID_WARNINGS := false,
    playerGuid := 6, GetLanguageDescSkill := fun _ => some 0, HasSkill := fun _ => true,
    comprehendLanguageAuras := [], modLanguageAuras := [], IsGameMaster := false,
    permTwoSideInteractionChat := false, permSkipCheckChatChannelReq := false,
    permCanFilterWhispers := false, CanSpeak := true, HasAura1852 := false, IsAlive := true,
    GetLevel := 80, GetTeam := 0, IsInCombat := false, isAFK := false, isDND := false,
    isAcceptWhispers := true, IsInWhisperWhiteList := fun _ => false, GetGuildId := 0,
    GetGuildById := fun _ => none, GetOriginalGroup := none,
    GetGroup := some Group.sampleRaid, group := sampleGroupOps,
    addonParseCommands := fun _ => false, parseCommands := fun _ => false,
    stripLineInvisibleChars := fun m => m, isValidChatMessage := fun _ => true,
    normalizePlayerName := fun n => (true, n), FindConnectedPlayerByName := fun _ => none,
    GetChannelForPlayerByNamePart := fun _ => none, defaultAfkMsg := "afk",
    defaultDndMsg := "dnd", OnPlayerChat := fun _ _ m _ => m,
    ElunaOnChat := fun _ _ m _ => (true, m) }

/-- A session of member 1, whose original group is the five-member party that he leads and
whose current group is a battleground raid. -/
def battlegroundChatEnv : ChatEnv :=
  { sampleChatEnv with
    playerGuid := 1, GetOriginalGroup := some Group.fullParty,
    GetGroup := some { Group.sampleRaid with m_bgGroup := some 1 } }

/-- A chat packet with the text "hi" in the language `LANG_ADDON` of the sample session. -/
def addonPacket (opcode : ChatOpcode) : ChatPacket :=
  { opcode := opcode, lang := 4294967295, msg := "hi", receiver := "" }

/-- The same session for the leader of the sample raid (member 1, subgroup 0). -/
def leaderChatEnv : ChatEnv := { sampleChatEnv with playerGuid := 1 }

/-- A chat packet with the text "hi" in language 7. -/
def samplePacket (opcode : ChatOpcode) : ChatPacket :=
  { opcode := opcode, lang := 7, msg := "hi", receiver := "" }

/-! ## Theorems -/

open Group

/-- C9: `MAX_RAID_SUBGROUPS` evaluates to 8, both as a value and as the pasted token
sequence, and the product `MAX_RAID_SUBGROUPS * MAX_GROUP_SIZE` (whose expansion is the
token sequence `40 / 5 * 5`) equals `MAXRAIDSIZE`, the 40-member raid capacity. -/
theorem C9_capacity_constants_consistent :
    MAX_RAID_SUBGROUPS = 8 ∧
    evalCTok MAX_RAID_SUBGROUPS_tokens = some 8 ∧
    MAX_RAID_SUBGROUPS * MAX_GROUP_SIZE = MAXRAIDSIZE ∧
    evalCTok (MAX_RAID_SUBGROUPS_tokens ++ [CTok.mul, CTok.lit MAX_GROUP_SIZE])
      = some MAXRAIDSIZE ∧
    MAXRAIDSIZE = 40 ∧ MAX_GROUP_SIZE = 5 := by
  decide

/-! ### Counter array -/

theorem mem_setSlotGroup (guid : ObjectGuid) (grp : Nat) (l : List MemberSlot) (s : MemberSlot)
    (h : s ∈ setSlotGroup guid grp l) : s ∈ l ∨ s.group = grp := by
  induction l with
  | nil => simp [setSlotGroup] at h
  | cons a t ih =>
    by_cases hp : (a.guid == guid) = true
    · simp only [setSlotGroup, hp, if_true, List.mem_cons] at h
      rcases h with rfl | h
      · right; rfl
      · left; exact List.mem_cons_of_mem _ h
    · have hp' : (a.guid == guid) = false := by simpa using hp
      simp only [setSlotGroup, hp', Bool.false_eq_true, if_false, List.mem_cons] at h
      rcases h with rfl | h
      · left; exact List.mem_cons_self _ _
      · rcases ih h with h1 | h1
        · left; exact List.mem_cons_of_mem _ h1
        · right; exact h1

theorem countTheRoll_fst (fuel : Nat) (rng : RandomStream) (g : Group) (roll : Roll)
    (r : Group × Resolution × RandomStream) (h : CountTheRoll fuel rng g roll = some r) :
    r.1 = g.removeRoll roll := by
  unfold CountTheRoll at h
  simp only at h
  split_ifs at h with h1 h2 h3 h4
  · simp only [Option.map_eq_some'] at h
    obtain ⟨a, _, rfl⟩ := h
    rfl
  · simp only [Option.some.injEq] at h
    subst h
    rfl
  · simp only [Option.map_eq_some'] at h
    obtain ⟨a, _, rfl⟩ := h
    rfl
  · simp only [Option.map_eq_some'] at h
    obtain ⟨a, _, rfl⟩ := h
    rfl
  · simp only [Option.some.injEq] at h
    subst h
    rfl

theorem endRolls_frame (fuel : Nat) (rolls : List Roll) :
    ∀ (rng : RandomStream) (g : Group) (r : Group × RandomStream),
      endRolls fuel rng g rolls = some r →
      r.1.m_memberSlots = g.m_memberSlots ∧ r.1.m_subGroupsCounts = g.m_subGroupsCounts ∧
      r.1.m_leaderGuid = g.m_leaderGuid ∧ r.1.m_groupFlags = g.m_groupFlags ∧
      r.1.m_invitees = g.m_invitees := by
  induction rolls with
  | nil =>
    intro rng g r h
    simp only [endRolls, Option.some.injEq] at h
    subst h
    simp
  | cons roll rest ih =>
    intro rng g r h
    simp only [endRolls] at h
    cases hc : CountTheRoll fuel rng g roll with
    | none => simp [hc] at h
    | some x =>
      simp only [hc] at h
      have hx := countTheRoll_fst fuel rng g roll x hc
      have := ih _ _ _ h
      rw [hx] at this
      simpa [removeRoll] using this

theorem destroyed_flag_set (x : Nat) :
    ((x ||| GROUP_FLAG_DESTROYED) &&& GROUP_FLAG_DESTROYED) ≠ 0 := by
  intro h
  have h4 : ((x ||| GROUP_FLAG_DESTROYED) &&& GROUP_FLAG_DESTROYED).testBit 4 = true := by
    rw [Nat.testBit_and, Nat.testBit_or]
    have : GROUP_FLAG_DESTROYED.testBit 4 = true := by decide
    simp [this]
  rw [h] at h4
  simp at h4

theorem disband_frame (fuel : Nat) (rng : RandomStream) (g : Group)
    (r : Group × RandomStream) (h : Disband fuel rng g = some r) :
    r.1.m_memberSlots = g.m_memberSlots ∧ r.1.m_subGroupsCounts = g.m_subGroupsCounts ∧
    r.1.m_leaderGuid = g.m_leaderGuid ∧ r.1.isDestroyed = true ∧ r.1.m_invitees = [] := by
  unfold Disband EndRoll at h
  cases he : endRolls fuel rng g.RemoveAllInvites g.RemoveAllInvites.RollId with
  | none => simp [he] at h
  | some x =>
    simp only [he, Option.some.injEq] at h
    obtain ⟨h1, h2, h3, _, h5⟩ := endRolls_frame fuel _ rng _ x he
    subst h
    refine ⟨h1, h2, h3, ?_, h5⟩
    simp only [isDestroyed, bne_iff_ne, ne_eq]
    exact destroyed_flag_set _

theorem changeLeader_frame (g : Group) (guid : ObjectGuid) :
    (g.ChangeLeader guid).1.m_memberSlots = g.m_memberSlots ∧
    (g.ChangeLeader guid).1.m_subGroupsCounts = g.m_subGroupsCounts ∧
    (g.ChangeLeader guid).1.m_groupFlags = g.m_groupFlags ∧
    (g.ChangeLeader guid).1.RollId = g.RollId := by
  unfold ChangeLeader
  cases g._getMemberCSlot guid <;> simp

theorem removeMemberSlot_frame (g : Group) (guid : ObjectGuid) (slot : MemberSlot) :
    (g.removeMemberSlot guid slot).m_memberSlots
      = g.m_memberSlots.eraseP (fun s => s.guid == guid) ∧
    (g.removeMemberSlot guid slot).m_subGroupsCounts
      = (SubGroupCounterDecrease g slot.group).m_subGroupsCounts ∧
    (g.removeMemberSlot guid slot).m_groupFlags = g.m_groupFlags ∧
    (g.removeMemberSlot guid slot).RollId = g.RollId := by
  unfold removeMemberSlot
  simp only
  split_ifs
  · split
    · simp_all [SubGroupCounterDecrease]
    · rename_i next rest heq
      obtain ⟨h1, h2, h3, h4⟩ := changeLeader_frame
        (SubGroupCounterDecrease
          { g with m_memberSlots := g.m_memberSlots.eraseP (fun s => s.guid == guid) }
          slot.group) next.guid
      rw [h1, h2, h3, h4]
      simp [SubGroupCounterDecrease]
  · simp [SubGroupCounterDecrease]

theorem hydrated_state (n : Nat) :
    (hydrated n).m_memberSlots.length = n ∧
    (hydrated n).m_subGroupsCounts = [n % 256, 0, 0, 0, 0, 0, 0, 0] := by
  induction n with
  | zero => exact ⟨rfl, rfl⟩
  | succ k ih =>
    obtain ⟨h1, h2⟩ := ih
    constructor
    · simp [hydrated, LoadMemberFromDB, SubGroupCounterIncrease, h1]
    · simp only [hydrated, LoadMemberFromDB, SubGroupCounterIncrease, h2, toUInt8]
      simp [List.getD]

/-! ### Membership store: counters and membership -/

/-- Outside the data model the `uint8` counters and the membership collection part ways: one
stored member record with subgroup index 8, for which there is no counter, or 256 stored
records of one subgroup, whose counter wraps around. -/
theorem counters_outside_data_model :
    (LoadMemberFromDB sampleWorld (hydrated 0) 1 0 8 0).subGroupsCountSum = 0 ∧
    (LoadMemberFromDB sampleWorld (hydrated 0) 1 0 8 0).GetMembersCount = 1 ∧
    (hydrated 256).subGroupsCountSum = 0 ∧ (hydrated 256).GetMembersCount = 256 := by
  obtain ⟨h1, h2⟩ := hydrated_state 256
  refine ⟨by decide, by decide, ?_, ?_⟩
  · simp [subGroupsCountSum, h2]
  · simp [GetMembersCount, h1, toUInt32]

theorem drawAll_map_fst (voters : List ObjectGuid) :
    ∀ rng : RandomStream, (drawAll rng voters).map Prod.fst = voters := by
  induction voters with
  | nil => intro rng; rfl
  | cons v vs ih => intro rng; simp [drawAll, ih]

theorem mem_of_mem_tiedAtMax (rng : RandomStream) (voters : List ObjectGuid) (x : ObjectGuid)
    (h : x ∈ tiedAtMax (drawAll rng voters)) : x ∈ voters := by
  unfold tiedAtMax at h
  rw [List.mem_map] at h
  obtain ⟨d, hd, rfl⟩ := h
  have hd1 : d ∈ drawAll rng voters := List.mem_of_mem_filter hd
  have : d.1 ∈ (drawAll rng voters).map Prod.fst := List.mem_map_of_mem _ hd1
  rwa [drawAll_map_fst] at this

theorem rollOff_of_tie (fuel : Nat) (rng : RandomStream) (voters : List ObjectGuid)
    (h : 2 ≤ (tiedAtMax (drawAll rng voters)).length) :
    rollOff (fuel + 1) rng voters
      = rollOff fuel (rng.drop voters.length) (tiedAtMax (drawAll rng voters)) := by
  cases ht : tiedAtMax (drawAll rng voters) with
  | nil => rw [ht] at h; simp at h
  | cons a t =>
    cases t with
    | nil => rw [ht] at h; simp at h
    | cons b t1 => simp only [rollOff, ht]

theorem rollOff_of_unique (fuel : Nat) (rng : RandomStream) (voters : List ObjectGuid)
    (p : ObjectGuid) (h : tiedAtMax (drawAll rng voters) = [p]) :
    rollOff (fuel + 1) rng voters
      = some (p, maxDraw (drawAll rng voters), rng.drop voters.length) := by
  simp only [rollOff, h]

theorem rollOff_mem (fuel : Nat) :
    ∀ (rng : RandomStream) (voters : List ObjectGuid) (r : ObjectGuid × Nat × RandomStream),
      rollOff fuel rng voters = some r → r.1 ∈ tiedAtMax (drawAll rng voters) := by
  induction fuel with
  | zero => intro rng voters r h; simp [rollOff] at h
  | succ k ih =>
    intro rng voters r h
    cases ht : tiedAtMax (drawAll rng voters) with
    | nil => simp [rollOff, ht] at h
    | cons a t =>
      cases t with
      | nil =>
        rw [rollOff_of_unique k rng voters a ht] at h
        simp only [Option.some.injEq] at h
        subst h
        simp
      | cons b t1 =>
        rw [rollOff_of_tie k rng voters (by rw [ht]; simp), ht] at h
        exact mem_of_mem_tiedAtMax _ _ _ (ih _ _ _ h)

theorem rollOff_succ (fuel : Nat) :
    ∀ (rng : RandomStream) (voters : List ObjectGuid) (r : ObjectGuid × Nat × RandomStream),
      rollOff fuel rng voters = some r → rollOff (fuel + 1) rng voters = some r := by
  induction fuel with
  | zero => intro rng voters r h; simp [rollOff] at h
  | succ k ih =>
    intro rng voters r h
    cases ht : tiedAtMax (drawAll rng voters) with
    | nil => simp [rollOff, ht] at h
    | cons a t =>
      cases t with
      | nil =>
        rw [rollOff_of_unique k rng voters a ht] at h
        rw [rollOff_of_unique (k + 1) rng voters a ht]
        exact h
      | cons b t1 =>
        have h2 : 2 ≤ (tiedAtMax (drawAll rng voters)).length := by rw [ht]; simp
        rw [rollOff_of_tie k rng voters h2] at h
        rw [rollOff_of_tie (k + 1) rng voters h2]
        exact ih _ _ _ h

theorem rollOff_add (n fuel : Nat) (rng : RandomStream) (voters : List ObjectGuid)
    (r : ObjectGuid × Nat × RandomStream) (h : rollOff fuel rng voters = some r) :
    rollOff (fuel + n) rng voters = some r := by
  induction n with
  | zero => exact h
  | succ k ih => exact rollOff_succ (fuel + k) rng voters r ih

theorem mem_votersOf (roll : Roll) (v : RollVote) (p : ObjectGuid) :
    p ∈ votersOf roll v ↔ (p, v) ∈ roll.playerVote := by
  unfold votersOf
  simp only [List.mem_map, List.mem_filter, beq_iff_eq]
  constructor
  · rintro ⟨e, ⟨he, hv⟩, rfl⟩
    rw [← hv]
    exact he
  · intro h
    exact ⟨(p, v), ⟨h, rfl⟩, rfl⟩

theorem rollOff_winner_voted (fuel : Nat) (rng : RandomStream) (roll : Roll) (v : RollVote)
    (r : ObjectGuid × Nat × RandomStream) (h : rollOff fuel rng (votersOf roll v) = some r) :
    (r.1, v) ∈ roll.playerVote :=
  (mem_votersOf roll v r.1).mp (mem_of_mem_tiedAtMax _ _ _ (rollOff_mem fuel rng _ r h))

theorem distinctSuccessiveDraws_drop (rng : RandomStream) (k : Nat)
    (h : distinctSuccessiveDraws rng) : distinctSuccessiveDraws (rng.drop k) := by
  intro i
  have := h (i + k)
  simp only [RandomStream.drop]
  rw [show i + 1 + k = i + k + 1 by omega]
  exact this

theorem drop_drop (rng : RandomStream) (a b : Nat) :
    (rng.drop a).drop b = rng.drop (b + a) := by
  funext i
  simp only [RandomStream.drop]
  rw [Nat.add_assoc]

theorem drawAll_length (voters : List ObjectGuid) :
    ∀ rng : RandomStream, (drawAll rng voters).length = voters.length := by
  induction voters with
  | nil => intro rng; rfl
  | cons v vs ih => intro rng; simp [drawAll, ih]

theorem foldl_max_ge (ds : List (ObjectGuid × Nat)) :
    ∀ init : Nat, init ≤ ds.foldl (fun m d => max m d.2) init ∧
      ∀ d ∈ ds, d.2 ≤ ds.foldl (fun m d => max m d.2) init := by
  induction ds with
  | nil => intro init; simp
  | cons a t ih =>
    intro init
    obtain ⟨h1, h2⟩ := ih (max init a.2)
    simp only [List.foldl_cons, List.mem_cons]
    refine ⟨le_trans (le_max_left _ _) h1, ?_⟩
    rintro d (rfl | hd)
    · exact le_trans (le_max_right _ _) h1
    · exact h2 d hd

theorem foldl_max_attained (ds : List (ObjectGuid × Nat)) :
    ∀ init : Nat, ds.foldl (fun m d => max m d.2) init = init ∨
      ∃ d ∈ ds, d.2 = ds.foldl (fun m d => max m d.2) init := by
  induction ds with
  | nil => intro init; left; rfl
  | cons a t ih =>
    intro init
    simp only [List.foldl_cons, List.mem_cons]
    rcases ih (max init a.2) with h | ⟨d, hd, he⟩
    · rw [h]
      rcases le_total init a.2 with hle | hle
      · right
        exact ⟨a, Or.inl rfl, by rw [max_eq_right hle]⟩
      · left
        exact max_eq_left hle
    · right
      exact ⟨d, Or.inr hd, he⟩

theorem tiedAtMax_ne_nil (ds : List (ObjectGuid × Nat)) (h : ds ≠ []) : tiedAtMax ds ≠ [] := by
  have hatt : ∃ d ∈ ds, d.2 = maxDraw ds := by
    rcases foldl_max_attained ds 0 with h0 | h1
    · obtain ⟨a, ha⟩ := List.exists_mem_of_ne_nil ds h
      refine ⟨a, ha, ?_⟩
      have := (foldl_max_ge ds 0).2 a ha
      unfold maxDraw
      omega
    · exact h1
  obtain ⟨d, hd, he⟩ := hatt
  intro hnil
  have hmem : d.1 ∈ tiedAtMax ds := by
    unfold tiedAtMax
    exact List.mem_map_of_mem _ (List.mem_filter.mpr ⟨hd, by simp [he]⟩)
  rw [hnil] at hmem
  simp at hmem

theorem tiedAtMax_length_le (ds : List (ObjectGuid × Nat)) :
    (tiedAtMax ds).length ≤ ds.length := by
  unfold tiedAtMax
  rw [List.length_map]
  exact List.length_filter_le _ _

theorem tiedAtMax_length_lt (rng : RandomStream) (voters : List ObjectGuid)
    (hd : distinctSuccessiveDraws rng) (h : 2 ≤ voters.length) :
    (tiedAtMax (drawAll rng voters)).length < voters.length := by
  rcases voters with _ | ⟨a, _ | ⟨b, t⟩⟩
  · simp at h
  · simp at h
  · have hne := hd 0
    unfold tiedAtMax
    rw [List.length_map]
    have hlen := drawAll_length (a :: b :: t) rng
    rw [← hlen]
    rw [List.length_filter_lt_length_iff_exists]
    by_cases h0 : urand 1 100 (rng 0) = maxDraw (drawAll rng (a :: b :: t))
    · refine ⟨(b, urand 1 100 (rng 1)), ?_, ?_⟩
      · simp [drawAll, RandomStream.drop]
      · simp only [beq_iff_eq]
        rw [← h0]
        exact fun e => hne e.symm
    · refine ⟨(a, urand 1 100 (rng 0)), ?_, ?_⟩
      · simp [drawAll]
      · simpa using h0

theorem rollOff_total (fuel : Nat) :
    ∀ (rng : RandomStream) (voters : List ObjectGuid), distinctSuccessiveDraws rng →
      voters ≠ [] → voters.length ≤ fuel → ∃ r, rollOff fuel rng voters = some r := by
  induction fuel with
  | zero =>
    intro rng voters _ hne hlen
    exact absurd (List.length_eq_zero.mp (Nat.le_zero.mp hlen)) hne
  | succ k ih =>
    intro rng voters hd hne hlen
    have hdraw : drawAll rng voters ≠ [] := by
      intro h
      have := drawAll_length voters rng
      rw [h] at this
      exact hne (List.length_eq_zero.mp this.symm)
    cases ht : tiedAtMax (drawAll rng voters) with
    | nil => exact absurd ht (tiedAtMax_ne_nil _ hdraw)
    | cons a t =>
      cases t with
      | nil => exact ⟨_, rollOff_of_unique k rng voters a ht⟩
      | cons b t1 =>
        have h2 : 2 ≤ (tiedAtMax (drawAll rng voters)).length := by rw [ht]; simp
        have hv : 2 ≤ voters.length := by
          have := tiedAtMax_length_le (drawAll rng voters)
          rw [drawAll_length] at this
          omega
        have hlt := tiedAtMax_length_lt rng voters hd hv
        rw [rollOff_of_tie k rng voters h2]
        exact ih _ _ (distinctSuccessiveDraws_drop rng _ hd)
          (by rw [ht]; simp) (by omega)

theorem rollOff_stream (fuel : Nat) :
    ∀ (rng : RandomStream) (voters : List ObjectGuid) (r : ObjectGuid × Nat × RandomStream),
      rollOff fuel rng voters = some r → ∃ k, r.2.2 = rng.drop k := by
  induction fuel with
  | zero => intro rng voters r h; simp [rollOff] at h
  | succ k ih =>
    intro rng voters r h
    cases ht : tiedAtMax (drawAll rng voters) with
    | nil => simp [rollOff, ht] at h
    | cons a t =>
      cases t with
      | nil =>
        rw [rollOff_of_unique k rng voters a ht] at h
        simp only [Option.some.injEq] at h
        subst h
        exact ⟨_, rfl⟩
      | cons b t1 =>
        rw [rollOff_of_tie k rng voters (by rw [ht]; simp)] at h
        obtain ⟨j, hj⟩ := ih _ _ _ h
        exact ⟨j + voters.length, by rw [hj, drop_drop]⟩

theorem rollOff_none_iff (fuel : Nat) :
    ∀ (rng : RandomStream) (voters : List ObjectGuid), voters ≠ [] →
      (rollOff fuel rng voters = none ↔ tiedRounds fuel rng voters = true) := by
  induction fuel with
  | zero => intro rng voters _; simp [rollOff, tiedRounds]
  | succ k ih =>
    intro rng voters hne
    have hdraw : drawAll rng voters ≠ [] := by
      intro h
      have := drawAll_length voters rng
      rw [h] at this
      exact hne (List.length_eq_zero.mp this.symm)
    cases ht : tiedAtMax (drawAll rng voters) with
    | nil => exact absurd ht (tiedAtMax_ne_nil _ hdraw)
    | cons a t =>
      cases t with
      | nil =>
        rw [rollOff_of_unique k rng voters a ht]
        simp [tiedRounds, ht]
      | cons b t1 =>
        have h2 : 2 ≤ (tiedAtMax (drawAll rng voters)).length := by rw [ht]; simp
        rw [rollOff_of_tie k rng voters h2]
        have := ih (rng.drop voters.length) (tiedAtMax (drawAll rng voters)) (by rw [ht]; simp)
        rw [this]
        simp [tiedRounds, h2]

theorem distinctSuccessiveDraws_ascending : distinctSuccessiveDraws ascendingStream := by
  intro i
  simp only [ascendingStream, urand]
  omega

theorem votersOf_length_le (roll : Roll) (v : RollVote) :
    (votersOf roll v).length ≤ roll.playerVote.length := by
  unfold votersOf
  rw [List.length_map]
  exact List.length_filter_le _ _

theorem drawingTier_voters_ne_nil (g : Group) (roll : Roll) (tier : RollVote)
    (h : drawingTier g roll tier) : votersOf roll tier ≠ [] := by
  rcases h with ⟨rfl, h1⟩ | ⟨rfl, _, h1, _⟩ | ⟨rfl, _, _, h1⟩ <;> exact h1

theorem countTheRoll_of_drawingTier (fuel : Nat) (rng : RandomStream) (g : Group) (roll : Roll)
    (tier : RollVote) (h : drawingTier g roll tier) :
    CountTheRoll fuel rng g roll
      = (rollOff fuel rng (votersOf roll tier)).map
          (fun r => (g.removeRoll roll, Resolution.Resolved r.1 r.2.1 tier, r.2.2)) := by
  unfold CountTheRoll
  simp only
  rcases h with ⟨rfl, h1⟩ | ⟨rfl, h1, h2, h3⟩ | ⟨rfl, h1, h2, h3⟩
  · rw [if_pos h1]
  · rw [if_neg (by rw [h1]; simp), if_pos h2, if_neg h3]
  · rw [if_neg (by rw [h1]; simp), if_neg (by rw [h2]; simp), if_pos h3]

theorem countTheRoll_cases (g : Group) (roll : Roll) :
    (∃ tier, drawingTier g roll tier) ∨
    (∃ res, ∀ fuel rng, CountTheRoll fuel rng g roll = some (g.removeRoll roll, res, rng)) := by
  by_cases hN : votersOf roll RollVote.NEED ≠ []
  · exact Or.inl ⟨RollVote.NEED, Or.inl ⟨rfl, hN⟩⟩
  · have hN1 : votersOf roll RollVote.NEED = [] := by simpa using hN
    by_cases hD : votersOf roll RollVote.DISENCHANT ≠ []
    · by_cases hH : g.m_disenchantInfo.DisenchanterGUID ≠ ObjectGuid.Empty ∧
          g.m_disenchantInfo.DisenchanterGUID ∈ votersOf roll RollVote.DISENCHANT
      · right
        refine ⟨Resolution.Resolved g.m_disenchantInfo.DisenchanterGUID 0 RollVote.DISENCHANT,
          ?_⟩
        intro fuel rng
        unfold CountTheRoll
        simp only
        rw [if_neg hN, if_pos hD, if_pos hH]
      · exact Or.inl ⟨RollVote.DISENCHANT, Or.inr (Or.inl ⟨rfl, hN1, hD, hH⟩)⟩
    · have hD1 : votersOf roll RollVote.DISENCHANT = [] := by simpa using hD
      by_cases hG : votersOf roll RollVote.GREED ≠ []
      · exact Or.inl ⟨RollVote.GREED, Or.inr (Or.inr ⟨rfl, hN1, hD1, hG⟩)⟩
      · right
        refine ⟨Resolution.Discarded, ?_⟩
        intro fuel rng
        unfold CountTheRoll
        simp only
        rw [if_neg hN, if_neg hD, if_neg hG]

theorem countTheRoll_total (fuel : Nat) (rng : RandomStream) (g : Group) (roll : Roll)
    (hd : distinctSuccessiveDraws rng) (hfuel : roll.playerVote.length ≤ fuel) :
    ∃ res rng1, CountTheRoll fuel rng g roll = some (g.removeRoll roll, res, rng1) ∧
      distinctSuccessiveDraws rng1 := by
  rcases countTheRoll_cases g roll with ⟨tier, ht⟩ | h
  · obtain ⟨r, hr⟩ := rollOff_total fuel rng (votersOf roll tier) hd
      (drawingTier_voters_ne_nil g roll tier ht)
      (le_trans (votersOf_length_le roll tier) hfuel)
    obtain ⟨k, hk⟩ := rollOff_stream fuel rng _ r hr
    refine ⟨Resolution.Resolved r.1 r.2.1 tier, r.2.2, ?_, ?_⟩
    · rw [countTheRoll_of_drawingTier fuel rng g roll tier ht, hr]
      rfl
    · rw [hk]
      exact distinctSuccessiveDraws_drop rng k hd
  · obtain ⟨res, hres⟩ := h
    exact ⟨res, rng, hres fuel rng, hd⟩

theorem countTheRoll_mono (fuel n : Nat) (rng : RandomStream) (g : Group) (roll : Roll)
    (r : Group × Resolution × RandomStream) (h : CountTheRoll fuel rng g roll = some r) :
    CountTheRoll (fuel + n) rng g roll = some r := by
  rcases countTheRoll_cases g roll with ⟨tier, ht⟩ | hc
  · rw [countTheRoll_of_drawingTier fuel rng g roll tier ht] at h
    rw [countTheRoll_of_drawingTier (fuel + n) rng g roll tier ht]
    simp only [Option.map_eq_some'] at h ⊢
    obtain ⟨a, ha, he⟩ := h
    exact ⟨a, rollOff_add n fuel rng _ a ha, he⟩
  · obtain ⟨res, hres⟩ := hc
    rw [hres fuel rng] at h
    rw [hres (fuel + n) rng]
    exact h

theorem countTheRoll_none (fuel : Nat) (rng : RandomStream) (g : Group) (roll : Roll)
    (h : CountTheRoll fuel rng g roll = none) :
    ∃ tier, drawingTier g roll tier ∧ tiedRounds fuel rng (votersOf roll tier) = true := by
  rcases countTheRoll_cases g roll with ⟨tier, ht⟩ | ⟨res, hres⟩
  · refine ⟨tier, ht, ?_⟩
    rw [countTheRoll_of_drawingTier fuel rng g roll tier ht] at h
    simp only [Option.map_eq_none'] at h
    exact (rollOff_none_iff fuel rng _ (drawingTier_voters_ne_nil g roll tier ht)).mp h
  · rw [hres fuel rng] at h
    exact absurd h (by simp)

/-- C7: let two or more voters of the tier that draws in `CountTheRoll` tie for the maximum
of the first draw.  Then, for every random stream: (1) no winner is declared from that draw
(with fuel for one round `CountTheRoll` returns nothing); (2) `CountTheRoll` goes on with
the roll-off of the tied voters only, on the rest of the stream, and (3) the voters who draw
in the second round are exactly the tied voters; (4) this is repeated until a unique maximum
exists: `CountTheRoll` returns nothing exactly as long as every round has ended in a tie;
(5) when the re-draw of the tied voters has a unique maximum, its voter wins with that draw;
(6) whenever `CountTheRoll` returns, the winner is one of the voters tied in the first draw,
a voter of the tier, and the group has changed in nothing but the removal of the roll;
(7) `CountTheRoll` does return a winner when no two successive draws of the stream are equal
and the fuel is at least the number of voters of the tier; (8) a result, once reached, is
the same for every larger fuel; (9) every other roll of the group, with its votes, is still
in the group. -/
theorem C7_rollOff_redraws_tied_only (fuel : Nat) (rng : RandomStream) (g : Group)
    (roll : Roll) (tier : RollVote) (htier : drawingTier g roll tier)
    (htie : 2 ≤ (tiedAtMax (drawAll rng (votersOf roll tier))).length) :
    CountTheRoll 1 rng g roll = none ∧
    CountTheRoll (fuel + 1) rng g roll
      = (rollOff fuel (rng.drop (votersOf roll tier).length)
          (tiedAtMax (drawAll rng (votersOf roll tier)))).map
          (fun r => (g.removeRoll roll, Resolution.Resolved r.1 r.2.1 tier, r.2.2)) ∧
    (drawAll (rng.drop (votersOf roll tier).length)
        (tiedAtMax (drawAll rng (votersOf roll tier)))).map Prod.fst
      = tiedAtMax (drawAll rng (votersOf roll tier)) ∧
    (CountTheRoll fuel rng g roll = none ↔
      tiedRounds fuel rng (votersOf roll tier) = true) ∧
    (∀ q, tiedAtMax (drawAll (rng.drop (votersOf roll tier).length)
          (tiedAtMax (drawAll rng (votersOf roll tier)))) = [q] →
      CountTheRoll (fuel + 2) rng g roll
        = some (g.removeRoll roll,
            Resolution.Resolved q
              (maxDraw (drawAll (rng.drop (votersOf roll tier).length)
                (tiedAtMax (drawAll rng (votersOf roll tier))))) tier,
            (rng.drop (votersOf roll tier).length).drop
              (tiedAtMax (drawAll rng (votersOf roll tier))).length)) ∧
    (∀ g1 res rng1, CountTheRoll fuel rng g roll = some (g1, res, rng1) →
      g1 = g.removeRoll roll ∧
      ∃ winner draw, res = Resolution.Resolved winner draw tier ∧
        winner ∈ tiedAtMax (drawAll rng (votersOf roll tier)) ∧
        (winner, tier) ∈ roll.playerVote) ∧
    (distinctSuccessiveDraws rng → (votersOf roll tier).length ≤ fuel →
      ∃ winner draw rng1, CountTheRoll fuel rng g roll
        = some (g.removeRoll roll, Resolution.Resolved winner draw tier, rng1)) ∧
    (∀ r n, CountTheRoll fuel rng g roll = some r →
      CountTheRoll (fuel + n) rng g roll = some r) ∧
    (∀ other ∈ g.RollId, other.itemGUID ≠ roll.itemGUID →
      other ∈ (g.removeRoll roll).RollId) := by
  have hne := drawingTier_voters_ne_nil g roll tier htier
  refine ⟨?_, ?_, drawAll_map_fst _ _, ?_, ?_, ?_, ?_, ?_, ?_⟩
  · rw [countTheRoll_of_drawingTier 1 rng g roll tier htier,
      rollOff_of_tie 0 rng _ htie]
    rfl
  · rw [countTheRoll_of_drawingTier (fuel + 1) rng g roll tier htier,
      rollOff_of_tie fuel rng _ htie]
  · rw [countTheRoll_of_drawingTier fuel rng g roll tier htier, Option.map_eq_none']
    exact rollOff_none_iff fuel rng _ hne
  · intro q hq
    rw [countTheRoll_of_drawingTier (fuel + 2) rng g roll tier htier,
      rollOff_of_tie (fuel + 1) rng _ htie, rollOff_of_unique fuel _ _ q hq]
    rfl
  · intro g1 res rng1 h
    rw [countTheRoll_of_drawingTier fuel rng g roll tier htier] at h
    simp only [Option.map_eq_some', Prod.mk.injEq] at h
    obtain ⟨a, ha, h1, h2, -⟩ := h
    exact ⟨h1.symm, a.1, a.2.1, h2.symm, rollOff_mem fuel rng _ a ha,
      rollOff_winner_voted fuel rng roll tier a ha⟩
  · intro hd hfuel
    obtain ⟨r, hr⟩ := rollOff_total fuel rng _ hd hne hfuel
    refine ⟨r.1, r.2.1, r.2.2, ?_⟩
    rw [countTheRoll_of_drawingTier fuel rng g roll tier htier, hr]
    rfl
  · intro r n h
    exact countTheRoll_mono fuel n rng g roll r h
  · intro other hmem hne1
    simp only [removeRoll, List.mem_filter, bne_iff_ne, ne_eq]
    exact ⟨hmem, hne1⟩

/-- C7 (witness): voters 10, 20 and 30 voted need; 10 and 20 both draw 8 and 30 draws 3: no
winner comes from that draw, the roll-off goes on with 10 and 20 only, and 20 wins it with a
5 against a 4. -/
theorem C7_rollOff_redraws_tied_only_witness :
    drawingTier fullParty tieRoll RollVote.NEED ∧
    2 ≤ (tiedAtMax (drawAll tieStream (votersOf tieRoll RollVote.NEED))).length ∧
    drawAll tieStream (votersOf tieRoll RollVote.NEED) = [(10, 8), (20, 8), (30, 3)] ∧
    tiedAtMax (drawAll tieStream (votersOf tieRoll RollVote.NEED)) = [10, 20] ∧
    drawAll (tieStream.drop (votersOf tieRoll RollVote.NEED).length)
      (tiedAtMax (drawAll tieStream (votersOf tieRoll RollVote.NEED))) = [(10, 4), (20, 5)] ∧
    CountTheRoll 1 tieStream fullParty tieRoll = none ∧
    (CountTheRoll (0 + 2) tieStream fullParty tieRoll).map (fun r => (r.1, r.2.1))
      = some (fullParty.removeRoll tieRoll, Resolution.Resolved 20 5 RollVote.NEED) :=
  ⟨Or.inl ⟨rfl, by decide⟩, by decide, by decide, by decide, by decide,
    (C7_rollOff_redraws_tied_only 0 tieStream fullParty tieRoll RollVote.NEED
      (Or.inl ⟨rfl, by decide⟩) (by decide)).1,
    by
      rw [(C7_rollOff_redraws_tied_only 0 tieStream fullParty tieRoll RollVote.NEED
        (Or.inl ⟨rfl, by decide⟩) (by decide)).2.2.2.2.1 20 (by decide)]
      decide⟩

/-! ### Membership store: leadership succession and disband -/

theorem removeMemberSlot_leader (g : Group) (guid : ObjectGuid) (slot next : MemberSlot)
    (rest : List MemberSlot) (hlead : g.IsLeader guid = true)
    (herase : g.m_memberSlots.eraseP (fun s => s.guid == guid) = next :: rest) :
    (g.removeMemberSlot guid slot).m_leaderGuid = next.guid := by
  simp [removeMemberSlot, hlead, SubGroupCounterDecrease, herase, ChangeLeader, _getMemberCSlot]

theorem endRolls_total (fuel : Nat) (rolls : List Roll) :
    ∀ (rng : RandomStream) (g : Group), distinctSuccessiveDraws rng →
      (∀ roll ∈ rolls, roll.playerVote.length ≤ fuel) →
      ∃ r, endRolls fuel rng g rolls = some r := by
  induction rolls with
  | nil => intro rng g _ _; exact ⟨_, rfl⟩
  | cons roll rest ih =>
    intro rng g hd hfuel
    obtain ⟨res, rng1, hres, hd1⟩ := countTheRoll_total fuel rng g roll hd
      (hfuel roll (List.mem_cons_self _ _))
    simp only [endRolls, hres]
    exact ih rng1 _ hd1 (fun x hx => hfuel x (List.mem_cons_of_mem _ hx))

theorem endRolls_rollId (fuel : Nat) (rolls : List Roll) :
    ∀ (rng : RandomStream) (g : Group) (r : Group × RandomStream),
      endRolls fuel rng g rolls = some r →
      ∀ x ∈ r.1.RollId, x ∈ g.RollId ∧ ∀ roll ∈ rolls, x.itemGUID ≠ roll.itemGUID := by
  induction rolls with
  | nil =>
    intro rng g r h
    simp only [endRolls, Option.some.injEq] at h
    subst h
    intro x hx
    exact ⟨hx, by simp⟩
  | cons roll rest ih =>
    intro rng g r h
    simp only [endRolls] at h
    cases hc : CountTheRoll fuel rng g roll with
    | none => simp [hc] at h
    | some y =>
      simp only [hc] at h
      have hy := countTheRoll_fst fuel rng g roll y hc
      intro x hx
      obtain ⟨h1, h2⟩ := ih _ _ _ h x hx
      rw [hy] at h1
      simp only [removeRoll, List.mem_filter, bne_iff_ne, ne_eq] at h1
      refine ⟨h1.1, ?_⟩
      intro r1 hr1
      rcases List.mem_cons.mp hr1 with rfl | hr1
      · exact h1.2
      · exact h2 r1 hr1

theorem disband_effects (fuel : Nat) (rng : RandomStream) (g : Group)
    (r : Group × RandomStream) (h : Disband fuel rng g = some r) :
    r.1.m_memberSlots = g.m_memberSlots ∧ r.1.m_leaderGuid = g.m_leaderGuid ∧
    r.1.isDestroyed = true ∧ r.1.m_invitees = [] ∧ r.1.RollId = [] ∧
    ∀ b ∈ r.1.m_boundInstances, b.perm = true := by
  obtain ⟨h1, _, h3, h4, h5⟩ := disband_frame fuel rng g r h
  refine ⟨h1, h3, h4, h5, ?_, ?_⟩
  · unfold Disband EndRoll at h
    cases he : endRolls fuel rng g.RemoveAllInvites g.RemoveAllInvites.RollId with
    | none => simp [he] at h
    | some x =>
      simp only [he, Option.some.injEq] at h
      subst h
      have hx := endRolls_rollId fuel _ rng _ x he
      simp only
      rw [List.eq_nil_iff_forall_not_mem]
      intro a ha
      obtain ⟨h6, h7⟩ := hx a ha
      exact h7 a h6 rfl
  · unfold Disband at h
    cases he : EndRoll fuel rng g.RemoveAllInvites with
    | none => simp [he] at h
    | some x =>
      simp only [he, Option.some.injEq] at h
      subst h
      intro b hb
      simp only [List.mem_filter] at hb
      exact hb.2

theorem disband_total (fuel : Nat) (rng : RandomStream) (g : Group)
    (h : g.RollId = [] ∨
      (distinctSuccessiveDraws rng ∧ ∀ roll ∈ g.RollId, roll.playerVote.length ≤ fuel)) :
    ∃ r, Disband fuel rng g = some r := by
  have hd : ∃ x, endRolls fuel rng g.RemoveAllInvites g.RemoveAllInvites.RollId = some x := by
    rcases h with h | ⟨h1, h2⟩
    · have : g.RemoveAllInvites.RollId = [] := h
      rw [this]
      exact ⟨_, rfl⟩
    · exact endRolls_total fuel _ rng _ h1 h2
  obtain ⟨x, hx⟩ := hd
  unfold Disband EndRoll
  rw [hx]
  exact ⟨_, rfl⟩

theorem endRolls_none (fuel : Nat) (rolls : List Roll) :
    ∀ (rng : RandomStream) (g : Group), endRolls fuel rng g rolls = none →
      ∃ roll ∈ rolls, ∃ g1 rng1 tier, drawingTier g1 roll tier ∧
        tiedRounds fuel rng1 (votersOf roll tier) = true := by
  induction rolls with
  | nil => intro rng g h; simp [endRolls] at h
  | cons roll rest ih =>
    intro rng g h
    simp only [endRolls] at h
    cases hc : CountTheRoll fuel rng g roll with
    | none =>
      obtain ⟨tier, h1, h2⟩ := countTheRoll_none fuel rng g roll hc
      exact ⟨roll, List.mem_cons_self _ _, g, rng, tier, h1, h2⟩
    | some y =>
      simp only [hc] at h
      obtain ⟨r1, hr1, hrest⟩ := ih _ _ h
      exact ⟨r1, List.mem_cons_of_mem _ hr1, hrest⟩

theorem removeMember_none (w : World) (fuel : Nat) (rng : RandomStream) (g : Group)
    (guid : ObjectGuid) (h : RemoveMember w fuel rng g guid = none) :
    ∃ roll ∈ g.RollId, ∃ g1 rng1 tier, drawingTier g1 roll tier ∧
      tiedRounds fuel rng1 (votersOf roll tier) = true := by
  unfold RemoveMember at h
  cases hslot : g._getMemberCSlot guid with
  | none => simp [hslot] at h
  | some slot =>
    simp only [hslot] at h
    obtain ⟨-, -, -, hrolls⟩ := removeMemberSlot_frame g guid slot
    split_ifs at h
    · simp only [Option.map_eq_none'] at h
      unfold Disband EndRoll at h
      cases he : endRolls fuel rng (g.removeMemberSlot guid slot).RemoveAllInvites
          (g.removeMemberSlot guid slot).RemoveAllInvites.RollId with
      | none =>
        have hr : (g.removeMemberSlot guid slot).RemoveAllInvites.RollId = g.RollId := hrolls
        rw [hr] at he
        exact endRolls_none fuel _ rng _ he
      | some x => simp [he] at h

/-- C3: (1) in a group with at least two member slots whose leader is a member,
`RemoveMember` applied to the leader leaves the remaining slots in their insertion order and
makes the first of them the new leader, who therefore is a remaining member; the call does
return this group when no roll is active, when no disband is due, or when no two successive
draws of the random stream are equal and the fuel is at least the number of vote records of
every active roll (the roll-offs of a disband then all reach a unique maximum).  (2) In a
group with a single member slot, `RemoveMember` applied to that member disbands the group:
under the same conditions the call returns, and whenever it returns the group is marked
destroyed, has no member, no pending invitation, no active roll and only permanent instance
bindings left.  (3) For every random stream, either call fails to return only as long as
the roll-off of an active roll has ended in a tie in every round that the fuel allows. -/
theorem C3_removeMember_leader_succession (w : World) (fuel : Nat) (rng : RandomStream)
    (g gs : Group) (s : MemberSlot)
    (htwo : 2 ≤ g.m_memberSlots.length) (hleader : g.IsMember g.m_leaderGuid = true)
    (hsole : gs.m_memberSlots = [s]) :
    (∃ next rest,
      g.m_memberSlots.eraseP (fun x => x.guid == g.m_leaderGuid) = next :: rest ∧
      (∀ g1 o rng1, RemoveMember w fuel rng g g.m_leaderGuid = some (g1, o, rng1) →
        g1.m_memberSlots = next :: rest ∧ g1.m_leaderGuid = next.guid ∧
        g1.IsMember g1.m_leaderGuid = true ∧ o = Outcome.ok) ∧
      ((g.RollId = [] ∨ max 1 (w.minMembers g.m_groupFlags) ≤ rest.length + 1 ∨
          (distinctSuccessiveDraws rng ∧ ∀ roll ∈ g.RollId, roll.playerVote.length ≤ fuel)) →
        ∃ g1 rng1, RemoveMember w fuel rng g g.m_leaderGuid = some (g1, Outcome.ok, rng1) ∧
          g1.m_memberSlots = next :: rest ∧ g1.m_leaderGuid = next.guid ∧
          g1.IsMember g1.m_leaderGuid = true)) ∧
    ((∀ g1 o rng1, RemoveMember w fuel rng gs s.guid = some (g1, o, rng1) →
        g1.isDestroyed = true ∧ g1.m_memberSlots = [] ∧ g1.m_invitees = [] ∧
        g1.RollId = [] ∧ (∀ b ∈ g1.m_boundInstances, b.perm = true) ∧ o = Outcome.ok) ∧
      ((gs.RollId = [] ∨
          (distinctSuccessiveDraws rng ∧ ∀ roll ∈ gs.RollId, roll.playerVote.length ≤ fuel)) →
        ∃ g1 rng1, RemoveMember w fuel rng gs s.guid = some (g1, Outcome.ok, rng1) ∧
          g1.isDestroyed = true ∧ g1.m_memberSlots = [] ∧ g1.m_invitees = [] ∧
          g1.RollId = [] ∧ (∀ b ∈ g1.m_boundInstances, b.perm = true))) ∧
    ((RemoveMember w fuel rng g g.m_leaderGuid = none →
        ∃ roll ∈ g.RollId, ∃ g1 rng1 tier, drawingTier g1 roll tier ∧
          tiedRounds fuel rng1 (votersOf roll tier) = true) ∧
      (RemoveMember w fuel rng gs s.guid = none →
        ∃ roll ∈ gs.RollId, ∃ g1 rng1 tier, drawingTier g1 roll tier ∧
          tiedRounds fuel rng1 (votersOf roll tier) = true)) := by
  refine ⟨?_, ?_, removeMember_none w fuel rng g g.m_leaderGuid,
    removeMember_none w fuel rng gs s.guid⟩
  · -- the leader of a group of at least two
    obtain ⟨slot, hslot⟩ := Option.isSome_iff_exists.mp hleader
    have hfind : g.m_memberSlots.find? (fun x => x.guid == g.m_leaderGuid) = some slot := hslot
    have hlenE : (g.m_memberSlots.eraseP (fun x => x.guid == g.m_leaderGuid)).length
        = g.m_memberSlots.length - 1 := by
      have hp : (fun x : MemberSlot => x.guid == g.m_leaderGuid) slot = true :=
        @List.find?_some _ (fun x : MemberSlot => x.guid == g.m_leaderGuid) slot _ hfind
      exact List.length_eraseP_of_mem (List.mem_of_find?_eq_some hfind) hp
    cases herase : g.m_memberSlots.eraseP (fun x => x.guid == g.m_leaderGuid) with
    | nil =>
      rw [herase] at hlenE
      simp only [List.length_nil] at hlenE
      omega
    | cons next rest =>
      obtain ⟨hm, _, hflags, hrolls⟩ := removeMemberSlot_frame g g.m_leaderGuid slot
      have hlead : (g.removeMemberSlot g.m_leaderGuid slot).m_leaderGuid = next.guid :=
        removeMemberSlot_leader g g.m_leaderGuid slot next rest (by simp [IsLeader]) herase
      rw [herase] at hm
      have hcore : ∀ g1 : Group, g1.m_memberSlots = next :: rest → g1.m_leaderGuid = next.guid →
          g1.IsMember g1.m_leaderGuid = true := by
        intro g1 h1 h2
        simp [IsMember, _getMemberCSlot, h1, h2]
      have hsafe : ∀ g1 o rng1, RemoveMember w fuel rng g g.m_leaderGuid = some (g1, o, rng1) →
          g1.m_memberSlots = next :: rest ∧ g1.m_leaderGuid = next.guid ∧
          g1.IsMember g1.m_leaderGuid = true ∧ o = Outcome.ok := by
        intro g1 o rng1 hstep
        unfold RemoveMember at hstep
        simp only [hslot] at hstep
        split_ifs at hstep
        · simp only [Option.map_eq_some'] at hstep
          obtain ⟨r, hr, heq⟩ := hstep
          obtain ⟨h1, _, h3, _⟩ := disband_frame _ _ _ r hr
          simp only [Prod.mk.injEq] at heq
          obtain ⟨e1, e2, _⟩ := heq
          subst e1
          rw [hm] at h1
          rw [hlead] at h3
          exact ⟨h1, h3, hcore _ h1 h3, e2.symm⟩
        · simp only [Option.some.injEq, Prod.mk.injEq] at hstep
          obtain ⟨e1, e2, _⟩ := hstep
          subst e1
          exact ⟨hm, hlead, hcore _ hm hlead, e2.symm⟩
      refine ⟨next, rest, rfl, hsafe, ?_⟩
      intro hprod
      have hret : ∃ g1 rng1, RemoveMember w fuel rng g g.m_leaderGuid
          = some (g1, Outcome.ok, rng1) := by
        unfold RemoveMember
        simp only [hslot]
        split_ifs with hlt
        · have hdis : ∃ r, Disband fuel rng (g.removeMemberSlot g.m_leaderGuid slot) = some r := by
            apply disband_total
            rw [hrolls]
            rcases hprod with hno | hge | hfair
            · exact Or.inl hno
            · rw [hm, hflags] at hlt
              simp only [List.length_cons] at hlt
              omega
            · exact Or.inr hfair
          obtain ⟨r, hr⟩ := hdis
          rw [hr]
          exact ⟨_, _, rfl⟩
        · exact ⟨_, _, rfl⟩
      obtain ⟨g1, rng1, hstep⟩ := hret
      obtain ⟨h1, h2, h3, -⟩ := hsafe g1 _ rng1 hstep
      exact ⟨g1, rng1, hstep, h1, h2, h3⟩
  · -- the sole member
    have hfind : gs._getMemberCSlot s.guid = some s := by
      simp [_getMemberCSlot, hsole]
    obtain ⟨hm, _, hflags, hrolls⟩ := removeMemberSlot_frame gs s.guid s
    have hnil : (gs.removeMemberSlot s.guid s).m_memberSlots = [] := by
      rw [hm, hsole]
      simp [List.eraseP_cons]
    have hlt : (gs.removeMemberSlot s.guid s).m_memberSlots.length
        < max 1 (w.minMembers (gs.removeMemberSlot s.guid s).m_groupFlags) := by
      rw [hnil]
      exact Nat.lt_of_lt_of_le Nat.one_pos (le_max_left _ _)
    have heq : RemoveMember w fuel rng gs s.guid
        = (Disband fuel rng (gs.removeMemberSlot s.guid s)).map
            (fun r => (r.1, Outcome.ok, r.2)) := by
      unfold RemoveMember
      simp only [hfind, hlt, if_true]
    have hsafe : ∀ g1 o rng1, RemoveMember w fuel rng gs s.guid = some (g1, o, rng1) →
        g1.isDestroyed = true ∧ g1.m_memberSlots = [] ∧ g1.m_invitees = [] ∧
        g1.RollId = [] ∧ (∀ b ∈ g1.m_boundInstances, b.perm = true) ∧ o = Outcome.ok := by
      intro g1 o rng1 hstep
      rw [heq] at hstep
      simp only [Option.map_eq_some'] at hstep
      obtain ⟨r, hr, hres⟩ := hstep
      obtain ⟨h1, _, h3, h4, h5, h6⟩ := disband_effects _ _ _ r hr
      simp only [Prod.mk.injEq] at hres
      obtain ⟨e1, e2, _⟩ := hres
      subst e1
      rw [hnil] at h1
      exact ⟨h3, h1, h4, h5, h6, e2.symm⟩
    refine ⟨hsafe, ?_⟩
    intro hprod
    obtain ⟨r, hr⟩ := disband_total fuel rng (gs.removeMemberSlot s.guid s)
      (by rw [hrolls]; exact hprod)
    have hstep : RemoveMember w fuel rng gs s.guid = some (r.1, Outcome.ok, r.2) := by
      rw [heq, hr]
      rfl
    obtain ⟨h1, h2, h3, h4, h5, -⟩ := hsafe _ _ _ hstep
    exact ⟨r.1, r.2, hstep, h1, h2, h3, h4, h5⟩

/-- C3 (witness): the leader of the five-member party leaves while a contested roll is
active, and the only member of a one-member group leaves while a contested roll is active
and an invitation is pending: the group is disbanded, the roll-off having been run. -/
theorem C3_removeMember_leader_succession_witness :
    2 ≤ partyWithContestedRoll.m_memberSlots.length ∧
    partyWithContestedRoll.IsMember partyWithContestedRoll.m_leaderGuid = true ∧
    soleGroupWithRoll.m_memberSlots = [sampleSlot 7 0] ∧
    (∃ g1 rng1, RemoveMember sampleWorld 3 ascendingStream partyWithContestedRoll
        partyWithContestedRoll.m_leaderGuid = some (g1, Outcome.ok, rng1) ∧
      g1.m_memberSlots = [sampleSlot 2 0, sampleSlot 3 0, sampleSlot 4 0, sampleSlot 5 0] ∧
      g1.m_leaderGuid = 2) ∧
    (∃ g1 rng1, RemoveMember sampleWorld 3 ascendingStream soleGroupWithRoll
        (sampleSlot 7 0).guid = some (g1, Outcome.ok, rng1) ∧
      g1.isDestroyed = true ∧ g1.m_memberSlots = [] ∧ g1.m_invitees = [] ∧ g1.RollId = []) ∧
    (RemoveMember sampleWorld 3 ascendingStream soleGroupWithRoll 7).map (fun r => r.1)
      = some { Group.ctor with m_groupFlags := GROUP_FLAG_DESTROYED,
                               m_subGroupsCounts := [0, 0, 0, 0, 0, 0, 0, 0],
                               m_leaderGuid := 7 } := by
  have hfair : distinctSuccessiveDraws ascendingStream ∧
      ∀ roll ∈ soleGroupWithRoll.RollId, roll.playerVote.length ≤ 3 :=
    ⟨distinctSuccessiveDraws_ascending, by decide⟩
  have hfairParty : distinctSuccessiveDraws ascendingStream ∧
      ∀ roll ∈ partyWithContestedRoll.RollId, roll.playerVote.length ≤ 3 :=
    ⟨distinctSuccessiveDraws_ascending, by decide⟩
  obtain ⟨⟨next, rest, herase, -, hlead⟩, ⟨-, hsole⟩, -⟩ :=
    C3_removeMember_leader_succession sampleWorld 3 ascendingStream partyWithContestedRoll
      soleGroupWithRoll (sampleSlot 7 0) (by decide) (by decide) rfl
  refine ⟨by decide, by decide, rfl, ?_, ?_, by decide⟩
  · obtain ⟨g1, rng1, h1, h2, h3, -⟩ := hlead (Or.inr (Or.inr hfairParty))
    have he : next :: rest
        = [sampleSlot 2 0, sampleSlot 3 0, sampleSlot 4 0, sampleSlot 5 0] := by
      rw [← herase]
      decide
    have hn : next = sampleSlot 2 0 := by
      injection he
    exact ⟨g1, rng1, h1, by rw [h2, he], by rw [h3, hn]; rfl⟩
  · obtain ⟨g1, rng1, h1, h2, h3, h4, h5, -⟩ := hsole (Or.inr hfair)
    exact ⟨g1, rng1, h1, h2, h3, h4, h5⟩

/-! ### Marker mask -/

/-- C10 (refutation): with prior marker mask `0x01`, `RemoveGroupMarkerMask(0x20)` leaves the
marker mask `0`, not `0x20`. -/
theorem C10_remove_sentinel_counterexample :
    (({ Group.ctor with m_markerMask := 0x01 } : Group).RemoveGroupMarkerMask 0x20).GetMarkerMask = 0 ∧
    (({ Group.ctor with m_markerMask := 0x01 } : Group).RemoveGroupMarkerMask 0x20).GetMarkerMask
      ≠ 0x20 := by
  decide

/-- C10 (amended): for the sentinel input mask `0x20` and every prior marker mask,
`RemoveGroupMarkerMask(0x20)` first sets the mask to the sentinel bit and then clears that
bit: afterwards `GetMarkerMask() == 0`, and no other field of the group changes. -/
theorem C10_remove_sentinel_clears_mask (g : Group) :
    (g.RemoveGroupMarkerMask 0x20).GetMarkerMask = 0 ∧
    g.RemoveGroupMarkerMask 0x20 = { g with m_markerMask := 0 } := by
  constructor <;> simp [Group.RemoveGroupMarkerMask, Group.GetMarkerMask, toUInt32, not32] <;> decide

/-! ### Membership store: failures leave the state unchanged -/

/-- C2: if the membership of a group has reached capacity (`GetMembersCount` is at least 5,
or at least 40 when the group is raid-flagged), `AddMember` fails with `GroupFull` and
returns the group unchanged (member slots, subgroup counters, leader and all the rest). -/
theorem C2_addMember_full_fails (g : Group) (player : Player)
    (hfull : (if g.isRaidGroup then MAXRAIDSIZE else MAX_GROUP_SIZE) ≤ g.GetMembersCount) :
    g.AddMember player = (g, Outcome.failed GroupError.GroupFull) := by
  have hle : g.GetMembersCount ≤ g.m_memberSlots.length := by
    unfold Group.GetMembersCount toUInt32
    exact Nat.mod_le _ _
  have hF : g.IsFull = true := by
    unfold Group.IsFull
    by_cases hr : g.isRaidGroup = true
    · simp only [hr, if_true] at hfull ⊢
      exact decide_eq_true (le_trans hfull hle)
    · simp only [hr] at hfull ⊢
      exact decide_eq_true (le_trans hfull hle)
  simp [Group.AddMember, hF]

/-- C2 (witness): the five-member party refuses a sixth member. -/
theorem C2_addMember_full_fails_witness :
    (if Group.fullParty.isRaidGroup then MAXRAIDSIZE else MAX_GROUP_SIZE)
        ≤ Group.fullParty.GetMembersCount ∧
    Group.fullParty.AddMember { guid := 9, name := "", guildId := 0 }
      = (Group.fullParty, Outcome.failed GroupError.GroupFull) :=
  ⟨by decide, C2_addMember_full_fails Group.fullParty _ (by decide)⟩

/-- C4: if the counter of the destination subgroup already holds 5 members,
`ChangeMembersGroup` fails with `SubgroupFull` for every guid and returns the group unchanged
(every subgroup counter and every member's subgroup index). -/
theorem C4_changeMembersGroup_full_fails (g : Group) (guid : ObjectGuid) (group : Nat)
    (hfull : g.m_subGroupsCounts[group]? = some MAX_GROUP_SIZE) :
    g.ChangeMembersGroup guid group = (g, Outcome.failed GroupError.SubgroupFull) := by
  have hF : g.HasFreeSlotSubGroup group = false := by
    simp [Group.HasFreeSlotSubGroup, hfull]
  simp [Group.ChangeMembersGroup, hF]

/-- C4 (witness): member 6 of the sample raid cannot move to the full subgroup 0. -/
theorem C4_changeMembersGroup_full_fails_witness :
    Group.sampleRaid.m_subGroupsCounts[0]? = some MAX_GROUP_SIZE ∧
    Group.sampleRaid.ChangeMembersGroup 6 0
      = (Group.sampleRaid, Outcome.failed GroupError.SubgroupFull) :=
  ⟨by decide, C4_changeMembersGroup_full_fails Group.sampleRaid 6 0 (by decide)⟩

/-! ### Loot roll engine: votes -/

theorem lookup_map_record (p : ObjectGuid) (v x : RollVote)
    (l : List (ObjectGuid × RollVote)) (h : l.lookup p = some x) :
    (l.map (fun e => if e.1 == p then (e.1, v) else e)).lookup p = some v := by
  induction l with
  | nil => simp at h
  | cons e t ih =>
    obtain ⟨k, b⟩ := e
    by_cases hk : p = k
    · subst hk
      simp [List.lookup_cons]
    · have hk1 : (p == k) = false := by simpa using hk
      have hk2 : (k == p) = false := by simpa using fun h => hk h.symm
      simp only [List.lookup_cons, hk1] at h
      simp only [List.map_cons, hk2, Bool.false_eq_true, if_false, List.lookup_cons, hk1]
      exact ih h

theorem find?_map_replace (Guid : ObjectGuid) (roll roll1 : Roll) (l : List Roll)
    (h : l.find? (fun r => r.itemGUID == Guid) = some roll) (h1 : roll1.itemGUID = Guid) :
    (l.map (fun r => if r.itemGUID == Guid then roll1 else r)).find?
      (fun r => r.itemGUID == Guid) = some roll1 := by
  induction l with
  | nil => simp at h
  | cons a t ih =>
    by_cases ha : (a.itemGUID == Guid) = true
    · have hb : (roll1.itemGUID == Guid) = true := by simpa using h1
      simp only [List.map_cons, ha, if_true, List.find?_cons, hb]
    · have ha1 : (a.itemGUID == Guid) = false := by simpa using ha
      simp only [List.find?_cons, ha1] at h
      simp only [List.map_cons, ha1, Bool.false_eq_true, if_false, List.find?_cons]
      exact ih h

theorem find?_filter_ne (Guid : ObjectGuid) (l : List Roll) :
    (l.filter (fun r => r.itemGUID != Guid)).find? (fun r => r.itemGUID == Guid) = none := by
  rw [List.find?_eq_none]
  intro r hr
  have := (List.mem_filter.mp hr).2
  simpa using this

theorem recordVote_itemGUID (roll : Roll) (p : ObjectGuid) (v : RollVote) :
    (recordVote roll p v).itemGUID = roll.itemGUID := by
  cases v <;> rfl

theorem recordVote_playerVote (roll : Roll) (p : ObjectGuid) (v : RollVote) :
    (recordVote roll p v).playerVote
      = roll.playerVote.map (fun e => if e.1 == p then (e.1, v) else e) := by
  cases v <;> rfl

theorem updateDisenchantInfo_RollId (w : World) (g : Group) (p : ObjectGuid) :
    (updateDisenchantInfo w g p).RollId = g.RollId := by
  unfold updateDisenchantInfo
  split_ifs <;> rfl

theorem countRollVote_first_vote (w : World) (fuel : Nat) (rng rng1 : RandomStream)
    (g g1 : Group) (p Guid : ObjectGuid) (c : Nat) (roll : Roll)
    (hroll : g.GetRoll Guid = some roll)
    (hnot : roll.playerVote.lookup p = some RollVote.NOT_EMITED_YET)
    (hstep : CountRollVote w fuel rng g p Guid c = some (g1, Outcome.ok, rng1))
    (hopen : g1.GetRoll Guid ≠ none) :
    ∃ roll1 v, g1.GetRoll Guid = some roll1 ∧ roll1.playerVote.lookup p = some v ∧
      v ≠ RollVote.NOT_EMITED_YET := by
  have hguid : roll.itemGUID = Guid := by
    have := @List.find?_some _ (fun r : Roll => r.itemGUID == Guid) roll _ hroll
    simpa using this
  unfold CountRollVote at hstep
  simp only [hroll, hnot, ne_eq, not_true_eq_false, if_false] at hstep
  cases hc : RollVote.ofNat? c with
  | none => simp [hc] at hstep
  | some v =>
    simp only [hc] at hstep
    by_cases hallow : voteAllowed w roll v = true
    · simp only [hallow, Bool.not_true, Bool.false_eq_true, if_false] at hstep
      have hv : v ≠ RollVote.NOT_EMITED_YET := by
        intro hv
        subst hv
        simp [voteAllowed] at hallow
      have hfind := find?_map_replace Guid roll (recordVote roll p v) g.RollId hroll
        (by rw [recordVote_itemGUID]; exact hguid)
      have hlook := lookup_map_record p v _ roll.playerVote hnot
      rw [← recordVote_playerVote] at hlook
      split_ifs at hstep with hzero hdis hdis
      · exfalso
        simp only [Option.map_eq_some', Prod.mk.injEq] at hstep
        obtain ⟨r, hr, hg, -, -⟩ := hstep
        have h1 := countTheRoll_fst _ _ _ _ r hr
        apply hopen
        rw [← hg, h1]
        simp only [GetRoll, removeRoll, recordVote_itemGUID, hguid]
        exact find?_filter_ne Guid _
      · exfalso
        simp only [Option.map_eq_some', Prod.mk.injEq] at hstep
        obtain ⟨r, hr, hg, -, -⟩ := hstep
        have h1 := countTheRoll_fst _ _ _ _ r hr
        apply hopen
        rw [← hg, h1]
        simp only [GetRoll, removeRoll, recordVote_itemGUID, hguid]
        exact find?_filter_ne Guid _
      · simp only [Option.some.injEq, Prod.mk.injEq] at hstep
        refine ⟨recordVote roll p v, v, ?_, hlook, hv⟩
        rw [← hstep.1]
        simp only [GetRoll, updateDisenchantInfo_RollId]
        exact hfind
      · simp only [Option.some.injEq, Prod.mk.injEq] at hstep
        refine ⟨recordVote roll p v, v, ?_, hlook, hv⟩
        rw [← hstep.1]
        exact hfind
    · have hallow1 : voteAllowed w roll v = false := by simpa using hallow
      simp [hallow1] at hstep

/-- C5: (1) if the roll of the item is open and the participant's recorded vote in it is a
cast vote (not `NOT_EMITED_YET`), a further `CountRollVote` by that participant fails with
`DuplicateVote`, whatever the new choice is, and returns the group unchanged: the recorded
vote and the running totals of the roll stay as they were, and no random draw is consumed.
(2) In particular, after a successful `CountRollVote` of a voter who had not voted yet, and
as long as the roll is still open, a second `CountRollVote` of that voter for the same item
fails with `DuplicateVote` and returns the group unchanged. -/
theorem C5_countRollVote_duplicate (w : World) (fuel : Nat) (rng : RandomStream) (g : Group)
    (playerGUID Guid : ObjectGuid) (Choise : Nat) :
    (∀ (roll : Roll) (vote : RollVote), g.GetRoll Guid = some roll →
      roll.playerVote.lookup playerGUID = some vote → vote ≠ RollVote.NOT_EMITED_YET →
      CountRollVote w fuel rng g playerGUID Guid Choise
        = some (g, Outcome.failed GroupError.DuplicateVote, rng)) ∧
    (∀ (g0 : Group) (roll0 : Roll) (fuel0 first : Nat) (rng0 : RandomStream),
      g0.GetRoll Guid = some roll0 →
      roll0.playerVote.lookup playerGUID = some RollVote.NOT_EMITED_YET →
      CountRollVote w fuel0 rng0 g0 playerGUID Guid first = some (g, Outcome.ok, rng) →
      g.GetRoll Guid ≠ none →
      CountRollVote w fuel rng g playerGUID Guid Choise
        = some (g, Outcome.failed GroupError.DuplicateVote, rng)) := by
  have hmain : ∀ (roll : Roll) (vote : RollVote), g.GetRoll Guid = some roll →
      roll.playerVote.lookup playerGUID = some vote → vote ≠ RollVote.NOT_EMITED_YET →
      CountRollVote w fuel rng g playerGUID Guid Choise
        = some (g, Outcome.failed GroupError.DuplicateVote, rng) := by
    intro roll vote hroll hvote hcast
    simp [CountRollVote, hroll, hvote, hcast]
  refine ⟨hmain, ?_⟩
  intro g0 roll0 fuel0 first rng0 hroll0 hnot hstep hopen
  obtain ⟨roll1, v, h1, h2, h3⟩ :=
    countRollVote_first_vote w fuel0 rng0 rng g0 g playerGUID Guid first roll0 hroll0 hnot
      hstep hopen
  exact hmain roll1 v h1 h2 h3

/-- C5 (witness): voter 1 of the sample roll, who voted greed, cannot vote need. -/
theorem C5_countRollVote_duplicate_witness :
    partyWithRoll.GetRoll 77 = some sampleRoll ∧
    sampleRoll.playerVote.lookup 1 = some RollVote.GREED ∧
    CountRollVote sampleWorld 3 (fun i => i) partyWithRoll 1 77 1
      = some (partyWithRoll, Outcome.failed GroupError.DuplicateVote, fun i => i) :=
  ⟨by decide, by decide,
    (C5_countRollVote_duplicate sampleWorld 3 (fun i => i) partyWithRoll 1 77 1).1
      sampleRoll RollVote.GREED (by decide) (by decide) (by decide)⟩

/-- C8: on a group whose active-roll collection is empty, `EndRoll` returns (for every fuel
and every random stream) the very same group, without consuming a random draw. -/
theorem C8_endRoll_empty_noop (fuel : Nat) (rng : RandomStream) (g : Group)
    (hempty : g.RollId = []) :
    Group.EndRoll fuel rng g = some (g, rng) := by
  simp [Group.EndRoll, hempty, Group.endRolls]

/-- C8 (witness): `EndRoll` on the five-member party, which has no active roll. -/
theorem C8_endRoll_empty_noop_witness :
    Group.fullParty.RollId = [] ∧
    Group.EndRoll 0 (fun i => i) Group.fullParty = some (Group.fullParty, fun i => i) :=
  ⟨by decide, C8_endRoll_empty_noop 0 (fun i => i) Group.fullParty (by decide)⟩

/-! ### Marker mask: bitmask operations -/

theorem toUInt32_lt (x : Nat) : toUInt32 x < 2 ^ 32 := by
  unfold toUInt32
  exact Nat.mod_lt _ (by decide)

theorem testBit_not32 (x i : Nat) :
    (not32 x).testBit i = (decide (i < 32) && !(toUInt32 x).testBit i) := by
  have h := Nat.testBit_two_pow_sub_succ (toUInt32_lt x) i
  have e : not32 x = 2 ^ 32 - (toUInt32 x + 1) := by
    have := toUInt32_lt x
    unfold not32
    omega
  rw [e]
  exact h

theorem and_not32_and_self (m x : Nat) : (m &&& not32 x) &&& toUInt32 x = 0 := by
  apply Nat.eq_of_testBit_eq
  intro i
  simp only [Nat.testBit_and, testBit_not32, Nat.zero_testBit]
  cases m.testBit i <;> cases (toUInt32 x).testBit i <;> simp

theorem toUInt32_of_lt (x : Nat) (h : x < 4294967296) : toUInt32 x = x := by
  unfold toUInt32
  exact Nat.mod_eq_of_lt h

/-- C11: for every `uint32` input mask other than `0x20` and every prior marker mask `m`,
`RemoveGroupMarkerMask(mask)` only unsets bits: afterwards `GetMarkerMask() == m & ~mask`,
every bit of `mask` is cleared, every one of the 32 bits outside `mask` is as it was, and no
other field of the group changes. -/
theorem C11_remove_unsets_bits (g : Group) (mask : Nat) (hmask : mask < 4294967296)
    (hne : mask ≠ 0x20) :
    (g.RemoveGroupMarkerMask mask).GetMarkerMask = g.GetMarkerMask &&& not32 mask ∧
    (g.RemoveGroupMarkerMask mask).GetMarkerMask &&& mask = 0 ∧
    (∀ i, mask.testBit i = true →
      (g.RemoveGroupMarkerMask mask).GetMarkerMask.testBit i = false) ∧
    (∀ i, i < 32 → mask.testBit i = false →
      (g.RemoveGroupMarkerMask mask).GetMarkerMask.testBit i = g.GetMarkerMask.testBit i) ∧
    g.RemoveGroupMarkerMask mask = { g with m_markerMask := g.m_markerMask &&& not32 mask } := by
  have hm := toUInt32_of_lt mask hmask
  have hrm : g.RemoveGroupMarkerMask mask
      = { g with m_markerMask := g.m_markerMask &&& not32 mask } := by
    simp only [RemoveGroupMarkerMask, hm, hne, if_false]
  have hget : (g.RemoveGroupMarkerMask mask).GetMarkerMask = g.GetMarkerMask &&& not32 mask := by
    rw [hrm]
    rfl
  refine ⟨hget, ?_, ?_, ?_, hrm⟩
  · rw [hget]
    have := and_not32_and_self g.GetMarkerMask mask
    rwa [hm] at this
  · intro i hi
    rw [hget, Nat.testBit_and, testBit_not32, hm, hi]
    simp
  · intro i hi hbit
    rw [hget, Nat.testBit_and, testBit_not32, hm, hbit]
    simp [hi]

/-- C11 (witness): removing marker `0x02` from the marker mask `0x07` leaves `0x05`. -/
theorem C11_remove_unsets_bits_witness :
    (0x02 : Nat) < 4294967296 ∧ (0x02 : Nat) ≠ 0x20 ∧
    (({ Group.ctor with m_markerMask := 0x07 } : Group).RemoveGroupMarkerMask 0x02).GetMarkerMask
      = 0x05 :=
  ⟨by decide, by decide,
    (C11_remove_unsets_bits { Group.ctor with m_markerMask := 0x07 } 0x02 (by decide)
      (by decide)).1.trans (by decide)⟩

/-- C12: `AddGroupMarkerMask` is bitmask-additive: for every prior marker mask `m` and every
`uint32` input mask, afterwards `GetMarkerMask() == m | mask`; no previously set marker is
lost and every bit of the mask is set; adding the same mask twice is the same as adding it
once; two additions commute. -/
theorem C12_add_marker_mask_additive (g : Group) (mask other : Nat)
    (hmask : mask < 4294967296) :
    (g.AddGroupMarkerMask mask).GetMarkerMask = g.GetMarkerMask ||| mask ∧
    (∀ i, g.GetMarkerMask.testBit i = true →
      (g.AddGroupMarkerMask mask).GetMarkerMask.testBit i = true) ∧
    (∀ i, mask.testBit i = true →
      (g.AddGroupMarkerMask mask).GetMarkerMask.testBit i = true) ∧
    (g.AddGroupMarkerMask mask).AddGroupMarkerMask mask = g.AddGroupMarkerMask mask ∧
    (g.AddGroupMarkerMask mask).AddGroupMarkerMask other
      = (g.AddGroupMarkerMask other).AddGroupMarkerMask mask := by
  have hm := toUInt32_of_lt mask hmask
  have hget : (g.AddGroupMarkerMask mask).GetMarkerMask = g.GetMarkerMask ||| mask := by
    simp [AddGroupMarkerMask, GetMarkerMask, hm]
  refine ⟨hget, ?_, ?_, ?_, ?_⟩
  · intro i hi
    rw [hget, Nat.testBit_or, hi]
    rfl
  · intro i hi
    rw [hget, Nat.testBit_or, hi]
    simp
  · simp only [AddGroupMarkerMask, Nat.or_assoc, Nat.or_self]
  · simp only [AddGroupMarkerMask, Nat.or_assoc]
    rw [Nat.or_comm (toUInt32 mask) (toUInt32 other)]

/-- C12 (witness): adding marker `0x04` to the marker mask `0x03` gives `0x07`. -/
theorem C12_add_marker_mask_additive_witness :
    (0x04 : Nat) < 4294967296 ∧
    (({ Group.ctor with m_markerMask := 0x03 } : Group).AddGroupMarkerMask 0x04).GetMarkerMask
      = 0x07 :=
  ⟨by decide,
    (C12_add_marker_mask_additive { Group.ctor with m_markerMask := 0x03 } 0x04 0
      (by decide)).1.trans (by decide)⟩

/-- C14: for every input mask (`0x20` included) and every prior marker mask, after
`RemoveGroupMarkerMask(mask)` no bit of the mask is set: `HasMarker(mask)` is false. -/
theorem C14_removed_mask_has_no_marker (g : Group) (mask : Nat) :
    (g.RemoveGroupMarkerMask mask).HasMarker mask = false := by
  simp only [HasMarker, RemoveGroupMarkerMask, bne_eq_false_iff_eq]
  have e : toUInt32 (toUInt32 mask) = toUInt32 mask := by
    simp only [toUInt32, Nat.mod_mod]
  have h := and_not32_and_self
    (if toUInt32 mask = 0x20 then ({ g with m_markerMask := 0x20 } : Group) else g).m_markerMask
    (toUInt32 mask)
  simp only [e] at h
  exact h

/-! ### Member flags -/

/-- C15: whatever `GetMemberFlags` returns, `IsAssistant(guid)` is true exactly when the bit
`MEMBER_FLAG_ASSISTANT` (`0x01`, bit 0) is set in `GetMemberFlags(guid)`; the main-tank
(`0x02`) and main-assist (`0x04`) bits are other bits, and flipping either of them in the
flags does not change the result. -/
theorem C15_isAssistant_iff_assistant_bit (ops : GroupOps) (g : Group) (guid : ObjectGuid) :
    (ops.IsAssistant g guid = true
      ↔ ops.GetMemberFlags g guid &&& MEMBER_FLAG_ASSISTANT = MEMBER_FLAG_ASSISTANT) ∧
    ops.IsAssistant g guid = (ops.GetMemberFlags g guid).testBit 0 ∧
    MEMBER_FLAG_ASSISTANT = 0x01 ∧
    MEMBER_FLAG_MAINTANK &&& MEMBER_FLAG_ASSISTANT = 0 ∧
    MEMBER_FLAG_MAINASSIST &&& MEMBER_FLAG_ASSISTANT = 0 ∧
    (∀ ops1 : GroupOps,
      (ops1.GetMemberFlags g guid = ops.GetMemberFlags g guid ^^^ MEMBER_FLAG_MAINTANK ∨
        ops1.GetMemberFlags g guid = ops.GetMemberFlags g guid ^^^ MEMBER_FLAG_MAINASSIST) →
      ops1.IsAssistant g guid = ops.IsAssistant g guid) := by
  have hbit : ∀ (o : GroupOps), o.IsAssistant g guid = (o.GetMemberFlags g guid).testBit 0 := by
    intro o
    simp only [GroupOps.IsAssistant, MEMBER_FLAG_ASSISTANT, Nat.testBit_zero, Nat.and_one_is_mod]
    rcases Nat.mod_two_eq_zero_or_one (o.GetMemberFlags g guid) with h | h <;> simp [h]
  refine ⟨by simp [GroupOps.IsAssistant], hbit ops, rfl, by decide, by decide, ?_⟩
  intro ops1 h
  rw [hbit ops1, hbit ops]
  rcases h with h | h <;> rw [h, Nat.testBit_xor] <;>
    simp [MEMBER_FLAG_MAINTANK, MEMBER_FLAG_MAINASSIST]

/-! ### Chat handler: where the events of a call come from -/

theorem mem_withHooks (env : ChatEnv) (script : Bool) (type : ChatMsg) (lang : Nat)
    (msg : String) (target : ChatTarget) (deliver : String → List ChatEvent) (e : ChatEvent)
    (h : e ∈ withHooks env script type lang msg target deliver) :
    e = ChatEvent.OnPlayerChat type lang msg target ∨
    (∃ m, e = ChatEvent.ElunaOnChat type lang m target) ∨ (∃ m, e ∈ deliver m) := by
  unfold withHooks at h
  simp only at h
  split_ifs at h <;> simp only [List.mem_append, List.mem_singleton, List.not_mem_nil,
    or_false, false_or] at h
  all_goals first
    | (rcases h with (h | h) | h
       · exact Or.inl h
       · exact Or.inr (Or.inl ⟨_, h⟩)
       · exact Or.inr (Or.inr ⟨_, h⟩))
    | (rcases h with h | h
       · exact Or.inl h
       · exact Or.inr (Or.inl ⟨_, h⟩))
    | (rcases h with h | h
       · exact Or.inr (Or.inl ⟨_, h⟩)
       · exact Or.inr (Or.inr ⟨_, h⟩))
    | (rcases h with h | h
       · exact Or.inl h
       · exact Or.inr (Or.inr ⟨_, h⟩))
    | exact Or.inr (Or.inl ⟨_, h⟩)
    | exact Or.inr (Or.inr ⟨_, h⟩)

theorem diagnostic_of_error_eq (l events : List ChatEvent)
    (h : (Except.error l : Except (List ChatEvent) Nat) = Except.error events)
    (hl : ∀ e ∈ l, e.isDiagnostic = true) : ∀ e ∈ events, e.isDiagnostic = true := by
  injection h with h
  subst h
  exact hl

theorem readLanguage_error_diagnostic (env : ChatEnv) (type : ChatMsg) (lang : Nat)
    (events : List ChatEvent) (h : readLanguage env type lang = Except.error events) :
    ∀ e ∈ events, e.isDiagnostic = true := by
  unfold readLanguage at h
  by_cases hf : hasLanguageField type = true
  · rw [if_pos hf] at h
    by_cases hu : lang = env.LANG_UNIVERSAL
    · rw [if_pos hu] at h
      exact diagnostic_of_error_eq _ _ h (by decide)
    · rw [if_neg hu] at h
      cases hd : env.GetLanguageDescSkill lang with
      | none =>
        rw [hd] at h
        exact diagnostic_of_error_eq _ _ h (by decide)
      | some skill_id =>
        rw [hd] at h
        simp only at h
        split_ifs at h
        all_goals exact diagnostic_of_error_eq _ _ h (by decide)
  · rw [if_neg hf] at h
    exact absurd h (by simp)

theorem mem_checkMessage (env : ChatEnv) (lang : Nat) (msg : String) (e : ChatEvent)
    (h : e ∈ (checkMessage env lang msg).1) : e.isPreliminary = true := by
  unfold checkMessage at h
  simp only at h
  split_ifs at h <;> simp at h
  all_goals first
    | (subst h; rfl)
    | (rcases h with rfl | rfl <;> rfl)
    | (rcases h with rfl | rfl | rfl <;> rfl)

theorem diagnostic_isPreliminary (e : ChatEvent) (h : e.isDiagnostic = true) :
    e.isPreliminary = true := by
  cases e <;> simp [ChatEvent.isDiagnostic] at h <;> rfl

theorem preliminary_facts (e : ChatEvent) (h : e.isPreliminary = true) :
    e.isHook = false ∧ e.isDelivery = false ∧ e.isBroadcast = false ∧ e.lang? = none ∧
    e.type? = none ∧ e.group? = none := by
  cases e <;> simp [ChatEvent.isPreliminary] at h <;> exact ⟨rfl, rfl, rfl, rfl, rfl, rfl⟩

theorem mem_handleWithLanguage (env : ChatEnv) (type : ChatMsg) (lang : Nat)
    (recvData : ChatPacket) (e : ChatEvent)
    (h : e ∈ handleWithLanguage env type lang recvData) :
    e.isPreliminary = true ∨ ∃ msg, e ∈ dispatchChat env type lang msg recvData.receiver := by
  unfold handleWithLanguage at h
  split_ifs at h
  · simp only [List.mem_singleton] at h
    subst h
    exact Or.inl rfl
  · exact Or.inr ⟨_, h⟩
  · have hpre := mem_checkMessage env lang (readMsg type recvData) e
    split at h
    · rename_i events heq
      rw [heq] at hpre
      exact Or.inl (hpre h)
    · rename_i events msg heq
      rw [heq] at hpre
      rcases List.mem_append.mp h with h1 | h1
      · exact Or.inl (hpre h1)
      · exact Or.inr ⟨_, h1⟩

theorem mem_handle (env : ChatEnv) (recvData : ChatPacket) (e : ChatEvent)
    (h : e ∈ HandleMessagechatOpcode env recvData) :
    e.isPreliminary = true ∨
    ∃ type lang msg, chatTypeOfOpcode recvData.opcode = some type ∧
      readLanguage env type recvData.lang = Except.ok lang ∧
      e ∈ dispatchChat env type lang msg recvData.receiver := by
  unfold HandleMessagechatOpcode at h
  cases ht : chatTypeOfOpcode recvData.opcode with
  | none =>
    simp only [ht, List.mem_singleton] at h
    subst h
    exact Or.inl rfl
  | some type =>
    simp only [ht] at h
    split_ifs at h
    · simp only [List.mem_singleton] at h
      subst h
      exact Or.inl rfl
    · cases hl : readLanguage env type recvData.lang with
      | error events =>
        simp only [hl] at h
        exact Or.inl (diagnostic_isPreliminary e
          (readLanguage_error_diagnostic env type recvData.lang events hl e h))
      | ok lang =>
        simp only [hl] at h
        rcases mem_handleWithLanguage env type lang recvData e h with h1 | ⟨msg, h1⟩
        · exact Or.inl h1
        · exact Or.inr ⟨type, lang, msg, rfl, hl, h1⟩

theorem mem_handleParty (env : ChatEnv) (type : ChatMsg) (lang : Nat) (msg : String)
    (e : ChatEvent) (h : e ∈ handleParty env type lang msg) :
    ∃ g, partyChatGroup env = some g ∧
      (e = ChatEvent.OnPlayerChat
          (if env.group.IsLeader g env.playerGuid then ChatMsg.CHAT_MSG_PARTY_LEADER else type)
          lang msg (ChatTarget.group g) ∨
        (∃ m, e = ChatEvent.ElunaOnChat
          (if env.group.IsLeader g env.playerGuid then ChatMsg.CHAT_MSG_PARTY_LEADER else type)
          lang m (ChatTarget.group g)) ∨
        (∃ m, e = ChatEvent.BroadcastPacket g
          (if env.group.IsLeader g env.playerGuid then ChatMsg.CHAT_MSG_PARTY_LEADER else type)
          lang m false (env.group.GetMemberGroup g env.playerGuid : Nat))) := by
  unfold handleParty at h
  cases hg : partyChatGroup env with
  | none => simp [hg] at h
  | some g =>
    simp only [hg] at h
    refine ⟨g, rfl, ?_⟩
    rcases mem_withHooks _ _ _ _ _ _ _ e h with h1 | ⟨m, h1⟩ | ⟨m, h1⟩
    · exact Or.inl h1
    · exact Or.inr (Or.inl ⟨m, h1⟩)
    · exact Or.inr (Or.inr ⟨m, List.mem_singleton.mp h1⟩)

theorem mem_handleRaid (env : ChatEnv) (type : ChatMsg) (lang : Nat) (msg : String)
    (e : ChatEvent) (h : e ∈ handleRaid env type lang msg) :
    ∃ g, raidChatGroup env = some g ∧
      (e = ChatEvent.OnPlayerChat
          (if env.group.IsLeader g env.playerGuid then ChatMsg.CHAT_MSG_RAID_LEADER else type)
          lang msg (ChatTarget.group g) ∨
        (∃ m, e = ChatEvent.ElunaOnChat
          (if env.group.IsLeader g env.playerGuid then ChatMsg.CHAT_MSG_RAID_LEADER else type)
          lang m (ChatTarget.group g)) ∨
        (∃ m, e = ChatEvent.BroadcastPacket g
          (if env.group.IsLeader g env.playerGuid then ChatMsg.CHAT_MSG_RAID_LEADER else type)
          lang m false (-1))) := by
  unfold handleRaid at h
  cases hg : raidChatGroup env with
  | none => simp [hg] at h
  | some g =>
    simp only [hg] at h
    refine ⟨g, rfl, ?_⟩
    rcases mem_withHooks _ _ _ _ _ _ _ e h with h1 | ⟨m, h1⟩ | ⟨m, h1⟩
    · exact Or.inl h1
    · exact Or.inr (Or.inl ⟨m, h1⟩)
    · exact Or.inr (Or.inr ⟨m, List.mem_singleton.mp h1⟩)

theorem mem_handleRaidWarning (env : ChatEnv) (type : ChatMsg) (lang : Nat) (msg : String)
    (e : ChatEvent) (h : e ∈ handleRaidWarning env type lang msg) :
    ∃ g, raidWarningGroup env = some g ∧
      (e = ChatEvent.OnPlayerChat type lang msg (ChatTarget.group g) ∨
        (∃ m, e = ChatEvent.ElunaOnChat type lang m (ChatTarget.group g)) ∨
        (∃ m, e = ChatEvent.BroadcastPacket g ChatMsg.CHAT_MSG_RAID_WARNING lang m false
          (-1))) := by
  unfold handleRaidWarning at h
  cases hg : raidWarningGroup env with
  | none => simp [hg] at h
  | some g =>
    simp only [hg] at h
    refine ⟨g, rfl, ?_⟩
    rcases mem_withHooks _ _ _ _ _ _ _ e h with h1 | ⟨m, h1⟩ | ⟨m, h1⟩
    · exact Or.inl h1
    · exact Or.inr (Or.inl ⟨m, h1⟩)
    · exact Or.inr (Or.inr ⟨m, List.mem_singleton.mp h1⟩)

theorem mem_handleBattleground (env : ChatEnv) (type : ChatMsg) (lang : Nat) (msg : String)
    (e : ChatEvent) (h : e ∈ handleBattleground env type lang msg) :
    ∃ g, battlegroundChatGroup env = some g ∧
      (e = ChatEvent.OnPlayerChat
          (if env.group.IsLeader g env.playerGuid then ChatMsg.CHAT_MSG_BATTLEGROUND_LEADER
            else type)
          lang msg (ChatTarget.group g) ∨
        (∃ m, e = ChatEvent.ElunaOnChat
          (if env.group.IsLeader g env.playerGuid then ChatMsg.CHAT_MSG_BATTLEGROUND_LEADER
            else type)
          lang m (ChatTarget.group g)) ∨
        (∃ m, e = ChatEvent.BroadcastPacket g
          (if env.group.IsLeader g env.playerGuid then ChatMsg.CHAT_MSG_BATTLEGROUND_LEADER
            else type)
          lang m false (-1))) := by
  unfold handleBattleground at h
  cases hg : battlegroundChatGroup env with
  | none => simp [hg] at h
  | some g =>
    simp only [hg] at h
    refine ⟨g, rfl, ?_⟩
    rcases mem_withHooks _ _ _ _ _ _ _ e h with h1 | ⟨m, h1⟩ | ⟨m, h1⟩
    · exact Or.inl h1
    · exact Or.inr (Or.inl ⟨m, h1⟩)
    · exact Or.inr (Or.inr ⟨m, List.mem_singleton.mp h1⟩)

theorem mem_handle_of_opcode (env : ChatEnv) (recvData : ChatPacket) (type : ChatMsg)
    (e : ChatEvent) (ht : chatTypeOfOpcode recvData.opcode = some type)
    (h : e ∈ HandleMessagechatOpcode env recvData) (hpre : e.isPreliminary = false) :
    ∃ lang msg, readLanguage env type recvData.lang = Except.ok lang ∧
      e ∈ dispatchChat env type lang msg recvData.receiver := by
  rcases mem_handle env recvData e h with h1 | ⟨type1, lang, msg, h1, h2, h3⟩
  · rw [h1] at hpre
    exact absurd hpre (by simp)
  · rw [ht] at h1
    injection h1 with h1
    subst h1
    exact ⟨lang, msg, h2, h3⟩

theorem partyChatGroup_some (env : ChatEnv) (g : Group) (h : partyChatGroup env = some g) :
    env.GetOriginalGroup = some g ∨
    (env.GetOriginalGroup = none ∧ env.GetGroup = some g ∧ env.group.isBGGroup g = false) := by
  unfold partyChatGroup at h
  cases ho : env.GetOriginalGroup with
  | some g0 =>
    simp only [ho] at h
    exact Or.inl h
  | none =>
    simp only [ho] at h
    cases hg : env.GetGroup with
    | none => simp [hg] at h
    | some g1 =>
      simp only [hg] at h
      split_ifs at h with hbg
      injection h with h
      subst h
      exact Or.inr ⟨rfl, rfl, by simpa using hbg⟩

theorem raidWarningGroup_some (env : ChatEnv) (g : Group) (h : raidWarningGroup env = some g) :
    env.GetGroup = some g ∧
    (env.group.isRaidGroup g = true ∨ env.CONFIG_CHAT_PARTY_RAID_WARNINGS = true) ∧
    (env.group.IsLeader g env.playerGuid = true ∨ env.group.IsAssistant g env.playerGuid = true) ∧
    env.group.isBGGroup g = false := by
  unfold raidWarningGroup at h
  cases hg : env.GetGroup with
  | none => simp [hg] at h
  | some g1 =>
    simp only [hg] at h
    split_ifs at h with hc
    injection h with h
    subst h
    simp only [Bool.or_eq_true, Bool.not_eq_true', Bool.or_eq_false_iff, not_or, not_and,
      Bool.not_eq_false] at hc
    refine ⟨rfl, ?_, ?_, ?_⟩
    · by_cases h1 : env.group.isRaidGroup g1 = true
      · exact Or.inl h1
      · right
        have := hc.1.1 (by simpa using h1)
        exact this
    · by_cases h1 : env.group.IsLeader g1 env.playerGuid = true
      · exact Or.inl h1
      · right
        have := hc.1.2 (by simpa using h1)
        exact this
    · simpa using hc.2

/-! ### Chat handler: group chat -/

/-- C13: every group broadcast in a call of `HandleMessagechatOpcode` passes
`ignorePlayersInBGRaid = false` and, for party chat, the subgroup filter
`GetMemberGroup(sender)` of the destination group (the group chosen by lines 417-423),
whereas for raid, raid-warning and battleground chat the filter is `-1`, the default that
stands for no subgroup filter. -/
theorem C13_party_broadcast_subgroup_scope (env : ChatEnv) (recvData : ChatPacket)
    (group : Group) (type : ChatMsg) (lang : Nat) (msg : String) (ignore : Bool)
    (subgroup : Int)
    (hmem : ChatEvent.BroadcastPacket group type lang msg ignore subgroup
      ∈ HandleMessagechatOpcode env recvData) :
    (recvData.opcode = ChatOpcode.CMSG_MESSAGECHAT_PARTY →
      subgroup = (env.group.GetMemberGroup group env.playerGuid : Nat) ∧ ignore = false ∧
      partyChatGroup env = some group) ∧
    (recvData.opcode = ChatOpcode.CMSG_MESSAGECHAT_RAID ∨
      recvData.opcode = ChatOpcode.CMSG_MESSAGECHAT_RAID_WARNING ∨
      recvData.opcode = ChatOpcode.CMSG_MESSAGECHAT_BATTLEGROUND →
      subgroup = -1 ∧ ignore = false) := by
  constructor
  · intro hop
    obtain ⟨l, m, -, hd⟩ := mem_handle_of_opcode env recvData ChatMsg.CHAT_MSG_PARTY _
      (by rw [hop]; rfl) hmem rfl
    obtain ⟨g, hg, h | ⟨m1, h⟩ | ⟨m1, h⟩⟩ := mem_handleParty env _ l m _ hd
    · exact absurd h (by simp)
    · exact absurd h (by simp)
    · injection h with h1 h2 h3 h4 h5 h6
      subst h1
      exact ⟨h6, h5, hg⟩
  · rintro (hop | hop | hop)
    · obtain ⟨l, m, -, hd⟩ := mem_handle_of_opcode env recvData ChatMsg.CHAT_MSG_RAID _
        (by rw [hop]; rfl) hmem rfl
      obtain ⟨g, hg, h | ⟨m1, h⟩ | ⟨m1, h⟩⟩ := mem_handleRaid env _ l m _ hd
      · exact absurd h (by simp)
      · exact absurd h (by simp)
      · injection h with h1 h2 h3 h4 h5 h6
        exact ⟨h6, h5⟩
    · obtain ⟨l, m, -, hd⟩ := mem_handle_of_opcode env recvData ChatMsg.CHAT_MSG_RAID_WARNING _
        (by rw [hop]; rfl) hmem rfl
      obtain ⟨g, hg, h | ⟨m1, h⟩ | ⟨m1, h⟩⟩ := mem_handleRaidWarning env _ l m _ hd
      · exact absurd h (by simp)
      · exact absurd h (by simp)
      · injection h with h1 h2 h3 h4 h5 h6
        exact ⟨h6, h5⟩
    · obtain ⟨l, m, -, hd⟩ := mem_handle_of_opcode env recvData ChatMsg.CHAT_MSG_BATTLEGROUND _
        (by rw [hop]; rfl) hmem rfl
      obtain ⟨g, hg, h | ⟨m1, h⟩ | ⟨m1, h⟩⟩ := mem_handleBattleground env _ l m _ hd
      · exact absurd h (by simp)
      · exact absurd h (by simp)
      · injection h with h1 h2 h3 h4 h5 h6
        exact ⟨h6, h5⟩

/-- C13 (witness): the party message of member 6 of the sample raid is broadcast to
subgroup 1, the subgroup of that member. -/
theorem C13_party_broadcast_subgroup_scope_witness :
    ChatEvent.BroadcastPacket Group.sampleRaid ChatMsg.CHAT_MSG_PARTY 7 "hi" false 1
      ∈ HandleMessagechatOpcode sampleChatEnv (samplePacket ChatOpcode.CMSG_MESSAGECHAT_PARTY) ∧
    (1 : Int) = (sampleChatEnv.group.GetMemberGroup Group.sampleRaid
      sampleChatEnv.playerGuid : Nat) :=
  ⟨by decide,
    ((C13_party_broadcast_subgroup_scope sampleChatEnv
      (samplePacket ChatOpcode.CMSG_MESSAGECHAT_PARTY) Group.sampleRaid ChatMsg.CHAT_MSG_PARTY 7
      "hi" false 1 (by decide)).1 rfl).1⟩

/-- C16: in a call of `HandleMessagechatOpcode` for a raid warning, a group broadcast or a
chat hook occurs only if the sender is in a group (`GetGroup`), that group is a raid group or
party raid warnings are enabled, the sender is its leader or an assistant, and it is not a
battleground group; the broadcast and the hooks are for that group.  In every other case the
call has neither a broadcast nor a hook. -/
theorem C16_raid_warning_conditions (env : ChatEnv) (recvData : ChatPacket)
    (hop : recvData.opcode = ChatOpcode.CMSG_MESSAGECHAT_RAID_WARNING) :
    (∀ e ∈ HandleMessagechatOpcode env recvData, e.isBroadcast = true ∨ e.isHook = true →
      ∃ g, env.GetGroup = some g ∧ e.group? = some g ∧
        (env.group.isRaidGroup g = true ∨ env.CONFIG_CHAT_PARTY_RAID_WARNINGS = true) ∧
        (env.group.IsLeader g env.playerGuid = true ∨
          env.group.IsAssistant g env.playerGuid = true) ∧
        env.group.isBGGroup g = false) ∧
    ((∀ g, env.GetGroup = some g →
        ¬ ((env.group.isRaidGroup g = true ∨ env.CONFIG_CHAT_PARTY_RAID_WARNINGS = true) ∧
          (env.group.IsLeader g env.playerGuid = true ∨
            env.group.IsAssistant g env.playerGuid = true) ∧
          env.group.isBGGroup g = false)) →
      ∀ e ∈ HandleMessagechatOpcode env recvData, e.isBroadcast = false ∧ e.isHook = false) := by
  have hmain : ∀ e ∈ HandleMessagechatOpcode env recvData,
      e.isBroadcast = true ∨ e.isHook = true →
      ∃ g, env.GetGroup = some g ∧ e.group? = some g ∧
        (env.group.isRaidGroup g = true ∨ env.CONFIG_CHAT_PARTY_RAID_WARNINGS = true) ∧
        (env.group.IsLeader g env.playerGuid = true ∨
          env.group.IsAssistant g env.playerGuid = true) ∧
        env.group.isBGGroup g = false := by
    intro e he hev
    have hpre : e.isPreliminary = false := by
      cases hp : e.isPreliminary with
      | false => rfl
      | true =>
        obtain ⟨h1, -, h3, -⟩ := preliminary_facts e hp
        rw [h1, h3] at hev
        simp at hev
    obtain ⟨l, m, -, hd⟩ := mem_handle_of_opcode env recvData ChatMsg.CHAT_MSG_RAID_WARNING e
      (by rw [hop]; rfl) he hpre
    obtain ⟨g, hg, hcase⟩ := mem_handleRaidWarning env _ l m e hd
    obtain ⟨h1, h2, h3, h4⟩ := raidWarningGroup_some env g hg
    refine ⟨g, h1, ?_, h2, h3, h4⟩
    rcases hcase with h | ⟨m1, h⟩ | ⟨m1, h⟩ <;> subst h <;> rfl
  refine ⟨hmain, ?_⟩
  intro hnot e he
  constructor
  · cases hb : e.isBroadcast with
    | false => rfl
    | true =>
      obtain ⟨g, h1, -, h2, h3, h4⟩ := hmain e he (Or.inl hb)
      exact absurd ⟨h2, h3, h4⟩ (hnot g h1)
  · cases hb : e.isHook with
    | false => rfl
    | true =>
      obtain ⟨g, h1, -, h2, h3, h4⟩ := hmain e he (Or.inr hb)
      exact absurd ⟨h2, h3, h4⟩ (hnot g h1)

/-- C16 (witness): the raid warning of the leader of the sample raid is broadcast. -/
theorem C16_raid_warning_conditions_witness :
    (samplePacket ChatOpcode.CMSG_MESSAGECHAT_RAID_WARNING).opcode
      = ChatOpcode.CMSG_MESSAGECHAT_RAID_WARNING ∧
    ChatEvent.BroadcastPacket Group.sampleRaid ChatMsg.CHAT_MSG_RAID_WARNING 7 "hi" false (-1)
      ∈ HandleMessagechatOpcode leaderChatEnv
          (samplePacket ChatOpcode.CMSG_MESSAGECHAT_RAID_WARNING) ∧
    ∃ g, leaderChatEnv.GetGroup = some g ∧
      (ChatEvent.BroadcastPacket Group.sampleRaid ChatMsg.CHAT_MSG_RAID_WARNING 7 "hi" false
        (-1)).group? = some g ∧
      (leaderChatEnv.group.isRaidGroup g = true ∨
        leaderChatEnv.CONFIG_CHAT_PARTY_RAID_WARNINGS = true) ∧
      (leaderChatEnv.group.IsLeader g leaderChatEnv.playerGuid = true ∨
        leaderChatEnv.group.IsAssistant g leaderChatEnv.playerGuid = true) ∧
      leaderChatEnv.group.isBGGroup g = false :=
  ⟨rfl, by decide,
    (C16_raid_warning_conditions leaderChatEnv
      (samplePacket ChatOpcode.CMSG_MESSAGECHAT_RAID_WARNING) rfl).1 _ (by decide)
      (Or.inl rfl)⟩

/-- C17: in a call of `HandleMessagechatOpcode` for party, raid or battleground chat, every
chat hook and every group broadcast is for the destination group of the branch and carries
the `*_LEADER` type if `IsLeader(sender)` holds for that group, and the plain type
otherwise. -/
theorem C17_leader_message_type (env : ChatEnv) (recvData : ChatPacket) (e : ChatEvent)
    (hmem : e ∈ HandleMessagechatOpcode env recvData)
    (hev : e.isHook = true ∨ e.isBroadcast = true) :
    (recvData.opcode = ChatOpcode.CMSG_MESSAGECHAT_PARTY →
      ∃ g, partyChatGroup env = some g ∧ e.group? = some g ∧
        e.type? = some (if env.group.IsLeader g env.playerGuid
          then ChatMsg.CHAT_MSG_PARTY_LEADER else ChatMsg.CHAT_MSG_PARTY)) ∧
    (recvData.opcode = ChatOpcode.CMSG_MESSAGECHAT_RAID →
      ∃ g, raidChatGroup env = some g ∧ e.group? = some g ∧
        e.type? = some (if env.group.IsLeader g env.playerGuid
          then ChatMsg.CHAT_MSG_RAID_LEADER else ChatMsg.CHAT_MSG_RAID)) ∧
    (recvData.opcode = ChatOpcode.CMSG_MESSAGECHAT_BATTLEGROUND →
      ∃ g, battlegroundChatGroup env = some g ∧ e.group? = some g ∧
        e.type? = some (if env.group.IsLeader g env.playerGuid
          then ChatMsg.CHAT_MSG_BATTLEGROUND_LEADER else ChatMsg.CHAT_MSG_BATTLEGROUND)) := by
  have hpre : e.isPreliminary = false := by
    cases hp : e.isPreliminary with
    | false => rfl
    | true =>
      obtain ⟨h1, -, h3, -⟩ := preliminary_facts e hp
      rw [h1, h3] at hev
      simp at hev
  refine ⟨?_, ?_, ?_⟩
  · intro hop
    obtain ⟨l, m, -, hd⟩ := mem_handle_of_opcode env recvData ChatMsg.CHAT_MSG_PARTY e
      (by rw [hop]; rfl) hmem hpre
    obtain ⟨g, hg, hcase⟩ := mem_handleParty env _ l m e hd
    refine ⟨g, hg, ?_⟩
    rcases hcase with h | ⟨m1, h⟩ | ⟨m1, h⟩ <;> subst h <;> exact ⟨rfl, rfl⟩
  · intro hop
    obtain ⟨l, m, -, hd⟩ := mem_handle_of_opcode env recvData ChatMsg.CHAT_MSG_RAID e
      (by rw [hop]; rfl) hmem hpre
    obtain ⟨g, hg, hcase⟩ := mem_handleRaid env _ l m e hd
    refine ⟨g, hg, ?_⟩
    rcases hcase with h | ⟨m1, h⟩ | ⟨m1, h⟩ <;> subst h <;> exact ⟨rfl, rfl⟩
  · intro hop
    obtain ⟨l, m, -, hd⟩ := mem_handle_of_opcode env recvData ChatMsg.CHAT_MSG_BATTLEGROUND e
      (by rw [hop]; rfl) hmem hpre
    obtain ⟨g, hg, hcase⟩ := mem_handleBattleground env _ l m e hd
    refine ⟨g, hg, ?_⟩
    rcases hcase with h | ⟨m1, h⟩ | ⟨m1, h⟩ <;> subst h <;> exact ⟨rfl, rfl⟩

/-- C17 (witness): the raid message of the leader of the sample raid is broadcast with the
type `CHAT_MSG_RAID_LEADER`. -/
theorem C17_leader_message_type_witness :
    ChatEvent.BroadcastPacket Group.sampleRaid ChatMsg.CHAT_MSG_RAID_LEADER 7 "hi" false (-1)
      ∈ HandleMessagechatOpcode leaderChatEnv (samplePacket ChatOpcode.CMSG_MESSAGECHAT_RAID) ∧
    ∃ g, raidChatGroup leaderChatEnv = some g ∧
      (ChatEvent.BroadcastPacket Group.sampleRaid ChatMsg.CHAT_MSG_RAID_LEADER 7 "hi" false
        (-1)).group? = some g ∧
      (ChatEvent.BroadcastPacket Group.sampleRaid ChatMsg.CHAT_MSG_RAID_LEADER 7 "hi" false
        (-1)).type? = some (if leaderChatEnv.group.IsLeader g leaderChatEnv.playerGuid
          then ChatMsg.CHAT_MSG_RAID_LEADER else ChatMsg.CHAT_MSG_RAID) :=
  ⟨by decide,
    (C17_leader_message_type leaderChatEnv (samplePacket ChatOpcode.CMSG_MESSAGECHAT_RAID)
      (ChatEvent.BroadcastPacket Group.sampleRaid ChatMsg.CHAT_MSG_RAID_LEADER 7 "hi" false
        (-1)) (by decide) (Or.inr rfl)).2.1 rfl⟩

/-- C20: if the original group of the player is never a battleground group, every group to
which a call of `HandleMessagechatOpcode` for party chat broadcasts is not a battleground
group. -/
theorem C20_party_chat_never_to_battleground (env : ChatEnv) (recvData : ChatPacket)
    (group : Group) (type : ChatMsg) (lang : Nat) (msg : String) (ignore : Bool)
    (subgroup : Int)
    (hop : recvData.opcode = ChatOpcode.CMSG_MESSAGECHAT_PARTY)
    (horig : ∀ g, env.GetOriginalGroup = some g → env.group.isBGGroup g = false)
    (hmem : ChatEvent.BroadcastPacket group type lang msg ignore subgroup
      ∈ HandleMessagechatOpcode env recvData) :
    env.group.isBGGroup group = false := by
  obtain ⟨l, m, -, hd⟩ := mem_handle_of_opcode env recvData ChatMsg.CHAT_MSG_PARTY _
    (by rw [hop]; rfl) hmem rfl
  obtain ⟨g, hg, h | ⟨m1, h⟩ | ⟨m1, h⟩⟩ := mem_handleParty env _ l m _ hd
  · exact absurd h (by simp)
  · exact absurd h (by simp)
  · injection h with h1
    subst h1
    rcases partyChatGroup_some env group hg with h2 | ⟨-, -, h2⟩
    · exact horig group h2
    · exact h2

/-- C20 (witness): the party message of a player whose current group is a battleground raid
goes to his original group, the five-member party. -/
theorem C20_party_chat_never_to_battleground_witness :
    (samplePacket ChatOpcode.CMSG_MESSAGECHAT_PARTY).opcode
      = ChatOpcode.CMSG_MESSAGECHAT_PARTY ∧
    (∀ g, battlegroundChatEnv.GetOriginalGroup = some g →
      battlegroundChatEnv.group.isBGGroup g = false) ∧
    ChatEvent.BroadcastPacket Group.fullParty ChatMsg.CHAT_MSG_PARTY_LEADER 7 "hi" false 0
      ∈ HandleMessagechatOpcode battlegroundChatEnv
          (samplePacket ChatOpcode.CMSG_MESSAGECHAT_PARTY) ∧
    battlegroundChatEnv.group.isBGGroup Group.fullParty = false :=
  ⟨rfl, fun g h => by cases h; rfl, by decide,
    C20_party_chat_never_to_battleground battlegroundChatEnv
      (samplePacket ChatOpcode.CMSG_MESSAGECHAT_PARTY) Group.fullParty
      ChatMsg.CHAT_MSG_PARTY_LEADER 7 "hi" false 0 rfl (fun g h => by cases h; rfl)
      (by decide)⟩

/-! ### Chat handler: the language of a message -/

theorem allEvents_nil (P : ChatEvent → Prop) : AllEvents P [] ↔ True := by
  simp [AllEvents]

theorem allEvents_cons (P : ChatEvent → Prop) (e : ChatEvent) (l : List ChatEvent) :
    AllEvents P (e :: l) ↔ P e ∧ AllEvents P l := by
  simp [AllEvents]

theorem allEvents_append (P : ChatEvent → Prop) (l1 l2 : List ChatEvent) :
    AllEvents P (l1 ++ l2) ↔ AllEvents P l1 ∧ AllEvents P l2 := by
  simp only [AllEvents, List.mem_append]
  constructor
  · intro h
    exact ⟨fun e he => h e (Or.inl he), fun e he => h e (Or.inr he)⟩
  · rintro ⟨h1, h2⟩ e (he | he)
    · exact h1 e he
    · exact h2 e he

theorem allEvents_withHooks (P : ChatEvent → Prop) (env : ChatEnv) (script : Bool)
    (type : ChatMsg) (lang : Nat) (msg : String) (target : ChatTarget)
    (deliver : String → List ChatEvent)
    (h1 : P (ChatEvent.OnPlayerChat type lang msg target))
    (h2 : ∀ m, P (ChatEvent.ElunaOnChat type lang m target))
    (h3 : ∀ m, AllEvents P (deliver m)) :
    AllEvents P (withHooks env script type lang msg target deliver) := by
  intro e he
  rcases mem_withHooks _ _ _ _ _ _ _ e he with h | ⟨m, h⟩ | ⟨m, h⟩
  · rw [h]; exact h1
  · rw [h]; exact h2 m
  · exact h3 m e h

theorem lang_dispatch_addon (env : ChatEnv) (type : ChatMsg) (msg receiver : String)
    (hne : type ≠ ChatMsg.CHAT_MSG_EMOTE) :
    AllEvents (carriesOnly env.LANG_ADDON)
      (dispatchChat env type env.LANG_ADDON msg receiver) := by
  cases type
  case CHAT_MSG_EMOTE => exact absurd rfl hne
  all_goals
    simp only [dispatchChat, handleSay, handleYell, handleWhisper, handleParty, handleGuild,
      handleRaid, handleRaidWarning, handleBattleground, handleChannel, handleAfk, handleDnd]
  all_goals repeat' (first | split_ifs | split)
  all_goals try simp only [allEvents_append, allEvents_cons, allEvents_nil, and_true, true_and,
    List.nil_append]
  all_goals repeat' apply And.intro
  all_goals first
    | (apply allEvents_withHooks <;> intros <;>
        simp [allEvents_cons, allEvents_nil, carriesOnly, ChatEvent.lang?])
    | simp [carriesOnly, ChatEvent.lang?]

theorem readLanguage_addon_ok (env : ChatEnv) (type : ChatMsg) (l : Nat)
    (hf : hasLanguageField type = true)
    (h : readLanguage env type env.LANG_ADDON = Except.ok l) :
    l = env.LANG_ADDON ∧ addonLanguageValidFor type = true ∧
    env.CONFIG_ADDON_CHANNEL = true := by
  unfold readLanguage at h
  rw [if_pos hf] at h
  by_cases hu : env.LANG_ADDON = env.LANG_UNIVERSAL
  · rw [if_pos hu] at h
    exact absurd h (by simp)
  · rw [if_neg hu] at h
    cases hd : env.GetLanguageDescSkill env.LANG_ADDON with
    | none =>
      rw [hd] at h
      exact absurd h (by simp)
    | some skill_id =>
      rw [hd] at h
      simp only at h
      by_cases hs : skill_id ≠ 0 ∧ env.HasSkill skill_id = false ∧
          env.comprehendLanguageAuras.any (fun misc => misc == toInt32 env.LANG_ADDON) = false
      · rw [if_pos hs] at h
        exact absurd h (by simp)
      · rw [if_neg hs, if_pos trivial] at h
        by_cases hv : addonLanguageValidFor type = true
        · rw [if_pos hv] at h
          by_cases hc : env.CONFIG_ADDON_CHANNEL = true
          · rw [if_pos hc] at h
            injection h with h
            exact ⟨h.symm, hv, hc⟩
          · rw [if_neg hc] at h
            exact absurd h (by simp)
        · rw [if_neg hv] at h
          exact absurd h (by simp)

theorem readLanguage_ok_canSpeak (env : ChatEnv) (type : ChatMsg) (lang l : Nat)
    (hf : hasLanguageField type = true) (hne : lang ≠ env.LANG_ADDON)
    (h : readLanguage env type lang = Except.ok l) : env.CanSpeak = true := by
  unfold readLanguage at h
  rw [if_pos hf] at h
  by_cases hu : lang = env.LANG_UNIVERSAL
  · rw [if_pos hu] at h
    exact absurd h (by simp)
  · rw [if_neg hu] at h
    cases hd : env.GetLanguageDescSkill lang with
    | none =>
      rw [hd] at h
      exact absurd h (by simp)
    | some skill_id =>
      rw [hd] at h
      simp only at h
      by_cases hs : skill_id ≠ 0 ∧ env.HasSkill skill_id = false ∧
          env.comprehendLanguageAuras.any (fun misc => misc == toInt32 lang) = false
      · rw [if_pos hs] at h
        exact absurd h (by simp)
      · rw [if_neg hs, if_neg hne] at h
        by_cases hc : env.CanSpeak = true
        · exact hc
        · rw [if_neg hc] at h
          exact absurd h (by simp)

theorem handle_dropped_of_no_language (env : ChatEnv) (recvData : ChatPacket) (type : ChatMsg)
    (htype : chatTypeOfOpcode recvData.opcode = some type)
    (hno : ∀ l, readLanguage env type recvData.lang ≠ Except.ok l) :
    ∀ e ∈ HandleMessagechatOpcode env recvData, e.isDiagnostic = true := by
  intro e he
  unfold HandleMessagechatOpcode at he
  simp only [htype] at he
  split_ifs at he
  · simp only [List.mem_singleton] at he
    subst he
    rfl
  · cases hl : readLanguage env type recvData.lang with
    | error events =>
      simp only [hl] at he
      exact readLanguage_error_diagnostic env type recvData.lang events hl e he
    | ok l => exact absurd hl (hno l)

theorem readLanguage_addon_independent (env : ChatEnv) (type : ChatMsg)
    (gm twoSide canSpeak group guild : Bool) (auras : List Int) :
    readLanguage
      { env with
        IsGameMaster := gm, permTwoSideInteractionChat := twoSide, CanSpeak := canSpeak,
        CONFIG_ALLOW_TWO_SIDE_INTERACTION_GROUP := group,
        CONFIG_ALLOW_TWO_SIDE_INTERACTION_GUILD := guild, modLanguageAuras := auras }
      type env.LANG_ADDON
    = readLanguage env type env.LANG_ADDON := by
  unfold readLanguage
  dsimp only
  by_cases hf : hasLanguageField type = true
  · rw [if_pos hf, if_pos hf]
    by_cases hu : env.LANG_ADDON = env.LANG_UNIVERSAL
    · rw [if_pos hu, if_pos hu]
    · rw [if_neg hu, if_neg hu]
      cases env.GetLanguageDescSkill env.LANG_ADDON with
      | none => rfl
      | some skill_id =>
        dsimp only
        by_cases hs : skill_id ≠ 0 ∧ env.HasSkill skill_id = false ∧
            env.comprehendLanguageAuras.any (fun misc => misc == toInt32 env.LANG_ADDON) = false
        · rw [if_pos hs, if_pos hs]
        · rw [if_neg hs, if_neg hs, if_pos rfl, if_pos rfl]
  · rw [if_neg hf, if_neg hf]

theorem handleWithLanguage_independent (env : ChatEnv) (type : ChatMsg) (lang : Nat)
    (recvData : ChatPacket) (canSpeak group guild : Bool) (auras : List Int) :
    handleWithLanguage
      { env with
        CanSpeak := canSpeak, CONFIG_ALLOW_TWO_SIDE_INTERACTION_GROUP := group,
        CONFIG_ALLOW_TWO_SIDE_INTERACTION_GUILD := guild, modLanguageAuras := auras }
      type lang recvData
    = handleWithLanguage env type lang recvData := rfl

/-- C18: for a message whose packet carries a language and whose language is `LANG_ADDON`:
the valid message types are PARTY, RAID, GUILD, BATTLEGROUND and WHISPER; the language stage
lets the message through only if its type is one of these five and the addon channel is
enabled, and then with the language `LANG_ADDON`; for every other type, or with the addon
channel disabled, the call does nothing but report (no command is parsed, no hook is called,
nothing is delivered); and a message of a valid type, with the addon channel enabled, a
known `LANG_ADDON` and a type below `MAX_CHAT_MSG_TYPE`, is processed by the rest of the
handler. -/
theorem C18_addon_language_valid_types (env : ChatEnv) (recvData : ChatPacket)
    (type : ChatMsg) (htype : chatTypeOfOpcode recvData.opcode = some type)
    (hfield : hasLanguageField type = true) (hlang : recvData.lang = env.LANG_ADDON) :
    (addonLanguageValidFor type = true ↔
      type = ChatMsg.CHAT_MSG_PARTY ∨ type = ChatMsg.CHAT_MSG_RAID ∨
      type = ChatMsg.CHAT_MSG_GUILD ∨ type = ChatMsg.CHAT_MSG_BATTLEGROUND ∨
      type = ChatMsg.CHAT_MSG_WHISPER) ∧
    (∀ l, readLanguage env type recvData.lang = Except.ok l →
      l = env.LANG_ADDON ∧ addonLanguageValidFor type = true ∧
      env.CONFIG_ADDON_CHANNEL = true) ∧
    ((addonLanguageValidFor type = false ∨ env.CONFIG_ADDON_CHANNEL = false) →
      ∀ e ∈ HandleMessagechatOpcode env recvData, e.isDiagnostic = true) ∧
    (addonLanguageValidFor type = true → env.CONFIG_ADDON_CHANNEL = true →
      env.LANG_ADDON ≠ env.LANG_UNIVERSAL →
      (∃ skill, env.GetLanguageDescSkill env.LANG_ADDON = some skill ∧
        (skill = 0 ∨ env.HasSkill skill = true ∨
          env.comprehendLanguageAuras.any (fun misc => misc == toInt32 env.LANG_ADDON)
            = true)) →
      env.chatMsgValue type < env.MAX_CHAT_MSG_TYPE →
      HandleMessagechatOpcode env recvData
        = handleWithLanguage env type env.LANG_ADDON recvData) := by
  have hok : ∀ l, readLanguage env type recvData.lang = Except.ok l →
      l = env.LANG_ADDON ∧ addonLanguageValidFor type = true ∧
      env.CONFIG_ADDON_CHANNEL = true := by
    intro l hl
    rw [hlang] at hl
    exact readLanguage_addon_ok env type l hfield hl
  refine ⟨?_, hok, ?_, ?_⟩
  · cases type <;> simp [addonLanguageValidFor]
  · intro hbad
    apply handle_dropped_of_no_language env recvData type htype
    intro l hl
    obtain ⟨-, h1, h2⟩ := hok l hl
    rcases hbad with h | h
    · rw [h1] at h
      exact absurd h (by simp)
    · rw [h2] at h
      exact absurd h (by simp)
  · intro hv hc hu hknown hmax
    obtain ⟨skill, hd, hs⟩ := hknown
    have hread : readLanguage env type recvData.lang = Except.ok env.LANG_ADDON := by
      rw [hlang]
      unfold readLanguage
      rw [if_pos hfield, if_neg hu, hd]
      dsimp only
      have hns : ¬ (skill ≠ 0 ∧ env.HasSkill skill = false ∧
          env.comprehendLanguageAuras.any (fun misc => misc == toInt32 env.LANG_ADDON)
            = false) := by
        rintro ⟨h1, h2, h3⟩
        rcases hs with h | h | h
        · exact h1 h
        · rw [h2] at h
          exact absurd h (by simp)
        · rw [h3] at h
          exact absurd h (by simp)
      rw [if_neg hns, if_pos rfl, if_pos hv, if_pos hc]
    unfold HandleMessagechatOpcode
    simp only [htype, hread]
    rw [if_neg (by omega)]

/-- C18 (witness): a say message in the language `LANG_ADDON` is dropped. -/
theorem C18_addon_language_valid_types_witness :
    chatTypeOfOpcode (addonPacket ChatOpcode.CMSG_MESSAGECHAT_SAY).opcode
      = some ChatMsg.CHAT_MSG_SAY ∧
    hasLanguageField ChatMsg.CHAT_MSG_SAY = true ∧
    (addonPacket ChatOpcode.CMSG_MESSAGECHAT_SAY).lang = sampleChatEnv.LANG_ADDON ∧
    (∀ e ∈ HandleMessagechatOpcode sampleChatEnv (addonPacket ChatOpcode.CMSG_MESSAGECHAT_SAY),
      e.isDiagnostic = true) :=
  ⟨rfl, rfl, rfl,
    (C18_addon_language_valid_types sampleChatEnv
      (addonPacket ChatOpcode.CMSG_MESSAGECHAT_SAY) ChatMsg.CHAT_MSG_SAY rfl rfl rfl).2.2.1
      (Or.inl rfl)⟩

/-- C19: for a message whose packet carries a language: (1) if the language is `LANG_ADDON`,
the language stage never rewrites it, every hook call and every delivery of the call
carries `LANG_ADDON`, the language stage does not depend on game-master mode, on the
two-side interaction permission and settings, on the language-modifying auras or on
`CanSpeak()`, and the whole call does not depend on `CanSpeak()`, on the two-side group and
guild settings or on the language-modifying auras; (2) if the language is not `LANG_ADDON`
and `CanSpeak()` is false, the call does nothing but report: the message is dropped. -/
theorem C19_addon_language_untouched (env : ChatEnv) (recvData : ChatPacket) (type : ChatMsg)
    (htype : chatTypeOfOpcode recvData.opcode = some type)
    (hfield : hasLanguageField type = true) :
    (recvData.lang = env.LANG_ADDON →
      (∀ l, readLanguage env type recvData.lang = Except.ok l → l = env.LANG_ADDON) ∧
      (∀ e ∈ HandleMessagechatOpcode env recvData, ∀ l, e.lang? = some l →
        l = env.LANG_ADDON) ∧
      (∀ (gm twoSide canSpeak group guild : Bool) (auras : List Int),
        readLanguage
          { env with
            IsGameMaster := gm, permTwoSideInteractionChat := twoSide, CanSpeak := canSpeak,
            CONFIG_ALLOW_TWO_SIDE_INTERACTION_GROUP := group,
            CONFIG_ALLOW_TWO_SIDE_INTERACTION_GUILD := guild, modLanguageAuras := auras }
          type recvData.lang
        = readLanguage env type recvData.lang) ∧
      (∀ (canSpeak group guild : Bool) (auras : List Int),
        HandleMessagechatOpcode
          { env with
            CanSpeak := canSpeak, CONFIG_ALLOW_TWO_SIDE_INTERACTION_GROUP := group,
            CONFIG_ALLOW_TWO_SIDE_INTERACTION_GUILD := guild, modLanguageAuras := auras }
          recvData
        = HandleMessagechatOpcode env recvData)) ∧
    (recvData.lang ≠ env.LANG_ADDON → env.CanSpeak = false →
      ∀ e ∈ HandleMessagechatOpcode env recvData, e.isDiagnostic = true) := by
  constructor
  · intro hlang
    have hok : ∀ l, readLanguage env type recvData.lang = Except.ok l → l = env.LANG_ADDON := by
      intro l hl
      rw [hlang] at hl
      exact (readLanguage_addon_ok env type l hfield hl).1
    have hne : type ≠ ChatMsg.CHAT_MSG_EMOTE := by
      intro h
      rw [h] at hfield
      exact absurd hfield (by decide)
    refine ⟨hok, ?_, ?_, ?_⟩
    · intro e he l hl
      rcases mem_handle env recvData e he with hp | ⟨type1, lang, msg, h1, h2, h3⟩
      · rw [(preliminary_facts e hp).2.2.2.1] at hl
        exact absurd hl (by simp)
      · rw [htype] at h1
        injection h1 with h1
        subst h1
        have hlang1 := hok lang h2
        subst hlang1
        exact lang_dispatch_addon env type msg recvData.receiver hne e h3 l hl
    · intro gm twoSide canSpeak group guild auras
      rw [hlang]
      exact readLanguage_addon_independent env type gm twoSide canSpeak group guild auras
    · intro canSpeak group guild auras
      have hr := readLanguage_addon_independent env type env.IsGameMaster
        env.permTwoSideInteractionChat canSpeak group guild auras
      unfold HandleMessagechatOpcode
      simp only [htype]
      rw [hlang]
      have hr1 : readLanguage
          { env with
            CanSpeak := canSpeak, CONFIG_ALLOW_TWO_SIDE_INTERACTION_GROUP := group,
            CONFIG_ALLOW_TWO_SIDE_INTERACTION_GUILD := guild, modLanguageAuras := auras }
          type env.LANG_ADDON = readLanguage env type env.LANG_ADDON := hr
      rw [hr1]
      split_ifs
      · rfl
      · cases readLanguage env type env.LANG_ADDON with
        | error events => rfl
        | ok lang =>
          exact handleWithLanguage_independent env type lang recvData canSpeak group guild
            auras
  · intro hne hmute
    apply handle_dropped_of_no_language env recvData type htype
    intro l hl
    have := readLanguage_ok_canSpeak env type recvData.lang l hfield hne hl
    rw [hmute] at this
    exact absurd this (by simp)

/-- C19 (witness): the raid message in language 7 of a muted leader is dropped. -/
theorem C19_addon_language_untouched_witness :
    chatTypeOfOpcode (samplePacket ChatOpcode.CMSG_MESSAGECHAT_RAID).opcode
      = some ChatMsg.CHAT_MSG_RAID ∧
    hasLanguageField ChatMsg.CHAT_MSG_RAID = true ∧
    (∀ e ∈ HandleMessagechatOpcode { leaderChatEnv with CanSpeak := false }
        (samplePacket ChatOpcode.CMSG_MESSAGECHAT_RAID),
      e.isDiagnostic = true) :=
  ⟨rfl, rfl,
    (C19_addon_language_untouched { leaderChatEnv with CanSpeak := false }
      (samplePacket ChatOpcode.CMSG_MESSAGECHAT_RAID) ChatMsg.CHAT_MSG_RAID rfl rfl).2
      (by decide) rfl⟩

/-! ### Chat handler: the receiver of raid chat -/

theorem raidChatGroup_some (env : ChatEnv) (g : Group) (h : raidChatGroup env = some g) :
    env.GetOriginalGroup = some g ∨
    (env.GetOriginalGroup = none ∧ env.GetGroup = some g ∧ env.group.isBGGroup g = false ∧
      env.group.isRaidGroup g = true) := by
  unfold raidChatGroup at h
  cases ho : env.GetOriginalGroup with
  | some g0 =>
    simp only [ho] at h
    exact Or.inl h
  | none =>
    simp only [ho] at h
    cases hg : env.GetGroup with
    | none => simp [hg] at h
    | some g1 =>
      simp only [hg] at h
      split_ifs at h with hc
      injection h with h
      subst h
      simp only [Bool.or_eq_true, Bool.not_eq_true', not_or, Bool.not_eq_true,
        Bool.not_eq_false] at hc
      exact Or.inr ⟨rfl, rfl, hc.1, hc.2⟩

/-- Every broadcast of a call for raid chat (opcode `CMSG_MESSAGECHAT_RAID`) goes to the
original group of the player if he has one, and otherwise to his current group, which is then
not a battleground group and is a raid group: the test `isRaidGroup()` guards the second
path only. -/
theorem raid_broadcast_receiver_cases (env : ChatEnv) (recvData : ChatPacket)
    (group : Group) (type : ChatMsg) (lang : Nat) (msg : String) (ignore : Bool)
    (subgroup : Int)
    (hop : recvData.opcode = ChatOpcode.CMSG_MESSAGECHAT_RAID)
    (hmem : ChatEvent.BroadcastPacket group type lang msg ignore subgroup
      ∈ HandleMessagechatOpcode env recvData) :
    env.GetOriginalGroup = some group ∨
      (env.GetOriginalGroup = none ∧ env.GetGroup = some group ∧
        env.group.isBGGroup group = false ∧ env.group.isRaidGroup group = true) := by
  obtain ⟨l, m, -, hd⟩ := mem_handle_of_opcode env recvData ChatMsg.CHAT_MSG_RAID _
    (by rw [hop]; rfl) hmem rfl
  obtain ⟨g, hg, h | ⟨m1, h⟩ | ⟨m1, h⟩⟩ := mem_handleRaid env _ l m _ hd
  · exact absurd h (by simp)
  · exact absurd h (by simp)
  · injection h with h1
    subst h1
    exact raidChatGroup_some env group hg

/-- C21: the claim fails on the code at a player whose original group is not a raid group.
The player of the session `battlegroundChatEnv` has the five-member party as original group,
for which `isRaidGroup()` is false: his raid chat message (opcode `CMSG_MESSAGECHAT_RAID`) is
broadcast to that party.  The other path of the same branch refuses the same group: when the
party is the current group of the player and he has no original group, the handler returns
after the command parsing, without any hook call or broadcast. -/
theorem C21_raid_broadcast_to_non_raid_group :
    (samplePacket ChatOpcode.CMSG_MESSAGECHAT_RAID).opcode
      = ChatOpcode.CMSG_MESSAGECHAT_RAID ∧
    battlegroundChatEnv.GetOriginalGroup = some Group.fullParty ∧
    battlegroundChatEnv.group.isRaidGroup Group.fullParty = false ∧
    ChatEvent.BroadcastPacket Group.fullParty ChatMsg.CHAT_MSG_RAID_LEADER 7 "hi" false (-1)
      ∈ HandleMessagechatOpcode battlegroundChatEnv
          (samplePacket ChatOpcode.CMSG_MESSAGECHAT_RAID) ∧
    HandleMessagechatOpcode
        { battlegroundChatEnv with GetOriginalGroup := none, GetGroup := some Group.fullParty }
        (samplePacket ChatOpcode.CMSG_MESSAGECHAT_RAID)
      = [ChatEvent.ParseCommands false "hi"] :=
  ⟨rfl, rfl, by decide, by decide, by decide⟩

end Eluna
